import Mathlib

/-!
# picogl: meshes, device buffers and indirect draw commands

A shallow embedding of the mesh layer of `include/picogl/picogl.hpp`
(`Buffer`, `Mesh::set_indices`, `Mesh::set_vertex_attributes`,
`Mesh::set_instances_count`, `Mesh::combine`, `Mesh::draw`), of the handle
class `GLObject`, of the creation of textures and framebuffer attachments,
of the framebuffer binding and blit functions, of `Shader::make` and
`Program::make`, and of the framebuffer part of `framework::Viewport`,
together with the part of the OpenGL device these functions talk to.

Conventions of the embedding.

* A C++ member function that mutates `*this` is a Lean function from the old
  object to the new one.  A function that can end in a failed `PICOGL_ASSERT`,
  a thrown `std::out_of_range` or an access outside a vector returns
  `Except Failure _`.
* The device is an explicit value: `Device` hands out object names, and the
  data store of a buffer object is carried by the `Buffer` value that owns the
  name (buffers are move-only in the source, so a store has one owner).
  Functions whose effect is a sequence of device commands return that
  sequence (`DrawCall`, `TextureCall`, `FramebufferCall`, `FramebufferUseCall`,
  `SamplerCall`, `ShaderCall`); where a claim is about the device state the
  commands leave, the commands are replayed on a small model of that state
  (`attached_textures`, `blits`, `TextureUnits`).
* `GLuint`, `GLsizei`, `GLsizeiptr` and `std::size_t` values are natural
  numbers.  The development describes executions in which every counter and
  byte size stays inside its machine type.
-/

namespace picogl

abbrev GLenum := Nat
abbrev GLuint := Nat
abbrev GLsizei := Nat
abbrev GLsizeiptr := Nat
abbrev GLintptr := Nat
abbrev Byte := Fin 256

/-! ## OpenGL enumerants (values fixed by the OpenGL headers) -/

def GL_POINTS : GLenum := 0x0000
def GL_LINES : GLenum := 0x0001
def GL_TRIANGLES : GLenum := 0x0004
def GL_TRIANGLE_STRIP : GLenum := 0x0005
def GL_BYTE : GLenum := 0x1400
def GL_UNSIGNED_BYTE : GLenum := 0x1401
def GL_SHORT : GLenum := 0x1402
def GL_UNSIGNED_SHORT : GLenum := 0x1403
def GL_INT : GLenum := 0x1404
def GL_UNSIGNED_INT : GLenum := 0x1405
def GL_FLOAT : GLenum := 0x1406
def GL_DOUBLE : GLenum := 0x140A
def GL_HALF_FLOAT : GLenum := 0x140B
def GL_FIXED : GLenum := 0x140C
def GL_ARRAY_BUFFER : GLenum := 0x8892
def GL_ELEMENT_ARRAY_BUFFER : GLenum := 0x8893
def GL_DRAW_INDIRECT_BUFFER : GLenum := 0x8F3F

/-- The ways a call can end without returning. -/
inductive Failure where
  /-- a `PICOGL_ASSERT` whose condition is false -/
  | assertion
  /-- the exception `std::out_of_range` thrown by `unordered_map::at` -/
  | out_of_range
  /-- undefined behaviour: an access outside a vector or array, a division by zero -/
  | undefined
  deriving DecidableEq, Repr

/-- The macro `PICOGL_ASSERT(cond)`. -/
def PICOGL_ASSERT (cond : Bool) : Except Failure Unit :=
  if cond then .ok () else .error .assertion

/-- Read of `v[i]`: outside the vector the behaviour is undefined. -/
def vec_at {α : Type} (v : List α) (i : Nat) : Except Failure α :=
  match v[i]? with
  | some x => .ok x
  | none => .error .undefined

/-- Write `v[i] = x`: outside the vector the behaviour is undefined. -/
def vec_set {α : Type} (v : List α) (i : Nat) (x : α) : Except Failure (List α) :=
  if i < v.length then .ok (v.set i x) else .error .undefined

/-- Call `v.resize(n)`: keeps the first `n` elements, appends value-initialised ones. -/
def vec_resize {α : Type} (v : List α) (n : Nat) (zero : α) : List α :=
  v.take n ++ List.replicate (n - v.length) zero

namespace impl

/-- Function `impl::get_scalar_sizeof`: lookup with `unordered_map::at`, which throws on a
type that is not in the table. -/
def get_scalar_sizeof (type : GLenum) : Except Failure GLuint :=
  if type = GL_BYTE then .ok 1
  else if type = GL_UNSIGNED_BYTE then .ok 1
  else if type = GL_SHORT then .ok 2
  else if type = GL_UNSIGNED_SHORT then .ok 2
  else if type = GL_INT then .ok 4
  else if type = GL_UNSIGNED_INT then .ok 4
  else if type = GL_FIXED then .ok 4
  else if type = GL_HALF_FLOAT then .ok 2
  else if type = GL_FLOAT then .ok 4
  else if type = GL_DOUBLE then .ok 8
  else .error .out_of_range

end impl

/-- A contiguous container (`std::vector<T>`) as the templates see it:
`sizeof(value_type)`, `size()` and the bytes behind `data()`. -/
structure Container where
  value_sizeof : Nat
  size : Nat
  data : List Byte
  data_length : data.length = size * value_sizeof
  deriving DecidableEq

namespace impl

/-- Function `impl::get_data_size`. -/
def get_data_size (container : Container) : GLuint :=
  container.size * container.value_sizeof

end impl

/-! ## The device -/

/-- The object-name generator of the device: `generated` names are in use. -/
structure Device where
  generated : Nat := 0
  deriving DecidableEq, Repr

namespace impl

/-- Function `GLObject<Type>::make()`: `gl_creator` asks the device for one unused, non-zero
object name. -/
def GLObject.make (dev : Device) : GLuint × Device :=
  (dev.generated + 1, { generated := dev.generated + 1 })

end impl

/-! ## Buffer -/

/-- Models `class Buffer`, with the data store of the named buffer object.  `α` is the
element type under which the store is read (bytes, or indirect draw records);
`m_size` is always in bytes. -/
structure Buffer (α : Type) where
  m_gl : GLuint := 0
  m_target : GLenum := 0
  m_size : GLsizeiptr := 0
  store : List α := []
  deriving DecidableEq, Repr

namespace Buffer

/-- Function `Buffer::make(target, size)` with `data == nullptr`: `glBufferData` allocates
`size` bytes (their content is unspecified; the model zero-fills). -/
def make (dev : Device) (target : GLenum) (size : GLsizeiptr) : Buffer Byte × Device :=
  let (gl, dev) := impl.GLObject.make dev
  ({ m_gl := gl, m_target := target, m_size := size, store := List.replicate size 0 }, dev)

/-- Function `Buffer::make(target, size, data)` with a host array: `glBufferData` reads
`size` bytes from `data`. -/
def make_data (dev : Device) (target : GLenum) (size : GLsizeiptr) (data : List Byte) :
    Except Failure (Buffer Byte × Device) :=
  if data.length < size then .error .undefined
  else
    let (gl, dev) := impl.GLObject.make dev
    .ok ({ m_gl := gl, m_target := target, m_size := size, store := data.take size }, dev)

/-- Function `Buffer::make(target, values)` for a `std::vector<T>`: the byte size is
`impl::get_data_size(values) = values.size() * sizeof(T)` and the store holds the
elements. -/
def make_vector {α : Type} (dev : Device) (target : GLenum) (values : List α) (sizeof_T : Nat) :
    Buffer α × Device :=
  let (gl, dev) := impl.GLObject.make dev
  ({ m_gl := gl, m_target := target, m_size := values.length * sizeof_T, store := values }, dev)

/-- Device call `glCopyBufferSubData`: copies `size` bytes of `src` starting at `src_offset` over
the bytes of `dst` starting at `dst_offset`; a range outside either store is a
GL_INVALID_VALUE error and nothing is copied. -/
def glCopyBufferSubData (src dst : List Byte) (src_offset dst_offset size : Nat) : List Byte :=
  if src_offset + size ≤ src.length ∧ dst_offset + size ≤ dst.length then
    dst.take dst_offset ++ (src.drop src_offset).take size ++ dst.drop (dst_offset + size)
  else dst

/-- Function `Buffer::copy_to(dst, to, from, size)`; the result is the new `dst`. -/
def copy_to_range (self dst : Buffer Byte) (to_offset from_offset : GLintptr) (size : GLsizeiptr) :
    Buffer Byte :=
  { dst with store := glCopyBufferSubData self.store dst.store from_offset to_offset size }

/-- Function `Buffer::copy_to(dst, to)`: the whole source, `copy_to(dst, to, 0, m_size)`. -/
def copy_to (self dst : Buffer Byte) (to_offset : GLintptr) : Buffer Byte :=
  copy_to_range self dst to_offset 0 self.m_size

/-- Function `Buffer::get_size`. -/
def get_size {α : Type} (self : Buffer α) : GLsizeiptr := self.m_size

/-- Function `Buffer::upload_data(data, size, offset)`: `glBufferSubData` of
`size ? size : m_size` bytes at `offset`; reading past the host array is undefined,
a range outside the store is a GL error that writes nothing. -/
def upload_data (self : Buffer Byte) (data : List Byte) (size : GLsizeiptr) (offset : GLintptr) :
    Except Failure (Buffer Byte) :=
  let n := if size ≠ 0 then size else self.m_size
  if data.length < n then .error .undefined
  else if offset + n ≤ self.store.length then
    .ok { self with store := self.store.take offset ++ data.take n ++ self.store.drop (offset + n) }
  else .ok self

end Buffer

/-! ## Mesh -/

/-- Models `Mesh::VertexAttribute`; `m_data` is the host array the pointer refers to. -/
structure VertexAttribute where
  m_type : GLenum
  m_data : List Byte
  m_channel_count : GLsizei
  m_size : GLuint
  m_normalized : Bool := false
  deriving DecidableEq, Repr

/-- The constructor `VertexAttribute(container, type, channels, normalized)`. -/
def VertexAttribute.make (container : Container) (type : GLenum) (channels : GLsizei)
    (normalized : Bool) : Except Failure VertexAttribute := do
  let element_sizeof := container.value_sizeof
  if channels = 0 then .error .undefined
  else
    PICOGL_ASSERT (element_sizeof % channels == 0)
    .ok { m_type := type, m_data := container.data, m_channel_count := channels,
          m_size := impl.get_data_size container, m_normalized := normalized }

/-- Models `Mesh::SubMesh`. -/
structure SubMesh where
  m_index_count : GLuint
  m_indice_offset : GLuint
  m_first_index : GLuint
  deriving DecidableEq, Repr

/-- Models `Mesh::DrawElementsIndirectCommand` (five `GLuint`, 20 bytes). -/
structure DrawElementsIndirectCommand where
  m_count : GLuint
  m_instance_count : GLuint
  m_first_index : GLuint
  m_base_vertex : GLuint
  m_base_instance : GLuint
  deriving DecidableEq, Repr

/-- The value of `sizeof(DrawElementsIndirectCommand)`. -/
def sizeof_DrawElementsIndirectCommand : Nat := 20

/-- One attribute array of a vertex array object, as left by
`glVertexAttribPointer` / `glVertexAttribIPointer` and `glEnableVertexAttribArray`. -/
structure AttribPointer where
  index : GLuint
  channel_count : GLsizei
  type : GLenum
  normalized : Bool
  integer : Bool
  stride : GLsizei
  offset : Nat
  deriving DecidableEq, Repr

/-- Models `class Mesh`.  `vao_pointers` is the attribute state of the vertex array object
`m_vao`, in the order the pointers were set. -/
structure Mesh where
  m_vao : GLuint := 0
  m_index_buffer : Buffer Byte := {}
  m_vertex_buffer : Buffer Byte := {}
  m_indirect_draw_buffer : Buffer DrawElementsIndirectCommand := {}
  m_primitive_type : GLenum := 0
  m_indice_type : GLenum := 0
  m_index_count : GLsizei := 0
  m_vertex_count : GLsizei := 0
  m_vertex_attributes : List VertexAttribute := []
  m_submeshes : List SubMesh := []
  m_instances_count : List GLuint := [1]
  vao_pointers : List AttribPointer := []
  deriving DecidableEq, Repr

namespace Mesh

/-- Function `Mesh::make`. -/
def make (dev : Device) : Mesh × Device :=
  let (vao, dev) := impl.GLObject.make dev
  ({ m_vao := vao }, dev)

/-- Function `Mesh::get_submeshes_count`. -/
def get_submeshes_count (self : Mesh) : GLsizei := self.m_submeshes.length

/-- Function `Mesh::setup_attribute_pointer`. -/
def setup_attribute_pointer (self : Mesh) (index : GLuint) (offset : Nat) (stride : GLsizei)
    (attr : VertexAttribute) : Except Failure Mesh :=
  if attr.m_type = GL_FLOAT then
    .ok { self with vao_pointers := self.vao_pointers ++
      [{ index := index, channel_count := attr.m_channel_count, type := attr.m_type,
         normalized := attr.m_normalized, integer := false, stride := stride,
         offset := offset }] }
  else if attr.m_type = GL_INT ∨ attr.m_type = GL_UNSIGNED_INT then
    .ok { self with vao_pointers := self.vao_pointers ++
      [{ index := index, channel_count := attr.m_channel_count, type := attr.m_type,
         normalized := false, integer := true, stride := stride, offset := offset }] }
  else .error .assertion

/-- The loop of `Mesh::set_instances_count` over `m_submeshes`, with `mesh_id`. -/
def set_instances_count_loop (instances_count : List GLuint) :
    List SubMesh → Nat → List DrawElementsIndirectCommand →
    Except Failure (List DrawElementsIndirectCommand)
  | [], _, draws => .ok draws
  | submesh :: rest, mesh_id, draws => do
    let instance_count ← vec_at instances_count mesh_id
    let draws ← vec_set draws mesh_id
      { m_count := submesh.m_index_count
        m_instance_count := instance_count
        m_first_index := submesh.m_first_index
        m_base_vertex := submesh.m_indice_offset
        m_base_instance := 0 }
    set_instances_count_loop instances_count rest (mesh_id + 1) draws

/-- Function `Mesh::set_instances_count`. -/
def set_instances_count (dev : Device) (self : Mesh) (instances_count : List GLuint) :
    Except Failure (Mesh × Device) := do
  PICOGL_ASSERT (instances_count.length == self.get_submeshes_count)
  let self := { self with m_instances_count := instances_count }
  let draws ← set_instances_count_loop instances_count self.m_submeshes 0
    (List.replicate self.m_submeshes.length ⟨0, 0, 0, 0, 0⟩)
  let (buffer, dev) := Buffer.make_vector dev GL_DRAW_INDIRECT_BUFFER draws
    sizeof_DrawElementsIndirectCommand
  .ok ({ self with m_indirect_draw_buffer := buffer }, dev)

/-- The four sizes summed by the first loop of `Mesh::combine`. -/
structure CombineTotals where
  total_submesh_count : Nat := 0
  total_instance_count : Nat := 0
  vertex_buffer_size : GLsizeiptr := 0
  index_buffer_size : GLsizeiptr := 0
  deriving DecidableEq, Repr

/-- First loop of `Mesh::combine`: sums the counts and byte sizes and fixes the
primitive and index types of `dst`. -/
def combine_totals : List Mesh → Mesh → CombineTotals → Except Failure (Mesh × CombineTotals)
  | [], dst, totals => .ok (dst, totals)
  | mesh :: rest, dst, totals => do
    let totals := { totals with
      total_submesh_count := totals.total_submesh_count + mesh.m_submeshes.length }
    let dst := { dst with m_vertex_count := dst.m_vertex_count + mesh.m_vertex_count }
    let totals := { totals with
      vertex_buffer_size := totals.vertex_buffer_size + mesh.m_vertex_buffer.get_size }
    let dst := { dst with m_index_count := dst.m_index_count + mesh.m_index_count }
    let totals := { totals with
      index_buffer_size := totals.index_buffer_size + mesh.m_index_buffer.get_size }
    let totals := { totals with
      total_instance_count := totals.total_instance_count + mesh.m_instances_count.length }
    let dst ←
      if dst.m_primitive_type = 0 then
        pure { dst with m_primitive_type := mesh.m_primitive_type }
      else do
        PICOGL_ASSERT (dst.m_primitive_type == mesh.m_primitive_type)
        pure dst
    let dst ←
      if dst.m_indice_type = 0 then
        pure { dst with m_indice_type := mesh.m_indice_type }
      else do
        PICOGL_ASSERT (dst.m_indice_type == mesh.m_indice_type)
        pure dst
    combine_totals rest dst totals

/-- The loop `attributes_sizeof += m_channel_count * get_scalar_sizeof(m_type)`. -/
def attributes_sizeof_loop : List VertexAttribute → GLsizei → Except Failure GLsizei
  | [], attributes_sizeof => .ok attributes_sizeof
  | attr :: rest, attributes_sizeof => do
    let scalar_sizeof ← impl.get_scalar_sizeof attr.m_type
    attributes_sizeof_loop rest (attributes_sizeof + attr.m_channel_count * scalar_sizeof)

/-- The attribute-pointer loop of `Mesh::combine` over the first mesh's attributes. -/
def combine_attribute_pointers (attributes_sizeof : GLsizei) :
    List VertexAttribute → GLuint → GLsizeiptr → Mesh → Except Failure Mesh
  | [], _, _, dst => .ok dst
  | attr :: rest, index, attribute_offset, dst => do
    let dst ← dst.setup_attribute_pointer index attribute_offset attributes_sizeof attr
    let scalar_sizeof ← impl.get_scalar_sizeof attr.m_type
    combine_attribute_pointers attributes_sizeof rest (index + 1)
      (attribute_offset + attr.m_channel_count * scalar_sizeof) dst

/-- Inner loop of `Mesh::combine` over the submeshes of one source; returns the new
`dst` and the new `global_submesh_id`. -/
def combine_submeshes (mesh : Mesh) (index_offset index_count : GLsizei) :
    List SubMesh → Nat → Nat → Mesh → Except Failure (Mesh × Nat)
  | [], _, global_submesh_id, dst => .ok (dst, global_submesh_id)
  | src_submesh :: rest, local_submesh_id, global_submesh_id, dst => do
    let submeshes ← vec_set dst.m_submeshes global_submesh_id
      { m_first_index := index_count + src_submesh.m_first_index
        m_index_count := src_submesh.m_index_count
        m_indice_offset := src_submesh.m_indice_offset + index_offset }
    let instance_count ← vec_at mesh.m_instances_count local_submesh_id
    let instances_count ← vec_set dst.m_instances_count global_submesh_id instance_count
    combine_submeshes mesh index_offset index_count rest (local_submesh_id + 1)
      (global_submesh_id + 1)
      { dst with m_submeshes := submeshes, m_instances_count := instances_count }

/-- The running offsets of the second loop of `Mesh::combine`. -/
structure CombineOffsets where
  dst_index_size_offset : GLsizeiptr := 0
  dst_vertex_size_offset : GLsizeiptr := 0
  index_offset : GLsizei := 0
  index_count : GLsizei := 0
  global_submesh_id : Nat := 0
  deriving DecidableEq, Repr

/-- Second loop of `Mesh::combine`: re-bases the submeshes and copies the buffers. -/
def combine_meshes : List Mesh → CombineOffsets → Mesh → Except Failure Mesh
  | [], _, dst => .ok dst
  | mesh :: rest, offsets, dst => do
    let (dst, global_submesh_id) ←
      combine_submeshes mesh offsets.index_offset offsets.index_count mesh.m_submeshes 0
        offsets.global_submesh_id dst
    let indices_size := mesh.m_index_buffer.get_size
    let dst := { dst with
      m_index_buffer := mesh.m_index_buffer.copy_to dst.m_index_buffer
        offsets.dst_index_size_offset }
    let dst := { dst with
      m_vertex_buffer := mesh.m_vertex_buffer.copy_to dst.m_vertex_buffer
        offsets.dst_vertex_size_offset }
    combine_meshes rest
      { dst_index_size_offset := offsets.dst_index_size_offset + indices_size
        dst_vertex_size_offset := offsets.dst_vertex_size_offset + mesh.m_vertex_buffer.get_size
        index_offset := offsets.index_offset + mesh.m_vertex_count
        index_count := offsets.index_count + mesh.m_index_count
        global_submesh_id := global_submesh_id } dst

/-- Function `Mesh::combine`. -/
def combine (dev : Device) (meshes : List Mesh) : Except Failure (Mesh × Device) := do
  PICOGL_ASSERT (decide (meshes.length > 0))
  match meshes with
  | [] => .error .undefined
  | front :: _ =>
    let attribute_count := front.m_vertex_attributes.length
    PICOGL_ASSERT (decide (attribute_count > 0))
    let (dst, dev) := Mesh.make dev
    let (dst, totals) ← combine_totals meshes dst {}
    let (index_buffer, dev) := Buffer.make dev GL_ELEMENT_ARRAY_BUFFER totals.index_buffer_size
    let dst := { dst with m_index_buffer := index_buffer }
    let (vertex_buffer, dev) := Buffer.make dev GL_ARRAY_BUFFER totals.vertex_buffer_size
    let dst := { dst with m_vertex_buffer := vertex_buffer }
    let attributes_sizeof ← attributes_sizeof_loop front.m_vertex_attributes 0
    let dst ← combine_attribute_pointers attributes_sizeof front.m_vertex_attributes 0 0 dst
    let dst := { dst with
      m_instances_count := vec_resize dst.m_instances_count totals.total_instance_count 0 }
    let dst := { dst with
      m_submeshes := vec_resize dst.m_submeshes totals.total_submesh_count ⟨0, 0, 0⟩ }
    let dst ← combine_meshes meshes {} dst
    dst.set_instances_count dev dst.m_instances_count

/-- Function `Mesh::set_indices`. -/
def set_indices (dev : Device) (self : Mesh) (primitive_type : GLenum) (indices : Container)
    (type : GLenum) : Except Failure (Mesh × Device) := do
  let type_sizeof ← impl.get_scalar_sizeof type
  let indice_sizeof := indices.value_sizeof
  PICOGL_ASSERT (self.m_vao != 0)
  PICOGL_ASSERT (indices.size != 0)
  PICOGL_ASSERT (indice_sizeof % type_sizeof == 0)
  let (index_buffer, dev) ←
    Buffer.make_data dev GL_ELEMENT_ARRAY_BUFFER (impl.get_data_size indices) indices.data
  let submesh : SubMesh :=
    { m_first_index := 0
      m_index_count := indices.size * (indice_sizeof / type_sizeof)
      m_indice_offset := 0 }
  .ok ({ self with
          m_index_buffer := index_buffer
          m_indice_type := type
          m_primitive_type := primitive_type
          m_index_count := indices.size * (indice_sizeof / type_sizeof)
          m_submeshes := [submesh] }, dev)

/-- First loop of `Mesh::set_vertex_attributes`: `total_size` and `attributes_sizeof`. -/
def set_vertex_attributes_sizes :
    List VertexAttribute → GLsizeiptr → GLsizei → Except Failure (GLsizeiptr × GLsizei)
  | [], total_size, attributes_sizeof => .ok (total_size, attributes_sizeof)
  | attr :: rest, total_size, attributes_sizeof => do
    PICOGL_ASSERT (decide (attr.m_size > 0))
    let scalar_sizeof ← impl.get_scalar_sizeof attr.m_type
    set_vertex_attributes_sizes rest (total_size + attr.m_size)
      (attributes_sizeof + attr.m_channel_count * scalar_sizeof)

/-- Library call `std::memcpy(dst, src, n)` between a host array and the staging vector, both given
with the position the pointer is at; an access outside either array is undefined. -/
def memcpy (vertex_data : List Byte) (dst : Nat) (src_data : List Byte) (src : Nat) (n : Nat) :
    Except Failure (List Byte) :=
  if src + n ≤ src_data.length ∧ dst + n ≤ vertex_data.length then
    .ok (vertex_data.take dst ++ (src_data.drop src).take n ++ vertex_data.drop (dst + n))
  else .error .undefined

/-- The `while (dst < dst_end)` loop of `Mesh::set_vertex_attribute`, with a bound
`fuel` on the number of rounds.  Every round that returns from `memcpy` has moved
`src` forward by `attribute_sizeof > 0` inside the source array, so the
`src_data.length + 1` rounds that `set_vertex_attribute` grants are never used up
(`set_vertex_attribute_loop_fuel`). -/
def set_vertex_attribute_loop (attribute_sizeof : Nat) (stride : GLsizei) (src_data : List Byte) :
    Nat → List Byte → Nat → Nat → Except Failure (List Byte)
  | 0, vertex_data, _, dst =>
    if dst < vertex_data.length then .error .undefined else .ok vertex_data
  | fuel + 1, vertex_data, src, dst =>
    if dst < vertex_data.length then do
      let vertex_data ← memcpy vertex_data dst src_data src attribute_sizeof
      set_vertex_attribute_loop attribute_sizeof stride src_data fuel vertex_data
        (src + attribute_sizeof) (dst + stride)
    else .ok vertex_data

/-- Function `Mesh::set_vertex_attribute`; returns the mesh with the new `vertex_data`, `index`
and `offset`. -/
def set_vertex_attribute (self : Mesh) (vertex_data : List Byte) (index : GLuint) (offset : Nat)
    (stride : GLsizei) (attr : VertexAttribute) :
    Except Failure (Mesh × List Byte × GLuint × Nat) := do
  let scalar_sizeof ← impl.get_scalar_sizeof attr.m_type
  let attribute_sizeof := scalar_sizeof * attr.m_channel_count
  if attribute_sizeof = 0 then .error .undefined
  else
    PICOGL_ASSERT (attr.m_size % attribute_sizeof == 0)
    let vertex_data ← set_vertex_attribute_loop attribute_sizeof stride attr.m_data
      (attr.m_data.length + 1) vertex_data 0 offset
    let self ← self.setup_attribute_pointer index offset stride attr
    let vertex_count := attr.m_size / attribute_sizeof
    let self ←
      if self.m_vertex_count = 0 then
        pure { self with m_vertex_count := vertex_count }
      else do
        PICOGL_ASSERT (vertex_count == self.m_vertex_count)
        pure self
    .ok (self, vertex_data, index + 1, offset + attribute_sizeof)

/-- Second loop of `Mesh::set_vertex_attributes`. -/
def set_vertex_attributes_loop (stride : GLsizei) :
    List VertexAttribute → Mesh → List Byte → GLuint → Nat → Except Failure (Mesh × List Byte)
  | [], self, vertex_data, _, _ => .ok (self, vertex_data)
  | attr :: rest, self, vertex_data, index, offset => do
    let (self, vertex_data, index, offset) ←
      self.set_vertex_attribute vertex_data index offset stride attr
    set_vertex_attributes_loop stride rest self vertex_data index offset

/-- Function `Mesh::set_vertex_attributes`. -/
def set_vertex_attributes (dev : Device) (self : Mesh) (attributes : List VertexAttribute) :
    Except Failure (Mesh × Device) := do
  PICOGL_ASSERT (self.m_vao != 0)
  let self := { self with m_vertex_attributes := attributes }
  let (total_size, attributes_sizeof) ← set_vertex_attributes_sizes attributes 0 0
  let (vertex_buffer, dev) := Buffer.make dev GL_ARRAY_BUFFER total_size
  let self := { self with m_vertex_buffer := vertex_buffer }
  let vertex_data : List Byte := List.replicate total_size 0
  let (self, vertex_data) ←
    set_vertex_attributes_loop attributes_sizeof attributes self vertex_data 0 0
  let vertex_buffer ← self.m_vertex_buffer.upload_data vertex_data 0 0
  .ok ({ self with m_vertex_buffer := vertex_buffer }, dev)

/-- The way the framework builds a mesh (`framework::make_triangle_mesh`,
`framework::make_aabb_lines`):
`Mesh::make()`, then `set_indices`, then `set_vertex_attributes`. -/
def build (dev : Device) (primitive_type : GLenum) (indices : Container) (type : GLenum)
    (attributes : List VertexAttribute) : Except Failure (Mesh × Device) := do
  let (mesh, dev) := Mesh.make dev
  let (mesh, dev) ← mesh.set_indices dev primitive_type indices type
  mesh.set_vertex_attributes dev attributes

end Mesh

/-! ## Specification-level definitions -/

/-- The command table derived from a submesh table and an instance-count table: one
record `{index_count, instance_count, first_index, base_vertex, 0}` per submesh. -/
def command_table (submeshes : List SubMesh) (instances_count : List GLuint) :
    List DrawElementsIndirectCommand :=
  List.zipWith (fun submesh instance_count =>
    { m_count := submesh.m_index_count
      m_instance_count := instance_count
      m_first_index := submesh.m_first_index
      m_base_vertex := submesh.m_indice_offset
      m_base_instance := 0 }) submeshes instances_count

/-- Writing the elements `xs` over `v` from position `pos` on. -/
def overwrite {α : Type} (v : List α) (pos : Nat) (xs : List α) : List α :=
  v.take pos ++ xs ++ v.drop (pos + xs.length)

/-- A source submesh as it appears in the combined table: `first_index` moved by the
running index count, `m_indice_offset` (the base vertex) by the running vertex count. -/
def rebase (index_offset index_count : GLsizei) (submesh : SubMesh) : SubMesh :=
  { m_first_index := index_count + submesh.m_first_index
    m_index_count := submesh.m_index_count
    m_indice_offset := submesh.m_indice_offset + index_offset }

/-- The re-based submeshes of a list of sources, in input order, the running vertex
and index counts starting at `index_offset` and `index_count`. -/
def rebase_all : List Mesh → GLsizei → GLsizei → List SubMesh
  | [], _, _ => []
  | mesh :: rest, index_offset, index_count =>
    mesh.m_submeshes.map (rebase index_offset index_count) ++
      rebase_all rest (index_offset + mesh.m_vertex_count) (index_count + mesh.m_index_count)

/-- The device-side copies of `Mesh::combine` for one of the two buffers (`sel` picks
the index or the vertex buffer), the byte offset starting at `offset`. -/
def copy_all (sel : Mesh → Buffer Byte) : List Mesh → GLsizeiptr → Buffer Byte → Buffer Byte
  | [], _, dst => dst
  | mesh :: rest, offset, dst =>
    copy_all sel rest (offset + (sel mesh).get_size) ((sel mesh).copy_to dst offset)

/-- Number of submeshes of a list of meshes. -/
def submesh_total (meshes : List Mesh) : Nat :=
  (meshes.map fun mesh => mesh.m_submeshes.length).sum

/-- Number of instance-count entries of a list of meshes. -/
def instance_total (meshes : List Mesh) : Nat :=
  (meshes.map fun mesh => mesh.m_instances_count.length).sum

/-- The instance counts `Mesh::combine` reads: of each source, one per submesh. -/
def instances_read (meshes : List Mesh) : List GLuint :=
  meshes.flatMap fun mesh => mesh.m_instances_count.take mesh.m_submeshes.length


/-- Sum of the sources' `m_vertex_count`. -/
def vertex_total (meshes : List Mesh) : Nat :=
  (meshes.map fun mesh => mesh.m_vertex_count).sum

/-- Sum of the sources' `m_index_count`. -/
def index_total (meshes : List Mesh) : Nat :=
  (meshes.map fun mesh => mesh.m_index_count).sum

/-- Sum of the byte sizes of the sources' vertex buffers. -/
def vertex_size_total (meshes : List Mesh) : Nat :=
  (meshes.map fun mesh => mesh.m_vertex_buffer.m_size).sum

/-- Sum of the byte sizes of the sources' index buffers. -/
def index_size_total (meshes : List Mesh) : Nat :=
  (meshes.map fun mesh => mesh.m_index_buffer.m_size).sum

/-- One step of the type agreement of `Mesh::combine`: a destination type of 0 takes
the source's type, any other must equal it. -/
def agree_type (dst_type mesh_type : GLenum) : Except Failure GLenum :=
  if dst_type = 0 then .ok mesh_type
  else if dst_type = mesh_type then .ok dst_type
  else .error .assertion

/-- The primitive and index types the first loop of `Mesh::combine` ends with. -/
def agree_types : List Mesh → GLenum → GLenum → Except Failure (GLenum × GLenum)
  | [], primitive_type, indice_type => .ok (primitive_type, indice_type)
  | mesh :: rest, primitive_type, indice_type =>
    match agree_type primitive_type mesh.m_primitive_type with
    | .error e => .error e
    | .ok primitive_type =>
      match agree_type indice_type mesh.m_indice_type with
      | .error e => .error e
      | .ok indice_type => agree_types rest primitive_type indice_type

/-- The attribute array state `Mesh::setup_attribute_pointer` sets. -/
def attribute_pointer (index : GLuint) (offset : Nat) (stride : GLsizei)
    (attr : VertexAttribute) : Except Failure AttribPointer :=
  if attr.m_type = GL_FLOAT then
    .ok { index := index, channel_count := attr.m_channel_count, type := attr.m_type,
          normalized := attr.m_normalized, integer := false, stride := stride, offset := offset }
  else if attr.m_type = GL_INT ∨ attr.m_type = GL_UNSIGNED_INT then
    .ok { index := index, channel_count := attr.m_channel_count, type := attr.m_type,
          normalized := false, integer := true, stride := stride, offset := offset }
  else .error .assertion

/-- The attribute arrays `Mesh::combine` sets up from the first mesh's attributes. -/
def attribute_pointers (stride : GLsizei) :
    List VertexAttribute → GLuint → Nat → Except Failure (List AttribPointer)
  | [], _, _ => .ok []
  | attr :: rest, index, offset =>
    match attribute_pointer index offset stride attr with
    | .error e => .error e
    | .ok pointer =>
      match impl.get_scalar_sizeof attr.m_type with
      | .error e => .error e
      | .ok scalar_sizeof =>
        match attribute_pointers stride rest (index + 1)
            (offset + attr.m_channel_count * scalar_sizeof) with
        | .error e => .error e
        | .ok pointers => .ok (pointer :: pointers)

/-- The mesh `Mesh::combine` returns for `meshes`, given the agreed types and the
attribute arrays of the first mesh. -/
def combined (dev : Device) (meshes : List Mesh) (primitive_type indice_type : GLenum)
    (pointers : List AttribPointer) : Mesh :=
  { m_vao := dev.generated + 1
    m_index_buffer := copy_all (fun mesh => mesh.m_index_buffer) meshes 0
      { m_gl := dev.generated + 2, m_target := GL_ELEMENT_ARRAY_BUFFER,
        m_size := index_size_total meshes,
        store := List.replicate (index_size_total meshes) 0 }
    m_vertex_buffer := copy_all (fun mesh => mesh.m_vertex_buffer) meshes 0
      { m_gl := dev.generated + 3, m_target := GL_ARRAY_BUFFER,
        m_size := vertex_size_total meshes,
        store := List.replicate (vertex_size_total meshes) 0 }
    m_indirect_draw_buffer :=
      { m_gl := dev.generated + 4, m_target := GL_DRAW_INDIRECT_BUFFER,
        m_size := submesh_total meshes * sizeof_DrawElementsIndirectCommand,
        store := command_table (rebase_all meshes 0 0) (instances_read meshes) }
    m_primitive_type := primitive_type
    m_indice_type := indice_type
    m_index_count := index_total meshes
    m_vertex_count := vertex_total meshes
    m_vertex_attributes := []
    m_submeshes := rebase_all meshes 0 0
    m_instances_count := instances_read meshes
    vao_pointers := pointers }


/-- The destination mesh of `Mesh::combine` when its second loop starts. -/
def combine_start (dev : Device) (meshes : List Mesh) (primitive_type indice_type : GLenum)
    (pointers : List AttribPointer) : Mesh :=
  { m_vao := dev.generated + 1
    m_index_buffer :=
      { m_gl := dev.generated + 2, m_target := GL_ELEMENT_ARRAY_BUFFER,
        m_size := index_size_total meshes,
        store := List.replicate (index_size_total meshes) 0 }
    m_vertex_buffer :=
      { m_gl := dev.generated + 3, m_target := GL_ARRAY_BUFFER,
        m_size := vertex_size_total meshes,
        store := List.replicate (vertex_size_total meshes) 0 }
    m_primitive_type := primitive_type
    m_indice_type := indice_type
    m_index_count := index_total meshes
    m_vertex_count := vertex_total meshes
    m_submeshes := vec_resize [] (submesh_total meshes) ⟨0, 0, 0⟩
    m_instances_count := vec_resize [1] (instance_total meshes) 0
    vao_pointers := pointers }


/-! ## Example meshes -/

/-- Three one-byte indices `0, 1, 2`. -/
def triangle_indices : Container :=
  { value_sizeof := 1, size := 3, data := [0, 1, 2], data_length := by decide }

/-- One float per vertex for three vertices, the twelve bytes counting up from `b`. -/
def triangle_positions (b : Byte) : VertexAttribute :=
  { m_type := GL_FLOAT
    m_data := [b, b + 1, b + 2, b + 3, b + 4, b + 5, b + 6, b + 7, b + 8, b + 9, b + 10, b + 11]
    m_channel_count := 1
    m_size := 12 }

/-- The triangle mesh `Mesh::make().set_indices(primitive_type, {0,1,2}, GL_UNSIGNED_BYTE)
.set_vertex_attributes({positions})` on a device with `n` names in use, then given the
instance-count table `instances`. -/
def triangle (n : Nat) (primitive_type : GLenum) (b : Byte) (instances : List GLuint) : Mesh :=
  { m_vao := n + 1
    m_index_buffer :=
      { m_gl := n + 2, m_target := GL_ELEMENT_ARRAY_BUFFER, m_size := 3, store := [0, 1, 2] }
    m_vertex_buffer :=
      { m_gl := n + 3, m_target := GL_ARRAY_BUFFER, m_size := 12
        store := (triangle_positions b).m_data }
    m_primitive_type := primitive_type
    m_indice_type := GL_UNSIGNED_BYTE
    m_index_count := 3
    m_vertex_count := 3
    m_vertex_attributes := [triangle_positions b]
    m_submeshes := [{ m_index_count := 3, m_indice_offset := 0, m_first_index := 0 }]
    m_instances_count := instances
    vao_pointers := [{ index := 0, channel_count := 1, type := GL_FLOAT, normalized := false,
                       integer := false, stride := 4, offset := 0 }] }

/-- Two triangles with instance-count tables `[1]` and `[2]`. -/
def two_triangles : List Mesh :=
  [triangle 0 GL_TRIANGLES 10 [1], triangle 3 GL_TRIANGLES 40 [2]]

/-- The mesh `Mesh::combine` returns for `two_triangles` on a device with six names
in use. -/
def two_triangles_combined : Mesh :=
  { m_vao := 7
    m_index_buffer :=
      { m_gl := 8, m_target := GL_ELEMENT_ARRAY_BUFFER, m_size := 6, store := [0, 1, 2, 0, 1, 2] }
    m_vertex_buffer :=
      { m_gl := 9, m_target := GL_ARRAY_BUFFER, m_size := 24
        store := [10, 11, 12, 13, 14, 15, 16, 17, 18, 19, 20, 21,
                  40, 41, 42, 43, 44, 45, 46, 47, 48, 49, 50, 51] }
    m_indirect_draw_buffer :=
      { m_gl := 10, m_target := GL_DRAW_INDIRECT_BUFFER, m_size := 40
        store := [{ m_count := 3, m_instance_count := 1, m_first_index := 0, m_base_vertex := 0,
                    m_base_instance := 0 },
                  { m_count := 3, m_instance_count := 2, m_first_index := 3, m_base_vertex := 3,
                    m_base_instance := 0 }] }
    m_primitive_type := GL_TRIANGLES
    m_indice_type := GL_UNSIGNED_BYTE
    m_index_count := 6
    m_vertex_count := 6
    m_vertex_attributes := []
    m_submeshes := [{ m_index_count := 3, m_indice_offset := 0, m_first_index := 0 },
                    { m_index_count := 3, m_indice_offset := 3, m_first_index := 3 }]
    m_instances_count := [1, 2]
    vao_pointers := [{ index := 0, channel_count := 1, type := GL_FLOAT, normalized := false,
                       integer := false, stride := 4, offset := 0 }] }

/-- Function `Mesh::get_vertex_sizeof`: the byte size of one interleaved vertex record. -/
def Mesh.get_vertex_sizeof (self : Mesh) : Except Failure GLsizei :=
  Mesh.attributes_sizeof_loop self.m_vertex_attributes 0

/-- The attribute layout of an attribute list: scalar type and channel count of each
attribute, in order. -/
def attribute_layout (attributes : List VertexAttribute) : List (GLenum × GLsizei) :=
  attributes.map fun attr => (attr.m_type, attr.m_channel_count)

/-- Element `n` of a buffer store read as an array of elements of `element_sizeof`
bytes: an index of the index buffer, or a vertex record of the vertex buffer. -/
def buffer_element (element_sizeof : Nat) (store : List Byte) (n : Nat) : List Byte :=
  (store.drop (n * element_sizeof)).take element_sizeof

/-- Two triangles as `Mesh::build` returns them on a device with 0 and with 3 names
in use. -/
def two_built_triangles : List Mesh :=
  [triangle 0 GL_TRIANGLES 10 [1], triangle 3 GL_TRIANGLES 40 [1]]

/-- The mesh was built the way the framework builds meshes, with index scalar type
`type` and an attribute list of layout `layout`. -/
def Built (type : GLenum) (layout : List (GLenum × GLsizei)) (mesh : Mesh) : Prop :=
  ∃ (dev dev' : Device) (primitive_type : GLenum) (indices : Container)
    (attributes : List VertexAttribute),
    Mesh.build dev primitive_type indices type attributes = .ok (mesh, dev') ∧
    attribute_layout attributes = layout

/-- The mesh `Mesh::combine` returns for `two_built_triangles` on a device with six
names in use. -/
def two_built_triangles_combined : Mesh :=
  { two_triangles_combined with
    m_indirect_draw_buffer :=
      { m_gl := 10, m_target := GL_DRAW_INDIRECT_BUFFER, m_size := 40
        store := [{ m_count := 3, m_instance_count := 1, m_first_index := 0, m_base_vertex := 0,
                    m_base_instance := 0 },
                  { m_count := 3, m_instance_count := 1, m_first_index := 3, m_base_vertex := 3,
                    m_base_instance := 0 }] }
    m_instances_count := [1, 1] }

/-- Calls `set_instances_count(c_k)` on each mesh `M_k` of a list of pairs
`(M_k, c_k)`, in order, on one device. -/
def set_instances_count_each :
    Device → List (Mesh × List GLuint) → Except Failure (List Mesh × Device)
  | dev, [] => .ok ([], dev)
  | dev, (mesh, instances_count) :: rest => do
    let (mesh, dev) ← mesh.set_instances_count dev instances_count
    let (meshes, dev) ← set_instances_count_each dev rest
    .ok (mesh :: meshes, dev)

/-- The mesh differs from the first component only in its instance-count table, which
is the second component, and in its indirect draw buffer. -/
def Instanced (input : Mesh × List GLuint) (mesh : Mesh) : Prop :=
  mesh = { input.1 with
    m_instances_count := input.2
    m_indirect_draw_buffer := mesh.m_indirect_draw_buffer }

/-- The two triangles of `two_built_triangles` with the instance counts 5 and 7 to
apply. -/
def two_triangle_inputs : List (Mesh × List GLuint) :=
  [(triangle 0 GL_TRIANGLES 10 [1], [5]), (triangle 3 GL_TRIANGLES 40 [1], [7])]

/-- Six one-byte indices. -/
def six_indices : Container :=
  { value_sizeof := 1, size := 6, data := [0, 1, 2, 2, 1, 0], data_length := by decide }

/-- The calls `Mesh::make()`, `set_indices(GL_TRIANGLES, six indices)`,
`set_instances_count({2})`, `set_indices(GL_TRIANGLES, three indices)` on a fresh
device. -/
def set_indices_after_instances : Except Failure (Mesh × Device) := do
  let (mesh, dev) := Mesh.make {}
  let (mesh, dev) ← mesh.set_indices dev GL_TRIANGLES six_indices GL_UNSIGNED_BYTE
  let (mesh, dev) ← mesh.set_instances_count dev [2]
  mesh.set_indices dev GL_TRIANGLES triangle_indices GL_UNSIGNED_BYTE

/-- The mesh `set_indices_after_instances` ends with. -/
def set_indices_after_instances_mesh : Mesh :=
  { m_vao := 1
    m_index_buffer :=
      { m_gl := 4, m_target := GL_ELEMENT_ARRAY_BUFFER, m_size := 3, store := [0, 1, 2] }
    m_indirect_draw_buffer :=
      { m_gl := 3, m_target := GL_DRAW_INDIRECT_BUFFER, m_size := 20
        store := [{ m_count := 6, m_instance_count := 2, m_first_index := 0, m_base_vertex := 0,
                    m_base_instance := 0 }] }
    m_primitive_type := GL_TRIANGLES
    m_indice_type := GL_UNSIGNED_BYTE
    m_index_count := 3
    m_submeshes := [{ m_index_count := 3, m_indice_offset := 0, m_first_index := 0 }]
    m_instances_count := [2] }

/-- A point list and a triangle list, each built by `Mesh::build` from three indices
and three positions. -/
def points_and_triangles : List Mesh :=
  [triangle 0 GL_POINTS 10 [1], triangle 3 GL_TRIANGLES 40 [1]]

/-- One `GL_INT` per vertex for three vertices, over the same twelve bytes as
`triangle_positions 40`. -/
def triangle_ids : VertexAttribute :=
  { m_type := GL_INT
    m_data := (triangle_positions 40).m_data
    m_channel_count := 1
    m_size := 12 }

/-- The triangle mesh built from three indices and the single attribute
`triangle_ids` on a device with three names in use. -/
def id_triangle : Mesh :=
  { triangle 3 GL_TRIANGLES 40 [1] with
    m_vertex_attributes := [triangle_ids]
    vao_pointers := [{ index := 0, channel_count := 1, type := GL_INT, normalized := false,
                       integer := true, stride := 4, offset := 0 }] }

/-- A float-position triangle followed by a triangle whose only attribute is an
integer id. -/
def mixed_layout_triangles : List Mesh :=
  [triangle 0 GL_TRIANGLES 10 [1], id_triangle]

/-- The mesh differs from `source` at most in its vertex-attribute list and in the
attribute pointers set up from it. -/
def SameButAttributes (source mesh : Mesh) : Prop :=
  mesh = { source with
    m_vertex_attributes := mesh.m_vertex_attributes
    vao_pointers := mesh.vao_pointers }

/-! ## Definitions for the mesh build and draw operations -/

/-- The scalar size `impl::get_scalar_sizeof(type)` as a number, 0 for a type that is
not in the table. -/
def scalar_sizeof (type : GLenum) : Nat :=
  match impl.get_scalar_sizeof type with
  | .ok size => size
  | .error _ => 0

/-- The byte size of one chunk of an attribute:
`m_channel_count * impl::get_scalar_sizeof(m_type)`. -/
def attribute_sizeof (attr : VertexAttribute) : Nat :=
  attr.m_channel_count * scalar_sizeof attr.m_type

/-- The interleaved stride of an attribute list: the sum of the chunk sizes. -/
def vertex_stride (attributes : List VertexAttribute) : Nat :=
  (attributes.map attribute_sizeof).sum

/-- The byte offset of the attribute at position `i` inside a vertex record: the sum
of the chunk sizes of the attributes before it. -/
def attribute_offset (attributes : List VertexAttribute) (i : Nat) : Nat :=
  vertex_stride (attributes.take i)

/-- The run of `Mesh::set_instances_count` on the mutable object: the mesh and the
device as the call leaves them, be it at the return or at the failed assertion, and
the outcome. -/
def Mesh.set_instances_count_run (dev : Device) (self : Mesh) (instances_count : List GLuint) :
    Mesh × Device × Except Failure Unit :=
  match PICOGL_ASSERT (instances_count.length == self.get_submeshes_count) with
  | .error e => (self, dev, .error e)
  | .ok _ =>
    let self := { self with m_instances_count := instances_count }
    match Mesh.set_instances_count_loop instances_count self.m_submeshes 0
        (List.replicate self.m_submeshes.length ⟨0, 0, 0, 0, 0⟩) with
    | .error e => (self, dev, .error e)
    | .ok draws =>
      let (buffer, dev) := Buffer.make_vector dev GL_DRAW_INDIRECT_BUFFER draws
        sizeof_DrawElementsIndirectCommand
      ({ self with m_indirect_draw_buffer := buffer }, dev, .ok ())

/-- The device calls `Mesh::draw` issues. -/
inductive DrawCall where
  | glBindVertexArray (array : GLuint)
  | glBindBuffer (target : GLenum) (buffer : GLuint)
  | glMultiDrawElementsIndirect (mode type : GLenum) (indirect : Nat) (drawcount : GLsizei)
      (stride : GLsizei)
  | glDrawElements (mode : GLenum) (count : GLsizei) (type : GLenum) (indices : Nat)
  | glDrawArrays (mode : GLenum) (first : Nat) (count : GLsizei)
  deriving DecidableEq, Repr

/-- Whether a device call draws, as opposed to binding an object. -/
def DrawCall.is_draw : DrawCall → Bool
  | .glBindVertexArray _ => false
  | .glBindBuffer _ _ => false
  | .glMultiDrawElementsIndirect _ _ _ _ _ => true
  | .glDrawElements _ _ _ _ => true
  | .glDrawArrays _ _ _ => true

/-- Function `Buffer::bind()`: `glBindBuffer(m_target, m_gl)`. -/
def Buffer.bind {α : Type} (self : Buffer α) : DrawCall :=
  .glBindBuffer self.m_target self.m_gl

/-- Function `Mesh::draw(GLenum primitive_type)`: the device calls it issues, in
order. -/
def Mesh.draw_as (self : Mesh) (primitive_type : GLenum) : Except Failure (List DrawCall) := do
  PICOGL_ASSERT (self.m_vao != 0)
  let calls := [DrawCall.glBindVertexArray self.m_vao]
  if self.m_index_buffer.m_gl ≠ 0 then
    let calls := calls ++ [self.m_index_buffer.bind]
    if self.m_indirect_draw_buffer.m_gl ≠ 0 then
      let calls := calls ++ [self.m_indirect_draw_buffer.bind]
      .ok (calls ++ [.glMultiDrawElementsIndirect primitive_type self.m_indice_type 0
        self.m_submeshes.length 0])
    else
      .ok (calls ++ [.glDrawElements primitive_type self.m_index_count self.m_indice_type 0])
  else
    .ok (calls ++ [.glDrawArrays primitive_type 0 self.m_index_count])

/-- Function `Mesh::draw()`: `draw(m_primitive_type)`. -/
def Mesh.draw (self : Mesh) : Except Failure (List DrawCall) :=
  self.draw_as self.m_primitive_type

/-- Function `Mesh::draw(GLenum primitive_type, GLsizei force_vertex_count)`. -/
def Mesh.draw_arrays (self : Mesh) (primitive_type : GLenum) (force_vertex_count : GLsizei) :
    Except Failure (List DrawCall) := do
  PICOGL_ASSERT (self.m_vao != 0)
  .ok [.glBindVertexArray self.m_vao, .glDrawArrays primitive_type 0 force_vertex_count]

/-- The one `glBufferSubData(m_target, offset, size ? size : m_size, data)` call of
`Buffer::upload_data`: its target, offset and byte count. -/
structure BufferSubData where
  target : GLenum
  offset : GLintptr
  size : GLsizeiptr
  deriving DecidableEq, Repr

/-- The device call `Buffer::upload_data(data, size, offset)` issues. -/
def Buffer.upload_data_call {α : Type} (self : Buffer α) (size : GLsizeiptr) (offset : GLintptr) :
    BufferSubData :=
  { target := self.m_target, offset := offset, size := if size ≠ 0 then size else self.m_size }

/-- Device call `glBufferSubData` on a store: reading past the host array is
undefined, a range outside the store is a GL_INVALID_VALUE error that writes nothing. -/
def glBufferSubData (store : List Byte) (call : BufferSubData) (data : List Byte) :
    Except Failure (List Byte) :=
  if data.length < call.size then .error .undefined
  else if call.offset + call.size ≤ store.length then
    .ok (store.take call.offset ++ data.take call.size ++ store.drop (call.offset + call.size))
  else .ok store

/-- A buffer of four bytes. -/
def four_byte_buffer : Buffer Byte :=
  { m_gl := 1, m_target := GL_ARRAY_BUFFER, m_size := 4, store := [0, 0, 0, 0] }

/-! ## Handles -/

namespace impl

/-- Models `class GLObject<Type>`: the move-only handle with its one member `m_id`,
0 when it owns no device object. -/
structure GLObject where
  m_id : GLuint := 0
  deriving DecidableEq, Repr

/-- The move constructor `GLObject(GLObject&& rhs)`: `m_id` starts as 0 (its default
member initialiser) and is swapped with `rhs.m_id`.  Returns the new object and `rhs`
as the call leaves it. -/
def GLObject.move_construct (rhs : GLObject) : GLObject × GLObject :=
  let self : GLObject := {}
  ({ m_id := rhs.m_id }, { m_id := self.m_id })

/-- The move assignment `operator=(GLObject&& rhs)`: `std::swap(m_id, rhs.m_id)`.
Returns `*this` and `rhs` as the call leaves them. -/
def GLObject.move_assign (self rhs : GLObject) : GLObject × GLObject :=
  ({ m_id := rhs.m_id }, { m_id := self.m_id })

/-- The destructor `~GLObject()`: the identifiers it passes to `gl_deleter`, one if
`m_id` is not 0 and none otherwise. -/
def GLObject.destroy (self : GLObject) : List GLuint :=
  if self.m_id ≠ 0 then [self.m_id] else []

/-- The handle `GLObject<Type>::make()` returns: `gl_creator` stores the name the
device generated, or 0 when the device created nothing (`created = false`). -/
def GLObject.make_handle (dev : Device) (created : Bool) : GLObject × Device :=
  if created then
    let (id, dev) := GLObject.make dev
    ({ m_id := id }, dev)
  else ({ m_id := 0 }, dev)

end impl

/-- The live handles of a program, the device that hands out the identifiers, and the
identifiers passed to the deleter so far, in call order. -/
structure HandleWorld where
  dev : Device := {}
  handles : List impl.GLObject := []
  deleted : List GLuint := []
  deriving DecidableEq, Repr

/-- One operation on handles; a handle is named by its position among the live
handles. -/
inductive HandleOp where
  /-- `GLObject::make()`; `created` tells whether the device created an object -/
  | make (created : Bool)
  /-- a new handle move-constructed from the handle `source` -/
  | move_construct (source : Nat)
  /-- `destination = std::move(source)` -/
  | move_assign (destination source : Nat)
  /-- the end of the lifetime of a handle: its destructor runs -/
  | destroy (handle : Nat)
  deriving DecidableEq, Repr

/-- The effect of one handle operation; an operation that names a handle that does
not exist has no effect. -/
def HandleWorld.step (w : HandleWorld) : HandleOp → HandleWorld
  | .make created =>
    let (handle, dev) := impl.GLObject.make_handle w.dev created
    { w with dev := dev, handles := w.handles ++ [handle] }
  | .move_construct source =>
    match w.handles[source]? with
    | none => w
    | some rhs =>
      let (handle, rhs) := rhs.move_construct
      { w with handles := w.handles.set source rhs ++ [handle] }
  | .move_assign destination source =>
    match w.handles[destination]?, w.handles[source]? with
    | some self, some rhs =>
      if destination = source then w
      else
        let (self, rhs) := self.move_assign rhs
        { w with handles := (w.handles.set destination self).set source rhs }
    | _, _ => w
  | .destroy handle =>
    match w.handles[handle]? with
    | none => w
    | some self =>
      { w with handles := w.handles.eraseIdx handle, deleted := w.deleted ++ self.destroy }

/-- The world after a sequence of handle operations. -/
def HandleWorld.run (w : HandleWorld) (ops : List HandleOp) : HandleWorld :=
  ops.foldl HandleWorld.step w

/-- The identifiers the live handles hold, one entry per handle. -/
def HandleWorld.ids (w : HandleWorld) : List GLuint :=
  w.handles.map fun handle => handle.m_id

/-- The ledger of identifiers: every identifier the device has generated is either
held by exactly one live handle or was passed to the deleter exactly once; no other
non-null identifier is held or deleted, and the deleter never received 0. -/
def HandleWorld.Balanced (w : HandleWorld) : Prop :=
  (∀ id, id ≠ 0 →
    w.ids.count id + w.deleted.count id = if id ≤ w.dev.generated then 1 else 0) ∧
  w.deleted.count 0 = 0


/-- Two objects are created, the first handle is move-constructed into a third, the
second is move-assigned into the third, and all three handles are destroyed. -/
def handle_swaps : List HandleOp :=
  [.make true, .make true, .move_construct 0, .move_assign 2 1,
   .destroy 0, .destroy 0, .destroy 0]

/-! ## Texture -/

def GL_TEXTURE_1D : GLenum := 0x0DE0
def GL_TEXTURE_2D : GLenum := 0x0DE1
def GL_TEXTURE_3D : GLenum := 0x806F
def GL_TEXTURE_1D_ARRAY : GLenum := 0x8C18
def GL_TEXTURE_2D_ARRAY : GLenum := 0x8C1A
def GL_TEXTURE_CUBE_MAP : GLenum := 0x8513
def GL_TEXTURE_CUBE_MAP_ARRAY : GLenum := 0x9009
def GL_TEXTURE_2D_MULTISAMPLE : GLenum := 0x9100
def GL_TEXTURE_2D_MULTISAMPLE_ARRAY : GLenum := 0x9102
def GL_RED : GLenum := 0x1903
def GL_RG : GLenum := 0x8227
def GL_RGB : GLenum := 0x1907
def GL_RGBA : GLenum := 0x1908
def GL_RED_INTEGER : GLenum := 0x8D94
def GL_RG_INTEGER : GLenum := 0x8228
def GL_RGB_INTEGER : GLenum := 0x8D98
def GL_R8 : GLenum := 0x8229
def GL_R32F : GLenum := 0x822E
def GL_R32I : GLenum := 0x8235
def GL_RG32I : GLenum := 0x823B
def GL_RG32F : GLenum := 0x8230
def GL_RGB8 : GLenum := 0x8051
def GL_RGB32I : GLenum := 0x8D83
def GL_RGB32F : GLenum := 0x8815
def GL_RGBA8 : GLenum := 0x8058
def GL_RGBA32F : GLenum := 0x8814
def GL_PACK_ALIGNMENT : GLenum := 0x0D05
def GL_UNPACK_ALIGNMENT : GLenum := 0x0CF5
def GL_DEPTH_COMPONENT32 : GLenum := 0x81A7
def GL_FRAMEBUFFER : GLenum := 0x8D40
def GL_RENDERBUFFER : GLenum := 0x8D41
def GL_DEPTH_ATTACHMENT : GLenum := 0x8D00
def GL_COLOR_ATTACHMENT0 : GLenum := 0x8CE0

namespace impl

/-- Models `struct impl::PixelInfo`. -/
structure PixelInfo where
  m_internal_format : GLenum
  m_format : GLenum
  m_type : GLenum
  m_channel_count : GLuint
  m_scalar_sizeof : GLuint
  deriving DecidableEq, Repr

/-- The constructor of `PixelInfo`, which looks the scalar size of `type` up. -/
def PixelInfo.make (internal_format format type : GLenum) (channel_count : GLuint) :
    Except Failure PixelInfo := do
  let scalar_sizeof ← get_scalar_sizeof type
  pure { m_internal_format := internal_format, m_format := format, m_type := type,
         m_channel_count := channel_count, m_scalar_sizeof := scalar_sizeof }

/-- Function `impl::get_pixel_info`: lookup with `unordered_map::at`, which throws on an
internal format that is not in the table. -/
def get_pixel_info (internal_format : GLenum) : Except Failure PixelInfo :=
  if internal_format = GL_R8 then PixelInfo.make GL_R8 GL_RED GL_UNSIGNED_BYTE 1
  else if internal_format = GL_R32F then PixelInfo.make GL_R32F GL_RED GL_FLOAT 1
  else if internal_format = GL_R32I then PixelInfo.make GL_R32I GL_RED_INTEGER GL_INT 1
  else if internal_format = GL_RG32I then PixelInfo.make GL_RG32I GL_RG_INTEGER GL_INT 2
  else if internal_format = GL_RG32F then PixelInfo.make GL_RG32F GL_RG GL_FLOAT 2
  else if internal_format = GL_RGB8 then PixelInfo.make GL_RGB8 GL_RGB GL_UNSIGNED_BYTE 3
  else if internal_format = GL_RGB32I then PixelInfo.make GL_RGB32I GL_RGB_INTEGER GL_INT 3
  else if internal_format = GL_RGB32F then PixelInfo.make GL_RGB32F GL_RGB GL_FLOAT 3
  else if internal_format = GL_RGBA8 then PixelInfo.make GL_RGBA8 GL_RGBA GL_UNSIGNED_BYTE 4
  else if internal_format = GL_RGBA32F then PixelInfo.make GL_RGBA32F GL_RGBA GL_FLOAT 4
  else .error .out_of_range

end impl

/-- The flags `enum class Texture::Options`, as the underlying integer. -/
abbrev Texture.Options := Nat

def Texture.Options.AutomaticAlignment : Texture.Options := 1 <<< 1
def Texture.Options.AllocateMipmap : Texture.Options := 1 <<< 2
def Texture.Options.GenerateMipmap : Texture.Options :=
  Texture.Options.AllocateMipmap ||| (1 <<< 3)
def Texture.Options.FixedSampleLocations : Texture.Options := 1 <<< 4
def Texture.Options.Default : Texture.Options := Texture.Options.AutomaticAlignment

/-- Models `class Texture`: the handle and the recorded description. -/
structure Texture where
  m_gl : GLuint := 0
  m_target : GLenum := GL_TEXTURE_2D
  m_internal_format : GLenum := 0
  m_format : GLenum := 0
  m_type : GLenum := 0
  m_array_size : GLsizei := 1
  m_sample_count : GLsizei := 1
  m_width : GLsizei := 0
  m_height : GLsizei := 0
  m_depth : GLsizei := 0
  m_opts : Texture.Options := Texture.Options.Default
  deriving DecidableEq, Repr

/-- The device commands the texture functions issue. -/
inductive TextureCall where
  | glBindTexture (target : GLenum) (texture : GLuint)
  | glPixelStorei (pname : GLenum) (param : Nat)
  | glTexStorage1D (target : GLenum) (levels : GLsizei) (internalformat : GLenum)
      (width : GLsizei)
  | glTexStorage2D (target : GLenum) (levels : GLsizei) (internalformat : GLenum)
      (width height : GLsizei)
  | glTexStorage3D (target : GLenum) (levels : GLsizei) (internalformat : GLenum)
      (width height depth : GLsizei)
  | glTexStorage2DMultisample (target : GLenum) (samples : GLsizei) (internalformat : GLenum)
      (width height : GLsizei) (fixedsamplelocations : Bool)
  | glTexStorage3DMultisample (target : GLenum) (samples : GLsizei) (internalformat : GLenum)
      (width height depth : GLsizei) (fixedsamplelocations : Bool)
  | glTexSubImage1D (target : GLenum) (level xoffset : Nat) (width : GLsizei)
      (format type : GLenum)
  | glTexSubImage2D (target : GLenum) (level xoffset yoffset : Nat) (width height : GLsizei)
      (format type : GLenum)
  | glTexSubImage3D (target : GLenum) (level xoffset yoffset zoffset : Nat)
      (width height depth : GLsizei) (format type : GLenum)
  | glGenerateMipmap (target : GLenum)
  deriving DecidableEq, Repr

namespace Texture

/-- Function `Texture::bind`. -/
def bind (self : Texture) : TextureCall :=
  .glBindTexture self.m_target self.m_gl

/-- The expression `floor(log2(x)) + 1` converted to `GLsizei`: for `x = 0` the
logarithm is minus infinity, whose conversion to an integer is undefined. -/
def lod_count (x : GLsizei) : Except Failure GLsizei :=
  if x = 0 then .error .undefined else .ok (Nat.log2 x + 1)

/-- Function `Texture::lod_count_1D`. -/
def lod_count_1D (self : Texture) : Except Failure GLsizei :=
  lod_count self.m_width

/-- Function `Texture::lod_count_2D`. -/
def lod_count_2D (self : Texture) : Except Failure GLsizei :=
  lod_count (max self.m_width self.m_height)

/-- Function `Texture::lod_count_3D`. -/
def lod_count_3D (self : Texture) : Except Failure GLsizei :=
  lod_count (max self.m_width (max self.m_height self.m_depth))

/-- The `switch (m_target)` of `Texture::make`: the storage allocation and the upload
of `data` (when the pointer is not null) for each supported target. -/
def make_storage (self : Texture) (data : Bool) : Except Failure (List TextureCall) :=
  let fixed_locations : Bool := self.m_opts &&& Texture.Options.FixedSampleLocations ≠ 0
  let allocate_mipmap : Bool := self.m_opts &&& Texture.Options.AllocateMipmap ≠ 0
  if self.m_target = GL_TEXTURE_1D then do
    let lod_count ← if allocate_mipmap then self.lod_count_1D else pure 1
    pure (.glTexStorage1D self.m_target lod_count self.m_internal_format self.m_width ::
      if data then [.glTexSubImage1D self.m_target 0 0 self.m_width self.m_format self.m_type]
      else [])
  else if self.m_target = GL_TEXTURE_1D_ARRAY then do
    let lod_count ← if allocate_mipmap then self.lod_count_1D else pure 1
    pure [.glTexStorage2D self.m_target lod_count self.m_internal_format self.m_width
      self.m_array_size]
  else if self.m_target = GL_TEXTURE_2D ∨ self.m_target = GL_TEXTURE_CUBE_MAP then do
    let lod_count ← if allocate_mipmap then self.lod_count_2D else pure 1
    pure (.glTexStorage2D self.m_target lod_count self.m_internal_format self.m_width
        self.m_height ::
      if data then [.glTexSubImage2D self.m_target 0 0 0 self.m_width self.m_height
        self.m_format self.m_type]
      else [])
  else if self.m_target = GL_TEXTURE_2D_MULTISAMPLE then
    pure [.glTexStorage2DMultisample self.m_target self.m_sample_count self.m_internal_format
      self.m_width self.m_height fixed_locations]
  else if self.m_target = GL_TEXTURE_2D_ARRAY ∨ self.m_target = GL_TEXTURE_CUBE_MAP_ARRAY then do
    let lod_count ← if allocate_mipmap then self.lod_count_2D else pure 1
    pure [.glTexStorage3D self.m_target lod_count self.m_internal_format self.m_width
      self.m_height self.m_array_size]
  else if self.m_target = GL_TEXTURE_2D_MULTISAMPLE_ARRAY then
    pure [.glTexStorage3DMultisample self.m_target self.m_sample_count self.m_internal_format
      self.m_width self.m_height self.m_array_size fixed_locations]
  else if self.m_target = GL_TEXTURE_3D then do
    let lod_count ← if allocate_mipmap then self.lod_count_3D else pure 1
    pure (.glTexStorage3D self.m_target lod_count self.m_internal_format self.m_width
        self.m_height self.m_depth ::
      if data then [.glTexSubImage3D self.m_target 0 0 0 0 self.m_width self.m_height
        self.m_depth self.m_format self.m_type]
      else [])
  else do
    PICOGL_ASSERT false
    pure []

/-- The private function `Texture::make` on a default-constructed texture: the texture
it leaves, the device, and the commands it issued.  `data` tells whether the pointer
is not null. -/
def make (dev : Device) (target internal_format : GLenum)
    (array_size sample_count width height depth : GLsizei) (data : Bool)
    (opts : Texture.Options) : Except Failure (Texture × Device × List TextureCall) := do
  let pixel_info ← impl.get_pixel_info internal_format
  let (m_gl, dev) := impl.GLObject.make dev
  let self : Texture :=
    { m_gl := m_gl, m_target := target, m_internal_format := internal_format,
      m_format := pixel_info.m_format, m_type := pixel_info.m_type,
      m_array_size := array_size, m_sample_count := sample_count,
      m_width := width, m_height := height, m_depth := depth, m_opts := opts }
  let alignment : List TextureCall :=
    if self.m_opts &&& Texture.Options.AutomaticAlignment ≠ 0 ∧
        (pixel_info.m_scalar_sizeof * self.m_width) % 4 ≠ 0 then
      [.glPixelStorei GL_PACK_ALIGNMENT 1, .glPixelStorei GL_UNPACK_ALIGNMENT 1]
    else []
  let storage ← self.make_storage data
  let mipmap : List TextureCall :=
    if opts &&& Texture.Options.GenerateMipmap ≠ 0 then [.glGenerateMipmap self.m_target]
    else []
  pure (self, dev, [self.bind] ++ alignment ++ storage ++ mipmap)

/-- Function `Texture::make_1d`. -/
def make_1d (dev : Device) (internal_format : GLenum) (width array_size : GLsizei)
    (data : Bool) (opts : Texture.Options) :
    Except Failure (Texture × Device × List TextureCall) :=
  let target := if array_size > 1 then GL_TEXTURE_1D_ARRAY else GL_TEXTURE_1D
  Texture.make dev target internal_format array_size 1 width 0 0 data opts

/-- Function `Texture::make_2d`. -/
def make_2d (dev : Device) (internal_format : GLenum)
    (width height array_size sample_count : GLsizei) (data : Bool) (opts : Texture.Options) :
    Except Failure (Texture × Device × List TextureCall) :=
  let target :=
    if sample_count > 1 then
      (if array_size > 1 then GL_TEXTURE_2D_MULTISAMPLE_ARRAY else GL_TEXTURE_2D_MULTISAMPLE)
    else (if array_size > 1 then GL_TEXTURE_2D_ARRAY else GL_TEXTURE_2D)
  Texture.make dev target internal_format array_size sample_count width height 0 data opts

/-- Function `Texture::make_3d`. -/
def make_3d (dev : Device) (internal_format : GLenum) (width height depth : GLsizei)
    (data : Bool) (opts : Texture.Options) :
    Except Failure (Texture × Device × List TextureCall) :=
  Texture.make dev GL_TEXTURE_3D internal_format 1 1 width height depth data opts

/-- Function `Texture::make_cubemap`. -/
def make_cubemap (dev : Device) (internal_format : GLenum)
    (width height array_size : GLsizei) (opts : Texture.Options) :
    Except Failure (Texture × Device × List TextureCall) :=
  let target := if array_size > 1 then GL_TEXTURE_CUBE_MAP_ARRAY else GL_TEXTURE_CUBE_MAP
  Texture.make dev target internal_format array_size 1 width height 0 false opts

end Texture

/-! ## Framebuffer -/

/-- Models `class Framebuffer`. -/
structure Framebuffer where
  m_gl : GLuint := 0
  m_depth_attachment : GLuint := 0
  m_color_attachments : List Texture := []
  m_attachments : List GLenum := []
  m_sample_count : GLsizei := 1
  m_width : GLsizei := 0
  m_height : GLsizei := 0
  deriving DecidableEq, Repr

/-- The device commands the framebuffer functions issue. -/
inductive FramebufferCall where
  /-- a command issued by the creation of an attachment texture -/
  | texture (call : TextureCall)
  | glDeleteRenderbuffers (renderbuffer : GLuint)
  | glBindRenderbuffer (target : GLenum) (renderbuffer : GLuint)
  | glRenderbufferStorageMultisample (target : GLenum) (samples : GLsizei)
      (internalformat : GLenum) (width height : GLsizei)
  | glRenderbufferStorage (target : GLenum) (internalformat : GLenum) (width height : GLsizei)
  | glBindFramebuffer (target : GLenum) (framebuffer : GLuint)
  | glFramebufferRenderbuffer (target attachment renderbuffertarget : GLenum)
      (renderbuffer : GLuint)
  | glFramebufferTexture2D (target attachment textarget : GLenum) (texture : GLuint)
      (level : Nat)
  deriving DecidableEq, Repr

namespace Framebuffer

/-- Function `Framebuffer::make`. -/
def make (dev : Device) (width height sample_count : GLsizei) : Framebuffer × Device :=
  let (m_gl, dev) := impl.GLObject.make dev
  ({ m_gl := m_gl, m_sample_count := sample_count, m_width := width, m_height := height }, dev)

/-- Function `Framebuffer::get_default`. -/
def get_default (width height sample_count : GLsizei) : Framebuffer :=
  { m_sample_count := sample_count, m_width := width, m_height := height }

/-- Function `Framebuffer::bind`. -/
def bind (self : Framebuffer) (target : GLenum) : FramebufferCall :=
  .glBindFramebuffer target self.m_gl

/-- Function `Framebuffer::set_depth_attachment`.  The move assignment leaves the former
renderbuffer in the temporary, whose destructor releases it. -/
def set_depth_attachment (self : Framebuffer) (dev : Device) (format : GLenum) :
    Framebuffer × Device × List FramebufferCall :=
  let (made, dev) := impl.GLObject.make_handle dev true
  let (depth_attachment, temporary) :=
    impl.GLObject.move_assign { m_id := self.m_depth_attachment } made
  let self := { self with m_depth_attachment := depth_attachment.m_id }
  (self, dev,
    temporary.destroy.map .glDeleteRenderbuffers ++
    [.glBindRenderbuffer GL_RENDERBUFFER self.m_depth_attachment,
     if self.m_sample_count > 1 then
       .glRenderbufferStorageMultisample GL_RENDERBUFFER self.m_sample_count format
         self.m_width self.m_height
     else .glRenderbufferStorage GL_RENDERBUFFER format self.m_width self.m_height,
     self.bind GL_FRAMEBUFFER,
     .glFramebufferRenderbuffer GL_FRAMEBUFFER GL_DEPTH_ATTACHMENT GL_RENDERBUFFER
       self.m_depth_attachment])

/-- Function `Framebuffer::add_color_attachment`: every target other than
`GL_TEXTURE_CUBE_MAP` takes the `default: case GL_TEXTURE_2D:` branch. -/
def add_color_attachment (self : Framebuffer) (dev : Device) (internal_format target : GLenum)
    (options : Texture.Options) : Except Failure (Framebuffer × Device × List FramebufferCall) :=
  let attachment_index := GL_COLOR_ATTACHMENT0 + self.m_color_attachments.length
  let options :=
    if self.m_depth_attachment ≠ 0 then
      options ||| Texture.Options.FixedSampleLocations ||| Texture.Options.AutomaticAlignment
    else options
  let self := { self with m_attachments := self.m_attachments ++ [attachment_index] }
  let made :=
    if target = GL_TEXTURE_CUBE_MAP then
      Texture.make_cubemap dev internal_format self.m_width self.m_height 1 options
    else
      Texture.make_2d dev internal_format self.m_width self.m_height 1 self.m_sample_count
        false options
  match made with
  | .error e => .error e
  | .ok (attachment, dev, calls) =>
    let self := { self with m_color_attachments := self.m_color_attachments ++ [attachment] }
    .ok (self, dev,
      calls.map .texture ++
      [self.bind GL_FRAMEBUFFER,
       .glFramebufferTexture2D GL_FRAMEBUFFER attachment_index attachment.m_target
         attachment.m_gl 0])

end Framebuffer

/-- One call that changes a framebuffer. -/
inductive FramebufferOp where
  | set_depth_attachment (format : GLenum)
  | add_color_attachment (internal_format target : GLenum) (options : Texture.Options)
  deriving DecidableEq, Repr

/-- The framebuffer and the device after one call. -/
def Framebuffer.apply (self : Framebuffer) (dev : Device) :
    FramebufferOp → Except Failure (Framebuffer × Device)
  | .set_depth_attachment format =>
    let (self, dev, _) := self.set_depth_attachment dev format
    .ok (self, dev)
  | .add_color_attachment internal_format target options =>
    match self.add_color_attachment dev internal_format target options with
    | .error e => .error e
    | .ok (self, dev, _) => .ok (self, dev)

/-- The framebuffer and the device after a sequence of calls, each of which returns. -/
def Framebuffer.run (self : Framebuffer) (dev : Device) :
    List FramebufferOp → Except Failure (Framebuffer × Device)
  | [] => .ok (self, dev)
  | op :: ops =>
    match self.apply dev op with
    | .error e => .error e
    | .ok (self, dev) => Framebuffer.run self dev ops

/-- A framebuffer of 4 x 4 pixels with 4 samples gets a depth attachment, a 2D color
attachment and a cubemap color attachment. -/
def multisampled_attachments : List FramebufferOp :=
  [.set_depth_attachment GL_DEPTH_COMPONENT32,
   .add_color_attachment GL_RGBA8 GL_TEXTURE_2D 0,
   .add_color_attachment GL_RGBA8 GL_TEXTURE_CUBE_MAP 0]

/-- The targets of the color attachments a sequence of calls asks for, in call order. -/
def color_targets : List FramebufferOp → List GLenum
  | [] => []
  | .set_depth_attachment _ :: ops => color_targets ops
  | .add_color_attachment _ target _ :: ops => target :: color_targets ops

/-- The width, height and sample count of a texture. -/
def Texture.geometry (self : Texture) : GLsizei × GLsizei × GLsizei :=
  (self.m_width, self.m_height, self.m_sample_count)

/-- The framebuffer the calls `multisampled_attachments` leave: renderbuffer 2, a
multisampled 2D texture 3 and a cubemap texture 4. -/
def multisampled_framebuffer : Framebuffer :=
  { m_gl := 1, m_depth_attachment := 2,
    m_color_attachments :=
      [{ m_gl := 3, m_target := GL_TEXTURE_2D_MULTISAMPLE, m_internal_format := GL_RGBA8,
         m_format := GL_RGBA, m_type := GL_UNSIGNED_BYTE, m_array_size := 1,
         m_sample_count := 4, m_width := 4, m_height := 4, m_depth := 0,
         m_opts := Texture.Options.FixedSampleLocations |||
           Texture.Options.AutomaticAlignment },
       { m_gl := 4, m_target := GL_TEXTURE_CUBE_MAP, m_internal_format := GL_RGBA8,
         m_format := GL_RGBA, m_type := GL_UNSIGNED_BYTE, m_array_size := 1,
         m_sample_count := 1, m_width := 4, m_height := 4, m_depth := 0,
         m_opts := Texture.Options.FixedSampleLocations |||
           Texture.Options.AutomaticAlignment }],
    m_attachments := [GL_COLOR_ATTACHMENT0, GL_COLOR_ATTACHMENT0 + 1],
    m_sample_count := 4, m_width := 4, m_height := 4 }

/-- The vertex count an attribute yields: its source byte size divided by
`m_channel_count` x scalar size of `m_type`. -/
def attribute_vertex_count (attr : VertexAttribute) : Nat :=
  attr.m_size / attribute_sizeof attr

/-- Two floats for one vertex: eight bytes. -/
def one_wide_vertex : VertexAttribute :=
  { m_type := GL_FLOAT
    m_data := [60, 61, 62, 63, 64, 65, 66, 67]
    m_channel_count := 2
    m_size := 8 }

/-- One float per vertex for two vertices: eight bytes. -/
def two_vertices : VertexAttribute :=
  { m_type := GL_FLOAT
    m_data := [70, 71, 72, 73, 74, 75, 76, 77]
    m_channel_count := 1
    m_size := 8 }

/-- One float for one vertex: four bytes. -/
def one_vertex : VertexAttribute :=
  { m_type := GL_FLOAT
    m_data := [80, 81, 82, 83]
    m_channel_count := 1
    m_size := 4 }

/-- What interleaving asks of an attribute that describes `V` vertices: a type
`setup_attribute_pointer` accepts, at least one channel, a byte size of `V` chunks of
`m_channel_count` x scalar size bytes, and a host array that holds that many bytes. -/
def VertexAttribute.Describes (attr : VertexAttribute) (V : Nat) : Prop :=
  (attr.m_type = GL_FLOAT ∨ attr.m_type = GL_INT ∨ attr.m_type = GL_UNSIGNED_INT) ∧
  0 < attr.m_channel_count ∧
  attr.m_size = V * attribute_sizeof attr ∧
  attr.m_size ≤ attr.m_data.length

/-! ## Definitions for nested combination and mip generation -/

/-- A third triangle as `Mesh::build` returns it on a device with ten names in use. -/
def third_triangle : Mesh := triangle 10 GL_TRIANGLES 70 [1]

/-- The combined mesh of `two_built_triangles`, followed by `third_triangle`. -/
def nested_triangles : List Mesh := [two_built_triangles_combined, third_triangle]

/-- The three triangles in one list. -/
def three_triangles : List Mesh := two_built_triangles ++ [third_triangle]

/-- The texture `Texture::make_2d(GL_RGBA8, 4, 4, 1, 1, nullptr, AllocateMipmap)` leaves
on a device with no name in use. -/
def allocated_texture : Texture :=
  { m_gl := 1, m_target := GL_TEXTURE_2D, m_internal_format := GL_RGBA8, m_format := GL_RGBA,
    m_type := GL_UNSIGNED_BYTE, m_array_size := 1, m_sample_count := 1, m_width := 4,
    m_height := 4, m_depth := 0, m_opts := Texture.Options.AllocateMipmap }

/-! ## The copies of the interleaving -/

/-- One call `std::memcpy(dst, src, n)` of the copy loop: `dst` is the position in the
staging vector, `src` the position in the attribute's source array. -/
structure Copy where
  dst : Nat
  src : Nat
  n : Nat
  deriving DecidableEq, Repr

namespace Mesh

/-- The `while (dst < dst_end)` loop of `Mesh::set_vertex_attribute` with its `memcpy`
calls recorded: the code of `set_vertex_attribute_loop`, returning with the staging
vector the list of the calls its rounds have made, in order. -/
def set_vertex_attribute_loop_traced (attribute_sizeof : Nat) (stride : GLsizei)
    (src_data : List Byte) :
    Nat → List Byte → Nat → Nat → Except Failure (List Byte × List Copy)
  | 0, vertex_data, _, dst =>
    if dst < vertex_data.length then .error .undefined else .ok (vertex_data, [])
  | fuel + 1, vertex_data, src, dst =>
    if dst < vertex_data.length then do
      let vertex_data ← memcpy vertex_data dst src_data src attribute_sizeof
      let looped ←
        set_vertex_attribute_loop_traced attribute_sizeof stride src_data fuel vertex_data
          (src + attribute_sizeof) (dst + stride)
      .ok (looped.1, { dst := dst, src := src, n := attribute_sizeof } :: looped.2)
    else .ok (vertex_data, [])

/-- Function `Mesh::set_vertex_attribute` with the `memcpy` calls of its copy loop
recorded: the code of `set_vertex_attribute` around `set_vertex_attribute_loop_traced`. -/
def set_vertex_attribute_traced (self : Mesh) (vertex_data : List Byte) (index : GLuint)
    (offset : Nat) (stride : GLsizei) (attr : VertexAttribute) :
    Except Failure ((Mesh × List Byte × GLuint × Nat) × List Copy) := do
  let scalar_sizeof ← impl.get_scalar_sizeof attr.m_type
  let attribute_sizeof := scalar_sizeof * attr.m_channel_count
  if attribute_sizeof = 0 then .error .undefined
  else
    PICOGL_ASSERT (attr.m_size % attribute_sizeof == 0)
    let looped ← set_vertex_attribute_loop_traced attribute_sizeof stride attr.m_data
      (attr.m_data.length + 1) vertex_data 0 offset
    let self ← self.setup_attribute_pointer index offset stride attr
    let vertex_count := attr.m_size / attribute_sizeof
    let self ←
      if self.m_vertex_count = 0 then
        pure { self with m_vertex_count := vertex_count }
      else do
        PICOGL_ASSERT (vertex_count == self.m_vertex_count)
        pure self
    .ok ((self, looped.1, index + 1, offset + attribute_sizeof), looped.2)

/-- Second loop of `Mesh::set_vertex_attributes` with the `memcpy` calls recorded, one
list per attribute. -/
def set_vertex_attributes_loop_traced (stride : GLsizei) :
    List VertexAttribute → Mesh → List Byte → GLuint → Nat →
      Except Failure ((Mesh × List Byte) × List (List Copy))
  | [], self, vertex_data, _, _ => .ok ((self, vertex_data), [])
  | attr :: rest, self, vertex_data, index, offset => do
    let first ← self.set_vertex_attribute_traced vertex_data index offset stride attr
    let others ← set_vertex_attributes_loop_traced stride rest first.1.1 first.1.2.1
      first.1.2.2.1 first.1.2.2.2
    .ok (others.1, first.2 :: others.2)

/-- Function `Mesh::set_vertex_attributes` with the `memcpy` calls recorded: it returns
what `set_vertex_attributes` returns, the calls of each attribute's copy loop, and the
staging vector `vertex_data` as it is uploaded. -/
def set_vertex_attributes_traced (dev : Device) (self : Mesh)
    (attributes : List VertexAttribute) :
    Except Failure ((Mesh × Device) × List (List Copy) × List Byte) := do
  PICOGL_ASSERT (self.m_vao != 0)
  let self := { self with m_vertex_attributes := attributes }
  let (total_size, attributes_sizeof) ← set_vertex_attributes_sizes attributes 0 0
  let (vertex_buffer, dev) := Buffer.make dev GL_ARRAY_BUFFER total_size
  let self := { self with m_vertex_buffer := vertex_buffer }
  let vertex_data : List Byte := List.replicate total_size 0
  let looped ←
    set_vertex_attributes_loop_traced attributes_sizeof attributes self vertex_data 0 0
  let vertex_buffer ← looped.1.1.m_vertex_buffer.upload_data looped.1.2 0 0
  .ok (({ looped.1.1 with m_vertex_buffer := vertex_buffer }, dev), looped.2, looped.1.2)

end Mesh

/-- The copies of an attribute that interleaving asks for: chunk `v` of `n` bytes goes
to the column at `offset` of record `v`, for `v` from 0 to `V - 1`. -/
def chunk_copies (V offset stride n : Nat) : List Copy :=
  (List.range V).map fun v => { dst := offset + v * stride, src := v * n, n := n }

/-! ## Framebuffer binding and blit -/

def GL_READ_FRAMEBUFFER : GLenum := 0x8CA8
def GL_DRAW_FRAMEBUFFER : GLenum := 0x8CA9
def GL_COLOR_BUFFER_BIT : Nat := 0x00004000
def GL_NEAREST : GLenum := 0x2600

/-- The device commands of the framebuffer functions that bind a framebuffer, select
its buffers and blit. -/
inductive FramebufferUseCall where
  /-- a binding command, issued by `Framebuffer::bind` -/
  | framebuffer (call : FramebufferCall)
  | glReadBuffer (src : GLenum)
  | glDrawBuffers (n : GLsizei) (bufs : List GLenum)
  | glBlitFramebuffer (srcX0 srcY0 srcX1 srcY1 dstX0 dstY0 dstX1 dstY1 : Int) (mask : Nat)
      (filter : GLenum)
  deriving DecidableEq, Repr

namespace Framebuffer

/-- Function `Framebuffer::bind_read`. -/
def bind_read (self : Framebuffer) (attachment : GLenum) : List FramebufferUseCall :=
  [.framebuffer (self.bind GL_READ_FRAMEBUFFER), .glReadBuffer attachment]

/-- Function `Framebuffer::bind_draw(attachment)`. -/
def bind_draw_attachment (self : Framebuffer) (attachment : GLenum) :
    Except Failure (List FramebufferUseCall) := do
  PICOGL_ASSERT (decide (attachment ≥ GL_COLOR_ATTACHMENT0))
  pure (.framebuffer (self.bind GL_DRAW_FRAMEBUFFER) ::
    if self.m_gl ≠ 0 then [.glDrawBuffers 1 [attachment]] else [])

/-- Function `Framebuffer::bind_draw()`. -/
def bind_draw (self : Framebuffer) : Except Failure (List FramebufferUseCall) :=
  if self.m_gl ≠ 0 then do
    PICOGL_ASSERT (!self.m_attachments.isEmpty)
    pure [.framebuffer (self.bind GL_DRAW_FRAMEBUFFER),
          .glDrawBuffers self.m_attachments.length self.m_attachments]
  else pure [.framebuffer (self.bind GL_DRAW_FRAMEBUFFER)]

/-- Function `Framebuffer::blit_to` with explicit rectangles. -/
def blit_to_rect (self to_framebuffer : Framebuffer) (to_x to_y to_w to_h : Int)
    (attachment_to filter : GLenum) (from_x from_y from_w from_h : Int)
    (attachment_from : GLenum) : Except Failure (List FramebufferUseCall) := do
  let read := self.bind_read attachment_from
  let draw ← to_framebuffer.bind_draw_attachment attachment_to
  pure (read ++ draw ++
    [.glBlitFramebuffer from_x from_y from_w from_h to_x to_y to_w to_h GL_COLOR_BUFFER_BIT
      filter])

/-- Function `Framebuffer::blit_to(to, attachment_to, filter, attachment_from)`. -/
def blit_to (self to_framebuffer : Framebuffer) (attachment_to filter attachment_from : GLenum) :
    Except Failure (List FramebufferUseCall) :=
  self.blit_to_rect to_framebuffer 0 0 to_framebuffer.m_width to_framebuffer.m_height
    attachment_to filter 0 0 self.m_width self.m_height attachment_from

/-- The framebuffer, the device and the commands issued by one call. -/
def apply_calls (self : Framebuffer) (dev : Device) :
    FramebufferOp → Except Failure (Framebuffer × Device × List FramebufferCall)
  | .set_depth_attachment format => .ok (self.set_depth_attachment dev format)
  | .add_color_attachment internal_format target options =>
    self.add_color_attachment dev internal_format target options

/-- The framebuffer, the device and the commands issued by a sequence of calls, each
of which returns. -/
def run_calls (self : Framebuffer) (dev : Device) :
    List FramebufferOp → Except Failure (Framebuffer × Device × List FramebufferCall)
  | [] => .ok (self, dev, [])
  | op :: ops =>
    match self.apply_calls dev op with
    | .error e => .error e
    | .ok (self, dev, calls) =>
      match run_calls self dev ops with
      | .error e => .error e
      | .ok (self, dev, rest) => .ok (self, dev, calls ++ rest)

end Framebuffer

/-- The device side of texture attachment: `glBindFramebuffer` with target
`GL_FRAMEBUFFER` or `GL_DRAW_FRAMEBUFFER` makes a framebuffer the draw framebuffer, and
`glFramebufferTexture2D` with one of these targets attaches the texture to the given
attachment point of the draw framebuffer.  The result lists the attachments made, as
(framebuffer, attachment point, texture), with `bound` the draw framebuffer at the
start. -/
def attached_textures : List FramebufferCall → GLuint → List (GLuint × GLenum × GLuint)
  | [], _ => []
  | .glBindFramebuffer target framebuffer :: calls, bound =>
    attached_textures calls
      (if target = GL_FRAMEBUFFER ∨ target = GL_DRAW_FRAMEBUFFER then framebuffer else bound)
  | .glFramebufferTexture2D target attachment _ texture _ :: calls, bound =>
    if target = GL_FRAMEBUFFER ∨ target = GL_DRAW_FRAMEBUFFER then
      (bound, attachment, texture) :: attached_textures calls bound
    else attached_textures calls bound
  | _ :: calls, bound => attached_textures calls bound

/-- The draw framebuffer after a sequence of commands. -/
def draw_framebuffer_after : List FramebufferCall → GLuint → GLuint
  | [], bound => bound
  | .glBindFramebuffer target framebuffer :: calls, bound =>
    draw_framebuffer_after calls
      (if target = GL_FRAMEBUFFER ∨ target = GL_DRAW_FRAMEBUFFER then framebuffer else bound)
  | _ :: calls, bound => draw_framebuffer_after calls bound

/-- A rectangle of pixels given by two corners, as `glBlitFramebuffer` takes it. -/
structure Rectangle where
  x0 : Int
  y0 : Int
  x1 : Int
  y1 : Int
  deriving DecidableEq, Repr

/-- The rectangle at position `(x, y)` of size `w` x `h`. -/
def Rectangle.at_size (x y w h : Int) : Rectangle :=
  { x0 := x, y0 := y, x1 := x + w, y1 := y + h }

/-- The source and destination rectangles of the blit commands in a command list:
`glBlitFramebuffer` reads the rectangle with corners `(srcX0, srcY0)`, `(srcX1, srcY1)`
and writes the rectangle with corners `(dstX0, dstY0)`, `(dstX1, dstY1)`. -/
def blits : List FramebufferUseCall → List (Rectangle × Rectangle)
  | [] => []
  | .glBlitFramebuffer srcX0 srcY0 srcX1 srcY1 dstX0 dstY0 dstX1 dstY1 _ _ :: calls =>
    ({ x0 := srcX0, y0 := srcY0, x1 := srcX1, y1 := srcY1 },
     { x0 := dstX0, y0 := dstY0, x1 := dstX1, y1 := dstY1 }) :: blits calls
  | _ :: calls => blits calls

/-- Two color attachments on a framebuffer of 4 x 4 pixels. -/
def two_color_attachments : List FramebufferOp :=
  [.add_color_attachment GL_RGBA8 GL_TEXTURE_2D 0,
   .add_color_attachment GL_RGBA32F GL_TEXTURE_2D 0]

/-! ## Texture units -/

def GL_TEXTURE0 : GLenum := 0x84C0

/-- The texture-unit state of the device: the active unit, and the texture bound to
each target of each unit (0 for none).  `max_units` is the number of units of the
implementation. -/
structure TextureUnits where
  max_units : Nat
  active : GLenum := GL_TEXTURE0
  bound : GLenum → GLenum → GLuint := fun _ _ => 0

/-- The device commands of `Texture::bind_as_sampler`. -/
inductive SamplerCall where
  /-- a command issued by `Texture::bind` -/
  | texture (call : TextureCall)
  | glActiveTexture (texture : GLenum)
  deriving DecidableEq, Repr

namespace TextureUnits

/-- Device call `glBindTexture(target, texture)`: binds the texture to the target of the
active unit. -/
def glBindTexture (units : TextureUnits) (target : GLenum) (texture : GLuint) : TextureUnits :=
  { units with
    bound := fun unit t =>
      if unit = units.active ∧ t = target then texture else units.bound unit t }

/-- Device call `glActiveTexture(texture)`: selects the active unit; a value that is
not `GL_TEXTURE0 + i` with `i` below the number of units is an error and selects
nothing. -/
def glActiveTexture (units : TextureUnits) (texture : GLenum) : TextureUnits :=
  if GL_TEXTURE0 ≤ texture ∧ texture < GL_TEXTURE0 + units.max_units then
    { units with active := texture }
  else units

/-- The effect of one command on the texture units. -/
def apply (units : TextureUnits) : SamplerCall → TextureUnits
  | .texture (.glBindTexture target texture) => units.glBindTexture target texture
  | .texture _ => units
  | .glActiveTexture texture => units.glActiveTexture texture

/-- The texture units after a sequence of commands. -/
def run (units : TextureUnits) (calls : List SamplerCall) : TextureUnits :=
  calls.foldl apply units

end TextureUnits

/-- Function `Texture::bind_as_sampler`. -/
def Texture.bind_as_sampler (self : Texture) (slot : GLuint) :
    Except Failure (List SamplerCall) := do
  PICOGL_ASSERT (decide (slot ≥ GL_TEXTURE0))
  pure [.texture self.bind, .glActiveTexture slot]

/-- A 2D texture with name 5. -/
def sampled_texture : Texture := { m_gl := 5, m_target := GL_TEXTURE_2D }

/-! ## Shader and Program -/

def GL_FALSE : Nat := 0
def GL_TRUE : Nat := 1
def GL_VERTEX_SHADER : GLenum := 0x8B31
def GL_FRAGMENT_SHADER : GLenum := 0x8B30
def GL_COMPILE_STATUS : GLenum := 0x8B81
def GL_LINK_STATUS : GLenum := 0x8B82
def GL_INFO_LOG_LENGTH : GLenum := 0x8B84

/-- What the device answers to the queries that follow `glCompileShader` or
`glLinkProgram`: the status (`GL_COMPILE_STATUS` or `GL_LINK_STATUS`), the value of
`GL_INFO_LOG_LENGTH`, and the characters of the information log. -/
structure InfoResponse where
  status : Bool
  log_length : Nat
  info_log : List Byte
  deriving DecidableEq, Repr

namespace InfoResponse

/-- The value `glGetShaderiv` / `glGetProgramiv` writes for the status query. -/
def status_value (response : InfoResponse) : Nat :=
  if response.status then GL_TRUE else GL_FALSE

/-- The characters `glGetShaderInfoLog` / `glGetProgramInfoLog` write into a buffer of
`max_length` characters: as much of the log as fits, then the null terminator; nothing
when `max_length` is 0. -/
def glGetInfoLog (response : InfoResponse) (max_length : Nat) : List Byte :=
  if max_length = 0 then [] else response.info_log.take (max_length - 1) ++ [0]

end InfoResponse

/-- Models `class Shader`; `m_type` is never assigned by the source. -/
structure Shader where
  m_gl : GLuint := 0
  m_type : GLenum := 0
  m_log : List Byte := []
  deriving DecidableEq, Repr

/-- Models `class Program`. -/
structure Program where
  m_gl : GLuint := 0
  m_log : List Byte := []
  deriving DecidableEq, Repr

/-- The diagnostic log the `if (!status)` block of `Shader::make` and `Program::make`
leaves: `m_log.resize(log_length + 1)` followed by the device writing the information
log to `m_log.data()` with `maxLength = log_length`. -/
def read_info_log (m_log : List Byte) (response : InfoResponse) : List Byte :=
  let log_length := response.log_length
  let status := response.status_value
  if status = 0 then
    let m_log := vec_resize m_log (log_length + 1) 0
    overwrite m_log 0 (response.glGetInfoLog log_length)
  else m_log

/-- The device commands of `Shader::make` and `Program::make`. -/
inductive ShaderCall where
  | glCreateShader (type : GLenum)
  | glShaderSource (shader : GLuint) (code : List Byte)
  | glCompileShader (shader : GLuint)
  | glGetShaderiv (shader : GLuint) (pname : GLenum)
  | glGetShaderInfoLog (shader : GLuint) (max_length : Nat)
  | glCreateProgram
  | glAttachShader (program shader : GLuint)
  | glLinkProgram (program : GLuint)
  | glGetProgramiv (program : GLuint) (pname : GLenum)
  | glGetProgramInfoLog (program : GLuint) (max_length : Nat)
  | glDetachShader (program shader : GLuint)
  deriving DecidableEq, Repr

/-- Function `Shader::make`; `response` is the device's answer for this source. -/
def Shader.make (dev : Device) (type : GLenum) (code : List Byte) (response : InfoResponse) :
    Shader × Device × List ShaderCall :=
  let (m_gl, dev) := impl.GLObject.make dev
  let shader : Shader := { m_gl := m_gl }
  ({ shader with m_log := read_info_log shader.m_log response }, dev,
    [.glCreateShader type, .glShaderSource shader.m_gl code, .glCompileShader shader.m_gl,
     .glGetShaderiv shader.m_gl GL_COMPILE_STATUS,
     .glGetShaderiv shader.m_gl GL_INFO_LOG_LENGTH] ++
    if response.status_value = 0 then [.glGetShaderInfoLog shader.m_gl response.log_length]
    else [])

/-- Function `Shader::compiled`. -/
def Shader.compiled (self : Shader) : Bool := !self.m_log.isEmpty

/-- Function `Shader::get_log`. -/
def Shader.get_log (self : Shader) : List Byte := self.m_log

/-- Function `Program::make`; `response` is the device's answer for these shaders. -/
def Program.make (dev : Device) (shaders : List Shader) (response : InfoResponse) :
    Program × Device × List ShaderCall :=
  let (m_gl, dev) := impl.GLObject.make dev
  let program : Program := { m_gl := m_gl }
  ({ program with m_log := read_info_log program.m_log response }, dev,
    [.glCreateProgram] ++
    shaders.map (fun shader => .glAttachShader program.m_gl shader.m_gl) ++
    [.glLinkProgram program.m_gl,
     .glGetProgramiv program.m_gl GL_LINK_STATUS,
     .glGetProgramiv program.m_gl GL_INFO_LOG_LENGTH] ++
    (if response.status_value = 0 then [.glGetProgramInfoLog program.m_gl response.log_length]
     else []) ++
    shaders.map (fun shader => .glDetachShader program.m_gl shader.m_gl))

/-- Function `Program::linked`. -/
def Program.linked (self : Program) : Bool := !self.m_log.isEmpty

/-- Function `Program::get_log`. -/
def Program.get_log (self : Program) : List Byte := self.m_log

/-- The device reports success and no information log. -/
def success_response : InfoResponse := { status := true, log_length := 0, info_log := [] }

/-- The device reports a failure with the information log "e". -/
def failure_response : InfoResponse := { status := false, log_length := 2, info_log := [101] }

/-! ## Viewport -/

namespace framework

/-- Models the framebuffer part of `class framework::Viewport`. -/
structure Viewport where
  m_framebuffer : Framebuffer := {}
  m_resolve_framebuffer : Framebuffer := {}
  m_sample_count : GLsizei := 1
  m_additional_attachments : List GLenum := []
  deriving DecidableEq, Repr

namespace Viewport

/-- The constructor `Viewport(name, additional_attachments)`. -/
def make (additional_attachments : List GLenum) : Viewport :=
  { m_additional_attachments := additional_attachments }

/-- The lambda `setup_framebuffer` of `Viewport::resize`: a depth attachment, a
`GL_RGBA8` color attachment and one color attachment per additional format, each with
the default target `GL_TEXTURE_2D` and the default options. -/
def setup_framebuffer (framebuffer : Framebuffer) (dev : Device)
    (additional_attachments : List GLenum) : Except Failure (Framebuffer × Device) :=
  framebuffer.run dev
    ([.set_depth_attachment GL_DEPTH_COMPONENT32,
      .add_color_attachment GL_RGBA8 GL_TEXTURE_2D 0] ++
     additional_attachments.map fun format => .add_color_attachment format GL_TEXTURE_2D 0)

/-- Function `Viewport::resize`; the arguments are `GLsizei`, signed integers. -/
def resize (self : Viewport) (dev : Device) (width height sample_count : Int) :
    Except Failure (Viewport × Device) :=
  let width : GLsizei := (max width 1).toNat
  let height : GLsizei := (max height 1).toNat
  let sample_count : GLsizei := (max sample_count 1).toNat
  let self := { self with m_sample_count := sample_count }
  if self.m_framebuffer.m_width ≠ width ∨ self.m_framebuffer.m_height ≠ height ∨
      self.m_framebuffer.m_sample_count ≠ sample_count then
    let (framebuffer, dev) := Framebuffer.make dev width height sample_count
    match setup_framebuffer framebuffer dev self.m_additional_attachments with
    | .error e => .error e
    | .ok (framebuffer, dev) =>
      let self := { self with m_framebuffer := framebuffer }
      if sample_count > 1 then
        let (resolve_framebuffer, dev) := Framebuffer.make dev width height 1
        match setup_framebuffer resolve_framebuffer dev self.m_additional_attachments with
        | .error e => .error e
        | .ok (resolve_framebuffer, dev) =>
          .ok ({ self with m_resolve_framebuffer := resolve_framebuffer }, dev)
      else .ok (self, dev)
  else .ok (self, dev)

/-- Function `Viewport::final_framebuffer`. -/
def final_framebuffer (self : Viewport) : Framebuffer :=
  if self.m_framebuffer.m_sample_count > 1 then self.m_resolve_framebuffer
  else self.m_framebuffer

/-- The viewport and the device after a sequence of `resize(width, height,
sample_count)` calls, each of which returns. -/
def run (self : Viewport) (dev : Device) :
    List (Int × Int × Int) → Except Failure (Viewport × Device)
  | [] => .ok (self, dev)
  | (width, height, sample_count) :: rest =>
    match self.resize dev width height sample_count with
    | .error e => .error e
    | .ok (self, dev) => run self dev rest

/-- The resolve framebuffer matches the primary one whenever the primary one is
multisampled, and `m_sample_count` is the primary framebuffer's sample count. -/
def Resolved (self : Viewport) : Prop :=
  self.m_sample_count = self.m_framebuffer.m_sample_count ∧
  1 ≤ self.m_framebuffer.m_sample_count ∧
  (1 < self.m_framebuffer.m_sample_count →
    self.m_resolve_framebuffer.m_sample_count = 1 ∧
    self.m_resolve_framebuffer.m_width = self.m_framebuffer.m_width ∧
    self.m_resolve_framebuffer.m_height = self.m_framebuffer.m_height)

end Viewport

end framework

/-! ## Mip level count -/

/-- What the argument needs from the platform's `std::log2` at the integer `x`: the
result is exact when `x` is a power of two, and within `2 ^ (-33)` of the binary
logarithm otherwise.  A faithfully rounded `log2` in double precision has both
properties for every `x` below `2 ^ 31`. -/
def AccurateLog2 (log2 : Nat → ℚ) (x : Nat) : Prop :=
  (∀ k : Nat, x = 2 ^ k → log2 x = k) ∧
  |((log2 x : ℚ) : ℝ) - Real.logb 2 x| ≤ 1 / 2 ^ 33

/-- Function `Texture::lod_count_2D` over the platform's `std::log2`, given as the
function from the integer argument to the double it returns (a rational number):
`static_cast<GLsizei>(std::floor(std::log2(std::max(m_width, m_height)))) + 1`.  For the
argument 0 the logarithm is minus infinity, whose conversion is undefined. -/
def Texture.lod_count_2D_libm (log2 : Nat → ℚ) (self : Texture) : Except Failure Int :=
  let x := max self.m_width self.m_height
  if x = 0 then .error .undefined else .ok (⌊log2 x⌋ + 1)

/-- A texture of 4 x 4 pixels. -/
def texture_4x4 : Texture := { m_width := 4, m_height := 4 }

/-- A texture of 8 x 2 pixels. -/
def texture_8x2 : Texture := { m_width := 8, m_height := 2 }

/-! ## Auxiliary lemmas -/

theorem bind_eq_ok {α β : Type} {x : Except Failure α} {f : α → Except Failure β} {b : β} :
    (x >>= f) = .ok b ↔ ∃ a, x = .ok a ∧ f a = .ok b := by
  cases x <;> simp [bind, Except.bind]

theorem assert_eq_ok {c : Bool} {u : Unit} : PICOGL_ASSERT c = .ok u ↔ c = true := by
  unfold PICOGL_ASSERT
  cases c <;> simp

theorem vec_at_eq_ok {α : Type} {v : List α} {i : Nat} {x : α} :
    vec_at v i = .ok x ↔ v[i]? = some x := by
  unfold vec_at
  cases h : v[i]? <;> simp

theorem vec_set_eq_ok {α : Type} {v w : List α} {i : Nat} {x : α} :
    vec_set v i x = .ok w ↔ i < v.length ∧ w = v.set i x := by
  unfold vec_set
  by_cases h : i < v.length <;> simp [h, eq_comm]

theorem overwrite_nil {α : Type} (v : List α) (pos : Nat) : overwrite v pos [] = v := by
  simp [overwrite]

theorem length_overwrite {α : Type} (v : List α) (pos : Nat) (xs : List α)
    (h : pos + xs.length ≤ v.length) : (overwrite v pos xs).length = v.length := by
  simp only [overwrite, List.length_append, List.length_take, List.length_drop]
  omega

theorem overwrite_set {α : Type} (v : List α) (pos : Nat) (x : α) (xs : List α)
    (h : pos < v.length) :
    overwrite (v.set pos x) (pos + 1) xs = overwrite v pos (x :: xs) := by
  unfold overwrite
  rw [List.set_eq_take_append_cons_drop, if_pos h]
  have h1 : (List.take pos v).length = pos := by simp; omega
  have e1 : List.take (pos + 1) (List.take pos v ++ x :: List.drop (pos + 1) v)
      = List.take pos v ++ [x] := by
    rw [List.take_append_eq_append_take, h1]
    simp [List.take_of_length_le, h1]
  have e2 : List.drop (pos + 1 + xs.length) (List.take pos v ++ x :: List.drop (pos + 1) v)
      = List.drop (pos + (x :: xs).length) v := by
    rw [List.drop_append_eq_append_drop, h1]
    have : List.drop (pos + 1 + xs.length) (List.take pos v) = [] := by
      apply List.drop_eq_nil_of_le; simp; omega
    rw [this]
    have e : pos + 1 + xs.length - pos = xs.length + 1 := by omega
    simp only [e, List.nil_append, List.drop_succ_cons, List.drop_drop, List.length_cons]
    congr 1; omega
  rw [e1, e2]
  simp

theorem overwrite_overwrite {α : Type} (v : List α) (pos : Nat) (xs ys : List α)
    (h : pos + xs.length ≤ v.length) :
    overwrite (overwrite v pos xs) (pos + xs.length) ys = overwrite v pos (xs ++ ys) := by
  unfold overwrite
  have h1 : (List.take pos v ++ xs).length = pos + xs.length := by simp; omega
  have e1 : List.take (pos + xs.length) (List.take pos v ++ xs ++ List.drop (pos + xs.length) v)
      = List.take pos v ++ xs := by
    rw [List.take_append_of_le_length (by omega), List.take_of_length_le (by omega)]
  have e2 : List.drop (pos + xs.length + ys.length)
      (List.take pos v ++ xs ++ List.drop (pos + xs.length) v)
      = List.drop (pos + (xs ++ ys).length) v := by
    rw [List.drop_append_eq_append_drop, h1]
    have : List.drop (pos + xs.length + ys.length) (List.take pos v ++ xs) = [] := by
      apply List.drop_eq_nil_of_le; omega
    rw [this]
    simp only [List.nil_append, List.drop_drop, List.length_append]
    congr 1; omega
  rw [e1, e2]
  simp

theorem overwrite_all {α : Type} (v xs : List α) (h : xs.length = v.length) :
    overwrite v 0 xs = xs := by
  unfold overwrite
  simp [h]

theorem command_table_cons (s : SubMesh) (ss : List SubMesh) (c : GLuint) (cs : List GLuint) :
    command_table (s :: ss) (c :: cs) =
      { m_count := s.m_index_count, m_instance_count := c, m_first_index := s.m_first_index,
        m_base_vertex := s.m_indice_offset, m_base_instance := 0 } :: command_table ss cs := by
  simp [command_table]

theorem length_command_table (ss : List SubMesh) (cs : List GLuint) :
    (command_table ss cs).length = min ss.length cs.length := by
  simp [command_table]

namespace Mesh

theorem set_instances_count_loop_eq (instances_count : List GLuint) :
    ∀ (submeshes : List SubMesh) (mesh_id : Nat) (draws : List DrawElementsIndirectCommand),
      mesh_id + submeshes.length ≤ instances_count.length →
      mesh_id + submeshes.length ≤ draws.length →
      set_instances_count_loop instances_count submeshes mesh_id draws =
        .ok (overwrite draws mesh_id (command_table submeshes (instances_count.drop mesh_id))) := by
  intro submeshes
  induction submeshes with
  | nil => intro mesh_id draws _ _; simp [set_instances_count_loop, command_table, overwrite_nil]
  | cons s rest ih =>
    intro mesh_id draws h1 h2
    simp only [List.length_cons] at h1 h2
    have hi : mesh_id < instances_count.length := by omega
    have hd : mesh_id < draws.length := by omega
    have e1 : vec_at instances_count mesh_id = .ok instances_count[mesh_id] := by
      rw [vec_at_eq_ok]; exact List.getElem?_eq_getElem hi
    have e2 : ∀ x, vec_set draws mesh_id x = .ok (draws.set mesh_id x) := by
      intro x; rw [vec_set_eq_ok]; exact ⟨hd, rfl⟩
    simp only [set_instances_count_loop, e1, e2, bind, Except.bind]
    rw [ih (mesh_id + 1) _ (by omega) (by simp; omega)]
    rw [overwrite_set _ _ _ _ hd, List.drop_eq_getElem_cons hi, command_table_cons]

/-- Closed form of `Mesh::set_instances_count`: it succeeds exactly on a table of the
right length and then stores the derived command table. -/
theorem set_instances_count_eq (dev : Device) (self : Mesh) (instances_count : List GLuint)
    (h : instances_count.length = self.m_submeshes.length) :
    self.set_instances_count dev instances_count =
      .ok ({ self with
              m_instances_count := instances_count
              m_indirect_draw_buffer :=
                { m_gl := dev.generated + 1
                  m_target := GL_DRAW_INDIRECT_BUFFER
                  m_size := self.m_submeshes.length * sizeof_DrawElementsIndirectCommand
                  store := command_table self.m_submeshes instances_count } },
           { generated := dev.generated + 1 }) := by
  have hlen : (command_table self.m_submeshes instances_count).length
      = self.m_submeshes.length := by
    rw [length_command_table, h]; simp
  unfold set_instances_count
  simp only [get_submeshes_count, h, beq_self_eq_true, PICOGL_ASSERT, if_true, bind, Except.bind]
  rw [set_instances_count_loop_eq _ _ _ _ (by omega) (by simp)]
  simp only [List.drop_zero]
  rw [overwrite_all _ _ (by simp [hlen])]
  simp [Buffer.make_vector, impl.GLObject.make, hlen]

theorem set_instances_count_ok_length (dev dev' : Device) (self self' : Mesh)
    (instances_count : List GLuint)
    (h : self.set_instances_count dev instances_count = .ok (self', dev')) :
    instances_count.length = self.m_submeshes.length := by
  unfold set_instances_count at h
  rw [bind_eq_ok] at h
  obtain ⟨u, hu, -⟩ := h
  rw [assert_eq_ok] at hu
  simpa [get_submeshes_count] using hu

end Mesh

namespace Mesh

theorem combine_submeshes_eq (mesh : Mesh) (index_offset index_count : GLsizei) :
    ∀ (submeshes : List SubMesh) (local_id global_id : Nat) (dst : Mesh),
      global_id + submeshes.length ≤ dst.m_submeshes.length →
      global_id + submeshes.length ≤ dst.m_instances_count.length →
      local_id + submeshes.length ≤ mesh.m_instances_count.length →
      combine_submeshes mesh index_offset index_count submeshes local_id global_id dst =
        .ok ({ dst with
                m_submeshes := overwrite dst.m_submeshes global_id
                  (submeshes.map (rebase index_offset index_count))
                m_instances_count := overwrite dst.m_instances_count global_id
                  ((mesh.m_instances_count.drop local_id).take submeshes.length) },
             global_id + submeshes.length) := by
  intro submeshes
  induction submeshes with
  | nil => intro l g dst _ _ _; simp [combine_submeshes, overwrite_nil]
  | cons s rest ih =>
    intro l g dst h1 h2 h3
    simp only [List.length_cons] at h1 h2 h3
    have hs : g < dst.m_submeshes.length := by omega
    have hi : g < dst.m_instances_count.length := by omega
    have hl : l < mesh.m_instances_count.length := by omega
    have e1 : ∀ x, vec_set dst.m_submeshes g x = .ok (dst.m_submeshes.set g x) := by
      intro x; rw [vec_set_eq_ok]; exact ⟨hs, rfl⟩
    have e2 : vec_at mesh.m_instances_count l = .ok mesh.m_instances_count[l] := by
      rw [vec_at_eq_ok]; exact List.getElem?_eq_getElem hl
    have e3 : ∀ x, vec_set dst.m_instances_count g x = .ok (dst.m_instances_count.set g x) := by
      intro x; rw [vec_set_eq_ok]; exact ⟨hi, rfl⟩
    simp only [combine_submeshes, e1, e2, e3, bind, Except.bind]
    rw [ih (l + 1) (g + 1) _ (by simp; omega) (by simp; omega) (by omega)]
    simp only [overwrite_set _ _ _ _ hs, overwrite_set _ _ _ _ hi, List.map_cons,
      List.length_cons]
    rw [List.drop_eq_getElem_cons hl, List.take_succ_cons]
    have e : g + 1 + rest.length = g + (rest.length + 1) := by omega
    rw [e]
    rfl

theorem combine_submeshes_bounds (mesh : Mesh) (index_offset index_count : GLsizei) :
    ∀ (submeshes : List SubMesh) (local_id global_id : Nat) (dst : Mesh) (r : Mesh × Nat),
      combine_submeshes mesh index_offset index_count submeshes local_id global_id dst = .ok r →
      global_id ≤ dst.m_submeshes.length →
      global_id ≤ dst.m_instances_count.length →
      local_id ≤ mesh.m_instances_count.length →
      global_id + submeshes.length ≤ dst.m_submeshes.length ∧
      global_id + submeshes.length ≤ dst.m_instances_count.length ∧
      local_id + submeshes.length ≤ mesh.m_instances_count.length := by
  intro submeshes
  induction submeshes with
  | nil => intro l g dst r _ h1 h2 h3; simpa using ⟨h1, h2, h3⟩
  | cons s rest ih =>
    intro l g dst r h _ _ _
    simp only [combine_submeshes] at h
    rw [bind_eq_ok] at h
    obtain ⟨submeshes, hs, h⟩ := h
    rw [bind_eq_ok] at h
    obtain ⟨c, hc, h⟩ := h
    rw [bind_eq_ok] at h
    obtain ⟨instances, hi, h⟩ := h
    rw [vec_set_eq_ok] at hs hi
    rw [vec_at_eq_ok] at hc
    have hl : l < mesh.m_instances_count.length := by
      by_contra hn
      rw [List.getElem?_eq_none (by omega)] at hc
      exact absurd hc (by simp)
    have := ih (l + 1) (g + 1) _ r h (by simp [hs.2]; omega) (by simp [hi.2]; omega) (by omega)
    simp only [hs.2, hi.2, List.length_set, List.length_cons] at this ⊢
    omega

end Mesh

theorem submesh_total_cons (mesh : Mesh) (rest : List Mesh) :
    submesh_total (mesh :: rest) = mesh.m_submeshes.length + submesh_total rest := by
  simp [submesh_total]

theorem instance_total_cons (mesh : Mesh) (rest : List Mesh) :
    instance_total (mesh :: rest) = mesh.m_instances_count.length + instance_total rest := by
  simp [instance_total]

theorem instances_read_cons (mesh : Mesh) (rest : List Mesh) :
    instances_read (mesh :: rest) =
      mesh.m_instances_count.take mesh.m_submeshes.length ++ instances_read rest := by
  simp [instances_read]

theorem length_rebase_all :
    ∀ (meshes : List Mesh) (index_offset index_count : GLsizei),
      (rebase_all meshes index_offset index_count).length = submesh_total meshes := by
  intro meshes
  induction meshes with
  | nil => intro _ _; simp [rebase_all, submesh_total]
  | cons mesh rest ih =>
    intro vo ic
    simp [rebase_all, submesh_total_cons, ih]

theorem length_instances_read (meshes : List Mesh)
    (h : ∀ mesh ∈ meshes, mesh.m_submeshes.length ≤ mesh.m_instances_count.length) :
    (instances_read meshes).length = submesh_total meshes := by
  induction meshes with
  | nil => simp [instances_read, submesh_total]
  | cons mesh rest ih =>
    have h1 := h mesh (List.mem_cons_self _ _)
    have h2 := ih (fun m hm => h m (List.mem_cons_of_mem _ hm))
    simp only [instances_read_cons, submesh_total_cons, List.length_append, List.length_take, h2]
    omega

namespace Mesh

theorem combine_meshes_eq :
    ∀ (meshes : List Mesh) (offsets : CombineOffsets) (dst : Mesh),
      (∀ mesh ∈ meshes, mesh.m_submeshes.length ≤ mesh.m_instances_count.length) →
      offsets.global_submesh_id + submesh_total meshes ≤ dst.m_submeshes.length →
      offsets.global_submesh_id + submesh_total meshes ≤ dst.m_instances_count.length →
      combine_meshes meshes offsets dst =
        .ok { dst with
              m_submeshes := overwrite dst.m_submeshes offsets.global_submesh_id
                (rebase_all meshes offsets.index_offset offsets.index_count)
              m_instances_count := overwrite dst.m_instances_count offsets.global_submesh_id
                (instances_read meshes)
              m_index_buffer := copy_all (fun mesh => mesh.m_index_buffer) meshes
                offsets.dst_index_size_offset dst.m_index_buffer
              m_vertex_buffer := copy_all (fun mesh => mesh.m_vertex_buffer) meshes
                offsets.dst_vertex_size_offset dst.m_vertex_buffer } := by
  intro meshes
  induction meshes with
  | nil =>
    intro offsets dst _ _ _
    simp [combine_meshes, rebase_all, instances_read, copy_all, overwrite_nil]
  | cons mesh rest ih =>
    intro offsets dst hm h1 h2
    have hmesh := hm mesh (List.mem_cons_self _ _)
    have hrest := fun m hmem => hm m (List.mem_cons_of_mem mesh hmem)
    rw [submesh_total_cons] at h1 h2
    have hread : (mesh.m_instances_count.take mesh.m_submeshes.length).length
        = mesh.m_submeshes.length := by
      simp only [List.length_take]; omega
    have l1 := length_overwrite dst.m_submeshes offsets.global_submesh_id
      (mesh.m_submeshes.map (rebase offsets.index_offset offsets.index_count))
      (by simp; omega)
    have l2 := length_overwrite dst.m_instances_count offsets.global_submesh_id
      (mesh.m_instances_count.take mesh.m_submeshes.length) (by rw [hread]; omega)
    simp only [combine_meshes, bind, Except.bind]
    rw [combine_submeshes_eq mesh _ _ _ 0 _ dst (by omega) (by omega) (by omega)]
    simp only [List.drop_zero]
    rw [ih _ _ hrest (by simp only [l1]; omega) (by simp only [l2]; omega)]
    have e1 := overwrite_overwrite dst.m_submeshes offsets.global_submesh_id
      (mesh.m_submeshes.map (rebase offsets.index_offset offsets.index_count))
      (rebase_all rest (offsets.index_offset + mesh.m_vertex_count)
        (offsets.index_count + mesh.m_index_count)) (by simp; omega)
    have e2 := overwrite_overwrite dst.m_instances_count offsets.global_submesh_id
      (mesh.m_instances_count.take mesh.m_submeshes.length)
      (instances_read rest) (by rw [hread]; omega)
    rw [hread] at e2
    simp only [List.length_map] at e1
    simp only [e1, e2, rebase_all, instances_read_cons, copy_all, Buffer.get_size]

theorem combine_meshes_bounds :
    ∀ (meshes : List Mesh) (offsets : CombineOffsets) (dst dst' : Mesh),
      combine_meshes meshes offsets dst = .ok dst' →
      offsets.global_submesh_id ≤ dst.m_submeshes.length →
      offsets.global_submesh_id ≤ dst.m_instances_count.length →
      (∀ mesh ∈ meshes, mesh.m_submeshes.length ≤ mesh.m_instances_count.length) ∧
      offsets.global_submesh_id + submesh_total meshes ≤ dst.m_submeshes.length ∧
      offsets.global_submesh_id + submesh_total meshes ≤ dst.m_instances_count.length := by
  intro meshes
  induction meshes with
  | nil => intro offsets dst dst' _ h1 h2; simpa [submesh_total] using ⟨h1, h2⟩
  | cons mesh rest ih =>
    intro offsets dst dst' h h1 h2
    simp only [combine_meshes] at h
    rw [bind_eq_ok] at h
    obtain ⟨⟨dst1, g1⟩, hsub, h⟩ := h
    have hb := combine_submeshes_bounds mesh _ _ _ 0 _ dst _ hsub h1 h2 (Nat.zero_le _)
    rw [combine_submeshes_eq mesh _ _ _ 0 _ dst hb.1 hb.2.1 hb.2.2] at hsub
    simp only [Except.ok.injEq, Prod.mk.injEq] at hsub
    obtain ⟨hd, hg⟩ := hsub
    subst hd hg
    simp only [] at h
    have hread : (mesh.m_instances_count.take mesh.m_submeshes.length).length
        = mesh.m_submeshes.length := by
      simp only [List.length_take]; omega
    have l1 := length_overwrite dst.m_submeshes offsets.global_submesh_id
      (mesh.m_submeshes.map (rebase offsets.index_offset offsets.index_count))
      (by simp; omega)
    have l2 := length_overwrite dst.m_instances_count offsets.global_submesh_id
      (mesh.m_instances_count.take mesh.m_submeshes.length) (by rw [hread]; omega)
    simp only [List.drop_zero] at h
    have := ih _ _ _ h (by simp only [l1]; omega) (by simp only [l2]; omega)
    simp only [l1, l2] at this
    obtain ⟨r1, r2, r3⟩ := this
    rw [submesh_total_cons]
    refine ⟨?_, by omega, by omega⟩
    intro m hm
    rcases List.mem_cons.1 hm with rfl | hm
    · omega
    · exact r1 m hm

end Mesh

namespace Mesh

theorem combine_totals_eq :
    ∀ (meshes : List Mesh) (dst : Mesh) (totals : CombineTotals),
      combine_totals meshes dst totals =
        match agree_types meshes dst.m_primitive_type dst.m_indice_type with
        | .error e => .error e
        | .ok (primitive_type, indice_type) =>
          .ok ({ dst with
                  m_vertex_count := dst.m_vertex_count + vertex_total meshes
                  m_index_count := dst.m_index_count + index_total meshes
                  m_primitive_type := primitive_type
                  m_indice_type := indice_type },
               { total_submesh_count := totals.total_submesh_count + submesh_total meshes
                 total_instance_count := totals.total_instance_count + instance_total meshes
                 vertex_buffer_size := totals.vertex_buffer_size + vertex_size_total meshes
                 index_buffer_size := totals.index_buffer_size + index_size_total meshes }) := by
  intro meshes
  induction meshes with
  | nil =>
    intro dst totals
    simp [combine_totals, agree_types, vertex_total, index_total, submesh_total, instance_total,
      vertex_size_total, index_size_total]
  | cons mesh rest ih =>
    intro dst totals
    simp only [combine_totals, agree_types, agree_type, bind, Except.bind, pure, Except.pure,
      PICOGL_ASSERT, Buffer.get_size, beq_iff_eq]
    by_cases hp : dst.m_primitive_type = 0 <;> by_cases hi : dst.m_indice_type = 0 <;>
      by_cases hp' : dst.m_primitive_type = mesh.m_primitive_type <;>
      by_cases hi' : dst.m_indice_type = mesh.m_indice_type <;>
      simp [hp, hi, hp', hi', ih, vertex_total, index_total, submesh_total, instance_total,
        vertex_size_total, index_size_total, Nat.add_assoc]

theorem setup_attribute_pointer_eq (self : Mesh) (index : GLuint) (offset : Nat)
    (stride : GLsizei) (attr : VertexAttribute) :
    self.setup_attribute_pointer index offset stride attr =
      match attribute_pointer index offset stride attr with
      | .error e => .error e
      | .ok pointer => .ok { self with vao_pointers := self.vao_pointers ++ [pointer] } := by
  unfold setup_attribute_pointer attribute_pointer
  by_cases h1 : attr.m_type = GL_FLOAT
  · simp [h1]
  · by_cases h2 : attr.m_type = GL_INT ∨ attr.m_type = GL_UNSIGNED_INT <;> simp [h1, h2]

theorem combine_attribute_pointers_eq (stride : GLsizei) :
    ∀ (attributes : List VertexAttribute) (index : GLuint) (offset : Nat) (dst : Mesh),
      combine_attribute_pointers stride attributes index offset dst =
        match attribute_pointers stride attributes index offset with
        | .error e => .error e
        | .ok pointers => .ok { dst with vao_pointers := dst.vao_pointers ++ pointers } := by
  intro attributes
  induction attributes with
  | nil => intro index offset dst; simp [combine_attribute_pointers, attribute_pointers]
  | cons attr rest ih =>
    intro index offset dst
    simp only [combine_attribute_pointers, attribute_pointers, setup_attribute_pointer_eq, bind,
      Except.bind]
    cases h1 : attribute_pointer index offset stride attr with
    | error e => simp
    | ok pointer =>
      cases h2 : impl.get_scalar_sizeof attr.m_type with
      | error e => simp
      | ok scalar_sizeof =>
        simp only [ih]
        cases h3 : attribute_pointers stride rest (index + 1)
            (offset + attr.m_channel_count * scalar_sizeof) with
        | error e => simp
        | ok pointers => simp

end Mesh


theorem length_vec_resize {α : Type} (v : List α) (n : Nat) (z : α) :
    (vec_resize v n z).length = n := by
  simp only [vec_resize, List.length_append, List.length_take, List.length_replicate]
  omega

theorem sum_eq_pointwise {α : Type} (f g : α → Nat) :
    ∀ (l : List α), (∀ x ∈ l, f x ≤ g x) → (l.map g).sum = (l.map f).sum →
      ∀ x ∈ l, g x = f x := by
  intro l
  induction l with
  | nil => intro _ _ x hx; simp at hx
  | cons a rest ih =>
    intro hle hsum x hx
    have ha := hle a (List.mem_cons_self _ _)
    have hrest : ∀ y ∈ rest, f y ≤ g y := fun y hy => hle y (List.mem_cons_of_mem _ hy)
    have hs : (rest.map f).sum ≤ (rest.map g).sum := by
      clear ih hsum hx hle
      induction rest with
      | nil => simp
      | cons b r ihr =>
        have := hrest b (List.mem_cons_self _ _)
        have := ihr (fun y hy => hrest y (List.mem_cons_of_mem _ hy))
        simp only [List.map_cons, List.sum_cons]; omega
    simp only [List.map_cons, List.sum_cons] at hsum
    rcases List.mem_cons.1 hx with rfl | hx
    · omega
    · exact ih hrest (by omega) x hx

theorem instances_read_eq (meshes : List Mesh)
    (h : ∀ mesh ∈ meshes, mesh.m_instances_count.length = mesh.m_submeshes.length) :
    instances_read meshes = meshes.flatMap fun mesh => mesh.m_instances_count := by
  induction meshes with
  | nil => rfl
  | cons mesh rest ih =>
    have h1 := h mesh (List.mem_cons_self _ _)
    simp only [instances_read_cons, List.flatMap_cons,
      ih (fun m hm => h m (List.mem_cons_of_mem _ hm))]
    rw [List.take_of_length_le (by omega)]

namespace Mesh

theorem combine_cons_unfold (dev : Device) (front : Mesh) (rest : List Mesh) :
    combine dev (front :: rest) =
      if front.m_vertex_attributes = [] then .error .assertion else
      match agree_types (front :: rest) 0 0 with
      | .error e => .error e
      | .ok (p, i) =>
        match attributes_sizeof_loop front.m_vertex_attributes 0 with
        | .error e => .error e
        | .ok stride =>
          match attribute_pointers stride front.m_vertex_attributes 0 0 with
          | .error e => .error e
          | .ok pointers =>
            match combine_meshes (front :: rest) {}
                (combine_start dev (front :: rest) p i pointers) with
            | .error e => .error e
            | .ok dst =>
              dst.set_instances_count { generated := dev.generated + 3 } dst.m_instances_count := by
  simp only [combine, bind, Except.bind, PICOGL_ASSERT, Mesh.make, impl.GLObject.make,
    Buffer.make, combine_totals_eq, combine_attribute_pointers_eq, combine_start]
  by_cases h : front.m_vertex_attributes = []
  · simp [h]
  · have h' : 0 < front.m_vertex_attributes.length := List.length_pos.2 h
    simp only [h, h', List.length_cons, Nat.zero_lt_succ, decide_True, if_true, if_false,
      Nat.zero_add, List.append_nil, List.nil_append]
    cases h1 : agree_types (front :: rest) 0 0 with
    | error e => rfl
    | ok pi =>
      obtain ⟨p, i⟩ := pi
      simp only []
      cases h2 : attributes_sizeof_loop front.m_vertex_attributes 0 with
      | error e => rfl
      | ok stride =>
        simp only []
        cases h3 : attribute_pointers stride front.m_vertex_attributes 0 0 with
        | error e => rfl
        | ok pointers =>
          simp only [Nat.add_assoc, Nat.reduceAdd, List.nil_append]
          split <;> split <;> simp_all


/-- Closed form of a successful `Mesh::combine`. -/
theorem combine_eq (dev : Device) (front : Mesh) (rest : List Mesh) (p i : GLenum)
    (stride : GLsizei) (pointers : List AttribPointer)
    (hattr : front.m_vertex_attributes ≠ [])
    (htypes : agree_types (front :: rest) 0 0 = .ok (p, i))
    (hstride : attributes_sizeof_loop front.m_vertex_attributes 0 = .ok stride)
    (hptrs : attribute_pointers stride front.m_vertex_attributes 0 0 = .ok pointers)
    (hlen : ∀ mesh ∈ front :: rest, mesh.m_instances_count.length = mesh.m_submeshes.length) :
    combine dev (front :: rest) =
      .ok (combined dev (front :: rest) p i pointers, { generated := dev.generated + 4 }) := by
  have hle : ∀ mesh ∈ front :: rest, mesh.m_submeshes.length ≤ mesh.m_instances_count.length :=
    fun m hm => le_of_eq (hlen m hm).symm
  have htot : instance_total (front :: rest) = submesh_total (front :: rest) := by
    unfold instance_total submesh_total
    congr 1
    exact List.map_congr_left hlen
  rw [combine_cons_unfold]
  simp only [hattr, if_false, htypes, hstride, hptrs]
  rw [combine_meshes_eq _ _ _ hle (by simp [combine_start, length_vec_resize])
    (by simp [combine_start, length_vec_resize, htot])]
  simp only []
  have l1 : (overwrite (combine_start dev (front :: rest) p i pointers).m_submeshes 0
      (rebase_all (front :: rest) 0 0)) = rebase_all (front :: rest) 0 0 :=
    overwrite_all _ _ (by simp [combine_start, length_vec_resize, length_rebase_all])
  have l2 : (overwrite (combine_start dev (front :: rest) p i pointers).m_instances_count 0
      (instances_read (front :: rest))) = instances_read (front :: rest) :=
    overwrite_all _ _ (by simp [combine_start, length_vec_resize, length_instances_read _ hle, htot])
  have e0 : ({} : CombineOffsets).global_submesh_id = 0 := rfl
  have e1 : ({} : CombineOffsets).index_offset = 0 := rfl
  have e2 : ({} : CombineOffsets).index_count = 0 := rfl
  have e3 : ({} : CombineOffsets).dst_index_size_offset = 0 := rfl
  have e4 : ({} : CombineOffsets).dst_vertex_size_offset = 0 := rfl
  simp only [e0, e1, e2, e3, e4, l1, l2]
  rw [set_instances_count_eq _ _ _ (by simp [length_instances_read _ hle, length_rebase_all])]
  simp [combined, combine_start, length_rebase_all]

/-- Every successful `Mesh::combine` is an instance of the closed form. -/
theorem combine_ok (dev dev' : Device) (meshes : List Mesh) (dst : Mesh)
    (h : combine dev meshes = .ok (dst, dev')) :
    ∃ front rest p i stride pointers,
      meshes = front :: rest ∧
      front.m_vertex_attributes ≠ [] ∧
      agree_types meshes 0 0 = .ok (p, i) ∧
      attributes_sizeof_loop front.m_vertex_attributes 0 = .ok stride ∧
      attribute_pointers stride front.m_vertex_attributes 0 0 = .ok pointers ∧
      (∀ mesh ∈ meshes, mesh.m_instances_count.length = mesh.m_submeshes.length) ∧
      dst = combined dev meshes p i pointers ∧
      dev' = { generated := dev.generated + 4 } := by
  cases meshes with
  | nil => simp [combine, PICOGL_ASSERT, bind, Except.bind] at h
  | cons front rest =>
    have h0 := h
    rw [combine_cons_unfold] at h
    by_cases hattr : front.m_vertex_attributes = []
    · simp [hattr] at h
    simp only [hattr, if_false] at h
    cases h1 : agree_types (front :: rest) 0 0 with
    | error e => simp [h1] at h
    | ok pi =>
      obtain ⟨p, i⟩ := pi
      simp only [h1] at h
      cases h2 : attributes_sizeof_loop front.m_vertex_attributes 0 with
      | error e => simp [h2] at h
      | ok stride =>
        simp only [h2] at h
        cases h3 : attribute_pointers stride front.m_vertex_attributes 0 0 with
        | error e => simp [h3] at h
        | ok pointers =>
          simp only [h3] at h
          cases h4 : combine_meshes (front :: rest) {}
              (combine_start dev (front :: rest) p i pointers) with
          | error e => simp [h4] at h
          | ok dst5 =>
            simp only [h4] at h
            have hb := combine_meshes_bounds _ _ _ _ h4 (Nat.zero_le _) (Nat.zero_le _)
            have hlen5 := set_instances_count_ok_length _ _ _ _ _ h
            rw [combine_meshes_eq _ _ _ hb.1 hb.2.1 hb.2.2] at h4
            simp only [Except.ok.injEq] at h4
            subst h4
            have e0 : ({} : CombineOffsets).global_submesh_id = 0 := rfl
            simp only [e0] at hlen5
            rw [length_overwrite _ _ _ (by simpa [length_instances_read _ hb.1] using hb.2.2),
              length_overwrite _ _ _ (by simpa [length_rebase_all] using hb.2.1)] at hlen5
            simp only [combine_start, length_vec_resize] at hlen5
            have hlen : ∀ mesh ∈ front :: rest,
                mesh.m_instances_count.length = mesh.m_submeshes.length :=
              sum_eq_pointwise _ _ _ hb.1 hlen5
            have := combine_eq dev front rest p i stride pointers hattr h1 h2 h3 hlen
            rw [this] at h0
            simp only [Except.ok.injEq, Prod.mk.injEq] at h0
            exact ⟨front, rest, p, i, stride, pointers, rfl, hattr, rfl, h2, h3, hlen,
              h0.1.symm, h0.2.symm⟩

end Mesh


theorem submesh_total_nil : submesh_total [] = 0 := rfl
theorem vertex_total_nil : vertex_total [] = 0 := rfl
theorem index_total_nil : index_total [] = 0 := rfl

theorem vertex_total_cons (mesh : Mesh) (rest : List Mesh) :
    vertex_total (mesh :: rest) = mesh.m_vertex_count + vertex_total rest := by
  simp [vertex_total]

theorem index_total_cons (mesh : Mesh) (rest : List Mesh) :
    index_total (mesh :: rest) = mesh.m_index_count + index_total rest := by
  simp [index_total]

/-- Position of a source submesh in the combined table: submesh `j` of source `k`
lands behind all submeshes of the sources before `k`, re-based by their counts. -/
theorem rebase_all_getElem :
    ∀ (meshes : List Mesh) (index_offset index_count : GLsizei) (k j : Nat) (src : Mesh)
      (s : SubMesh), meshes[k]? = some src → src.m_submeshes[j]? = some s →
      (rebase_all meshes index_offset index_count)[submesh_total (meshes.take k) + j]? =
        some (rebase (index_offset + vertex_total (meshes.take k))
          (index_count + index_total (meshes.take k)) s) := by
  intro meshes
  induction meshes with
  | nil => intro _ _ k j src s hk _; simp at hk
  | cons mesh rest ih =>
    intro vo ic k j src s hk hj
    cases k with
    | zero =>
      simp only [List.getElem?_cons_zero, Option.some.injEq] at hk
      subst hk
      have hlt : j < mesh.m_submeshes.length := by
        by_contra hn
        rw [List.getElem?_eq_none (by omega)] at hj
        exact absurd hj (by simp)
      simp only [List.take_zero, submesh_total_nil, vertex_total_nil, index_total_nil,
        Nat.zero_add, Nat.add_zero, rebase_all]
      rw [List.getElem?_append_left (by simpa using hlt), List.getElem?_map, hj]
      rfl
    | succ k =>
      simp only [List.getElem?_cons_succ] at hk
      simp only [List.take_succ_cons, submesh_total_cons, vertex_total_cons, index_total_cons,
        rebase_all]
      rw [List.getElem?_append_right (by simp; omega)]
      have e : mesh.m_submeshes.length + submesh_total (List.take k rest) + j
          - (List.map (rebase vo ic) mesh.m_submeshes).length
          = submesh_total (List.take k rest) + j := by simp; omega
      rw [e, ih _ _ k j src s hk hj]
      simp only [Nat.add_assoc]

/-! ## Facts about the example meshes -/

theorem triangle_built (n : Nat) (primitive_type : GLenum) :
    Mesh.build ⟨n⟩ primitive_type triangle_indices GL_UNSIGNED_BYTE [triangle_positions 10] =
      .ok (triangle n primitive_type 10 [1], ⟨n + 3⟩) := by
  rfl

theorem two_triangles_combine :
    Mesh.combine ⟨6⟩ two_triangles = .ok (two_triangles_combined, ⟨10⟩) := by
  rfl

/-! ## When `Mesh::combine` returns -/

/-- The function `Mesh::combine` returns a mesh exactly when the list is non-empty, its first mesh
has an attribute of a type `setup_attribute_pointer` supports, the type agreement of
the first loop passes, and every source has one instance count per submesh. -/
theorem combine_returns_iff (dev : Device) (meshes : List Mesh) :
    (∃ r, Mesh.combine dev meshes = .ok r) ↔
      ∃ front rest p i stride pointers,
        meshes = front :: rest ∧
        front.m_vertex_attributes ≠ [] ∧
        agree_types meshes 0 0 = .ok (p, i) ∧
        Mesh.attributes_sizeof_loop front.m_vertex_attributes 0 = .ok stride ∧
        attribute_pointers stride front.m_vertex_attributes 0 0 = .ok pointers ∧
        ∀ mesh ∈ meshes, mesh.m_instances_count.length = mesh.m_submeshes.length := by
  constructor
  · rintro ⟨⟨dst, dev'⟩, h⟩
    obtain ⟨front, rest, p, i, stride, pointers, h1, h2, h3, h4, h5, h6, -, -⟩ :=
      Mesh.combine_ok dev dev' meshes dst h
    exact ⟨front, rest, p, i, stride, pointers, h1, h2, h3, h4, h5, h6⟩
  · rintro ⟨front, rest, p, i, stride, pointers, h1, h2, h3, h4, h5, h6⟩
    subst h1
    exact ⟨_, Mesh.combine_eq dev front rest p i stride pointers h2 h3 h4 h5 h6⟩

/-! ## The claims about `Mesh::combine` -/

/-- C1. `Mesh::combine` re-bases `first_index` by the running index count: whenever
`combine` returns a mesh for a list of sources, that mesh has as many submeshes as the
sources together, in input order, and the combined submesh that comes from submesh `j`
of source `k` (it stands behind all submeshes of the sources before `k`) has the
source submesh's `first_index` plus the sum of `m_index_count` of the sources before
`k`, and the source submesh's `index_count`. -/
theorem combine_rebases_first_index (dev dev' : Device) (meshes : List Mesh) (dst : Mesh)
    (h : Mesh.combine dev meshes = .ok (dst, dev')) :
    dst.m_submeshes.length = submesh_total meshes ∧
    ∀ (k j : Nat) (src : Mesh) (s : SubMesh),
      meshes[k]? = some src → src.m_submeshes[j]? = some s →
      (dst.m_submeshes[submesh_total (meshes.take k) + j]?).map SubMesh.m_first_index =
        some (s.m_first_index + index_total (meshes.take k)) ∧
      (dst.m_submeshes[submesh_total (meshes.take k) + j]?).map SubMesh.m_index_count =
        some s.m_index_count := by
  obtain ⟨front, rest, p, i, stride, pointers, -, -, -, -, -, -, hdst, -⟩ :=
    Mesh.combine_ok dev dev' meshes dst h
  subst hdst
  refine ⟨by simp [combined, length_rebase_all], ?_⟩
  intro k j src s hk hj
  have := rebase_all_getElem meshes 0 0 k j src s hk hj
  simp only [combined, this, Option.map_some', rebase, Nat.zero_add, Option.some.injEq,
    and_true]
  exact Nat.add_comm _ _

theorem combine_rebases_first_index_witness :
    Mesh.combine ⟨6⟩ two_triangles = .ok (two_triangles_combined, ⟨10⟩) ∧
    two_triangles_combined.m_submeshes.length = 2 ∧
    (two_triangles_combined.m_submeshes[1]?).map SubMesh.m_first_index = some (0 + 3) ∧
    (two_triangles_combined.m_submeshes[1]?).map SubMesh.m_index_count = some 3 :=
  ⟨rfl, (combine_rebases_first_index ⟨6⟩ ⟨10⟩ two_triangles two_triangles_combined rfl).1,
    (combine_rebases_first_index ⟨6⟩ ⟨10⟩ two_triangles two_triangles_combined rfl).2 1 0
      (triangle 3 GL_TRIANGLES 40 [2]) ⟨3, 0, 0⟩ rfl rfl⟩

/-- C2. `Mesh::combine` re-bases the base vertex by the running vertex count: whenever
`combine` returns a mesh, the combined submesh that comes from submesh `j` of source
`k` has the source submesh's `m_indice_offset` plus the sum of `m_vertex_count` of the
sources before `k`, and that value is the `m_base_vertex` of its draw command.  In
particular for two sources of three vertices each, with one submesh of base vertex 0
each, the two draw commands have base vertex 0 and 3. -/
theorem combine_rebases_base_vertex (dev dev' : Device) (meshes : List Mesh) (dst : Mesh)
    (h : Mesh.combine dev meshes = .ok (dst, dev')) :
    (∀ (k j : Nat) (src : Mesh) (s : SubMesh),
      meshes[k]? = some src → src.m_submeshes[j]? = some s →
      (dst.m_submeshes[submesh_total (meshes.take k) + j]?).map SubMesh.m_indice_offset =
        some (s.m_indice_offset + vertex_total (meshes.take k)) ∧
      (dst.m_indirect_draw_buffer.store[submesh_total (meshes.take k) + j]?).map
          DrawElementsIndirectCommand.m_base_vertex =
        some (s.m_indice_offset + vertex_total (meshes.take k))) ∧
    (∀ (a b : Mesh) (sa sb : SubMesh), meshes = [a, b] →
      a.m_vertex_count = 3 → b.m_vertex_count = 3 →
      a.m_submeshes = [sa] → b.m_submeshes = [sb] →
      sa.m_indice_offset = 0 → sb.m_indice_offset = 0 →
      dst.m_indirect_draw_buffer.store.map DrawElementsIndirectCommand.m_base_vertex = [0, 3]) := by
  obtain ⟨front, rest, p, i, stride, pointers, -, -, -, -, -, hlen, hdst, -⟩ :=
    Mesh.combine_ok dev dev' meshes dst h
  subst hdst
  have hle : ∀ mesh ∈ meshes, mesh.m_submeshes.length ≤ mesh.m_instances_count.length :=
    fun m hm => le_of_eq (hlen m hm).symm
  constructor
  · intro k j src s hk hj
    have hsub := rebase_all_getElem meshes 0 0 k j src s hk hj
    have hpos : submesh_total (meshes.take k) + j < (instances_read meshes).length := by
      rw [length_instances_read _ hle, ← length_rebase_all meshes 0 0]
      by_contra hn
      rw [List.getElem?_eq_none (by omega)] at hsub
      exact absurd hsub (by simp)
    refine ⟨by simp [combined, hsub, rebase], ?_⟩
    simp only [combined, command_table, List.getElem?_zipWith, hsub,
      List.getElem?_eq_getElem hpos, Option.map_some', rebase, Nat.zero_add]
  · intro a b sa sb hm ha hb hsa hsb h0a h0b
    subst hm
    have la := hlen a (by simp)
    have lb := hlen b (by simp)
    rw [hsa] at la
    rw [hsb] at lb
    obtain ⟨ca, hca⟩ := List.length_eq_one.1 la
    obtain ⟨cb, hcb⟩ := List.length_eq_one.1 lb
    simp [combined, command_table, rebase_all, instances_read, hsa, hsb, hca, hcb, rebase, ha,
      h0a, h0b]

theorem combine_rebases_base_vertex_witness :
    Mesh.combine ⟨6⟩ two_triangles = .ok (two_triangles_combined, ⟨10⟩) ∧
    ((two_triangles_combined.m_submeshes[1]?).map SubMesh.m_indice_offset = some (0 + 3) ∧
     (two_triangles_combined.m_indirect_draw_buffer.store[1]?).map
        DrawElementsIndirectCommand.m_base_vertex = some (0 + 3)) ∧
    two_triangles_combined.m_indirect_draw_buffer.store.map
      DrawElementsIndirectCommand.m_base_vertex = [0, 3] :=
  ⟨rfl,
    (combine_rebases_base_vertex ⟨6⟩ ⟨10⟩ two_triangles two_triangles_combined rfl).1 1 0
      (triangle 3 GL_TRIANGLES 40 [2]) ⟨3, 0, 0⟩ rfl rfl,
    (combine_rebases_base_vertex ⟨6⟩ ⟨10⟩ two_triangles two_triangles_combined rfl).2
      (triangle 0 GL_TRIANGLES 10 [1]) (triangle 3 GL_TRIANGLES 40 [2]) ⟨3, 0, 0⟩ ⟨3, 0, 0⟩
      rfl rfl rfl rfl rfl rfl rfl⟩

theorem length_glCopyBufferSubData (src dst : List Byte) (src_offset dst_offset size : Nat) :
    (Buffer.glCopyBufferSubData src dst src_offset dst_offset size).length = dst.length := by
  unfold Buffer.glCopyBufferSubData
  split
  · rename_i h
    simp only [List.length_append, List.length_take, List.length_drop]
    omega
  · rfl

theorem copy_all_frame (sel : Mesh → Buffer Byte) :
    ∀ (meshes : List Mesh) (offset : GLsizeiptr) (dst : Buffer Byte),
      (copy_all sel meshes offset dst).m_gl = dst.m_gl ∧
      (copy_all sel meshes offset dst).m_target = dst.m_target ∧
      (copy_all sel meshes offset dst).m_size = dst.m_size ∧
      (copy_all sel meshes offset dst).store.length = dst.store.length := by
  intro meshes
  induction meshes with
  | nil => intro _ _; simp [copy_all]
  | cons mesh rest ih =>
    intro offset dst
    simp only [copy_all]
    obtain ⟨h1, h2, h3, h4⟩ := ih (offset + (sel mesh).get_size) ((sel mesh).copy_to dst offset)
    rw [h1, h2, h3, h4]
    simp [Buffer.copy_to, Buffer.copy_to_range, length_glCopyBufferSubData]

/-- C4. `Mesh::combine` concatenates the instance-count tables: whenever `combine`
returns a mesh (which requires every source to have one instance count per submesh),
its instance-count table is the concatenation of the sources' tables in input order,
the indirect draw commands are as many as the entries, and the `m_instance_count` of
the i-th command is the i-th entry; for two sources with tables `[1]` and `[2]` the
commands carry the instance counts 1 and 2. -/
theorem combine_concatenates_instances (dev dev' : Device) (meshes : List Mesh) (dst : Mesh)
    (h : Mesh.combine dev meshes = .ok (dst, dev')) :
    dst.m_instances_count = (meshes.flatMap fun mesh => mesh.m_instances_count) ∧
    dst.m_indirect_draw_buffer.store.map DrawElementsIndirectCommand.m_instance_count =
      dst.m_instances_count ∧
    (∀ a b : Mesh, meshes = [a, b] → a.m_instances_count = [1] → b.m_instances_count = [2] →
      dst.m_indirect_draw_buffer.store.map DrawElementsIndirectCommand.m_instance_count
        = [1, 2]) := by
  obtain ⟨front, rest, p, i, stride, pointers, -, -, -, -, -, hlen, hdst, -⟩ :=
    Mesh.combine_ok dev dev' meshes dst h
  subst hdst
  have hle : ∀ mesh ∈ meshes, mesh.m_submeshes.length ≤ mesh.m_instances_count.length :=
    fun m hm => le_of_eq (hlen m hm).symm
  have hmap : ∀ (ss : List SubMesh) (cs : List GLuint), cs.length = ss.length →
      (command_table ss cs).map DrawElementsIndirectCommand.m_instance_count = cs := by
    intro ss
    induction ss with
    | nil => intro cs hcs; simp at hcs; simp [hcs, command_table]
    | cons s rest ih =>
      intro cs hcs
      cases cs with
      | nil => simp at hcs
      | cons c cs' =>
        rw [command_table_cons]
        simp only [List.map_cons, ih cs' (by simpa using hcs)]
  have h2 : (combined dev meshes p i pointers).m_indirect_draw_buffer.store.map
      DrawElementsIndirectCommand.m_instance_count
        = (combined dev meshes p i pointers).m_instances_count := by
    simp only [combined]
    exact hmap _ _ (by rw [length_instances_read _ hle, length_rebase_all])
  refine ⟨by simp only [combined]; exact instances_read_eq meshes hlen, h2, ?_⟩
  intro a b hm ha hb
  rw [h2]
  subst hm
  simp only [combined]
  rw [instances_read_eq _ hlen]
  simp [ha, hb]

theorem combine_concatenates_instances_witness :
    Mesh.combine ⟨6⟩ two_triangles = .ok (two_triangles_combined, ⟨10⟩) ∧
    two_triangles_combined.m_instances_count = [1, 2] ∧
    two_triangles_combined.m_indirect_draw_buffer.store.map
      DrawElementsIndirectCommand.m_instance_count = [1, 2] :=
  ⟨rfl, (combine_concatenates_instances ⟨6⟩ ⟨10⟩ two_triangles two_triangles_combined rfl).1,
    (combine_concatenates_instances ⟨6⟩ ⟨10⟩ two_triangles two_triangles_combined rfl).2.2
      (triangle 0 GL_TRIANGLES 10 [1]) (triangle 3 GL_TRIANGLES 40 [2]) rfl rfl rfl⟩

/-- C6. `Mesh::combine` sums the counts: whenever `combine` returns a mesh, its
`m_vertex_count` and `m_index_count` are the sums of the sources' vertex and index
counts, and its vertex and index buffers have as byte size, and as size of the
allocated store, the sums of the sources' vertex-buffer and index-buffer byte sizes. -/
theorem combine_sums_counts (dev dev' : Device) (meshes : List Mesh) (dst : Mesh)
    (h : Mesh.combine dev meshes = .ok (dst, dev')) :
    dst.m_vertex_count = vertex_total meshes ∧
    dst.m_index_count = index_total meshes ∧
    dst.m_vertex_buffer.get_size = vertex_size_total meshes ∧
    dst.m_vertex_buffer.store.length = vertex_size_total meshes ∧
    dst.m_index_buffer.get_size = index_size_total meshes ∧
    dst.m_index_buffer.store.length = index_size_total meshes := by
  obtain ⟨front, rest, p, i, stride, pointers, -, -, -, -, -, -, hdst, -⟩ :=
    Mesh.combine_ok dev dev' meshes dst h
  subst hdst
  show vertex_total meshes = vertex_total meshes ∧ index_total meshes = index_total meshes ∧ _
  have hv := copy_all_frame (fun mesh => mesh.m_vertex_buffer) meshes 0
    { m_gl := dev.generated + 3, m_target := GL_ARRAY_BUFFER,
      m_size := vertex_size_total meshes,
      store := List.replicate (vertex_size_total meshes) 0 }
  have hi := copy_all_frame (fun mesh => mesh.m_index_buffer) meshes 0
    { m_gl := dev.generated + 2, m_target := GL_ELEMENT_ARRAY_BUFFER,
      m_size := index_size_total meshes,
      store := List.replicate (index_size_total meshes) 0 }
  simp only [List.length_replicate] at hv hi
  exact ⟨rfl, rfl, hv.2.2.1, hv.2.2.2, hi.2.2.1, hi.2.2.2⟩

theorem combine_sums_counts_witness :
    Mesh.combine ⟨6⟩ two_triangles = .ok (two_triangles_combined, ⟨10⟩) ∧
    two_triangles_combined.m_vertex_count = 3 + 3 ∧
    two_triangles_combined.m_index_count = 3 + 3 ∧
    two_triangles_combined.m_vertex_buffer.get_size = 12 + 12 ∧
    two_triangles_combined.m_vertex_buffer.store.length = 12 + 12 ∧
    two_triangles_combined.m_index_buffer.get_size = 3 + 3 ∧
    two_triangles_combined.m_index_buffer.store.length = 3 + 3 :=
  ⟨rfl, combine_sums_counts ⟨6⟩ ⟨10⟩ two_triangles two_triangles_combined rfl⟩

theorem glCopyBufferSubData_whole (src dst : List Byte) (dst_offset : Nat)
    (h : dst_offset + src.length ≤ dst.length) :
    Buffer.glCopyBufferSubData src dst 0 dst_offset src.length = overwrite dst dst_offset src := by
  unfold Buffer.glCopyBufferSubData overwrite
  simp [h]

/-- The copies of `Mesh::combine` write the sources' stores one behind the other. -/
theorem copy_all_store (sel : Mesh → Buffer Byte) :
    ∀ (meshes : List Mesh) (offset : Nat) (dst : Buffer Byte),
      (∀ mesh ∈ meshes, (sel mesh).store.length = (sel mesh).m_size) →
      offset + (meshes.map fun mesh => (sel mesh).store.length).sum ≤ dst.store.length →
      (copy_all sel meshes offset dst).store =
        overwrite dst.store offset (meshes.flatMap fun mesh => (sel mesh).store) := by
  intro meshes
  induction meshes with
  | nil => intro _ _ _ _; simp [copy_all, overwrite_nil]
  | cons mesh rest ih =>
    intro offset dst hwf hfit
    have hm := hwf mesh (List.mem_cons_self _ _)
    simp only [List.map_cons, List.sum_cons] at hfit
    have hcopy : ((sel mesh).copy_to dst offset).store = overwrite dst.store offset (sel mesh).store := by
      simp only [Buffer.copy_to, Buffer.copy_to_range, ← hm]
      exact glCopyBufferSubData_whole _ _ _ (by omega)
    have hlen : ((sel mesh).copy_to dst offset).store.length = dst.store.length := by
      rw [hcopy, length_overwrite _ _ _ (by omega)]
    simp only [copy_all, Buffer.get_size]
    rw [← hm, ih _ _ (fun m h => hwf m (List.mem_cons_of_mem _ h)) (by rw [hlen]; omega), hcopy,
      overwrite_overwrite _ _ _ _ (by omega)]
    simp

/-- In the concatenation of stores that hold `count` elements of `element_sizeof`
bytes each, the element `e` of the `k`-th store stands behind all elements of the
stores before it. -/
theorem buffer_element_flatMap (sel : Mesh → Buffer Byte) (count : Mesh → Nat)
    (element_sizeof : Nat) :
    ∀ (meshes : List Mesh) (k e : Nat) (src : Mesh),
      (∀ mesh ∈ meshes, (sel mesh).store.length = count mesh * element_sizeof) →
      meshes[k]? = some src → e < count src →
      buffer_element element_sizeof (meshes.flatMap fun mesh => (sel mesh).store)
          (((meshes.take k).map count).sum + e) =
        buffer_element element_sizeof (sel src).store e := by
  intro meshes
  induction meshes with
  | nil => intro k e src _ hk _; simp at hk
  | cons mesh rest ih =>
    intro k e src hlen hk he
    have hm := hlen mesh (List.mem_cons_self _ _)
    cases k with
    | zero =>
      simp only [List.getElem?_cons_zero, Option.some.injEq] at hk
      subst hk
      simp only [List.take_zero, List.map_nil, List.sum_nil, Nat.zero_add, List.flatMap_cons,
        buffer_element]
      have h1 : (e + 1) * element_sizeof ≤ (sel mesh).store.length := by
        rw [hm]; exact Nat.mul_le_mul_right _ he
      rw [Nat.add_mul, Nat.one_mul] at h1
      rw [List.drop_append_of_le_length (by omega),
        List.take_append_of_le_length (by simp only [List.length_drop]; omega)]
    | succ k =>
      simp only [List.getElem?_cons_succ] at hk
      simp only [List.take_succ_cons, List.map_cons, List.sum_cons, List.flatMap_cons,
        buffer_element]
      have e1 : (count mesh + ((rest.take k).map count).sum + e) * element_sizeof
          = (sel mesh).store.length + (((rest.take k).map count).sum + e) * element_sizeof := by
        rw [hm, Nat.add_assoc, Nat.add_mul]
      rw [e1, List.drop_append]
      exact ih k e src (fun m h => hlen m (List.mem_cons_of_mem _ h)) hk he

namespace Mesh

theorem set_indices_ok (dev dev' : Device) (self self' : Mesh) (primitive_type : GLenum)
    (indices : Container) (type : GLenum)
    (h : self.set_indices dev primitive_type indices type = .ok (self', dev')) :
    ∃ type_sizeof, impl.get_scalar_sizeof type = .ok type_sizeof ∧
      self.m_vao ≠ 0 ∧ indices.size ≠ 0 ∧ indices.value_sizeof % type_sizeof = 0 ∧
      self' = { self with
        m_index_buffer :=
          { m_gl := dev.generated + 1, m_target := GL_ELEMENT_ARRAY_BUFFER,
            m_size := indices.size * indices.value_sizeof, store := indices.data }
        m_indice_type := type
        m_primitive_type := primitive_type
        m_index_count := indices.size * (indices.value_sizeof / type_sizeof)
        m_submeshes := [{ m_first_index := 0
                          m_index_count := indices.size * (indices.value_sizeof / type_sizeof)
                          m_indice_offset := 0 }] } ∧
      dev' = { generated := dev.generated + 1 } := by
  unfold set_indices at h
  rw [bind_eq_ok] at h
  obtain ⟨ts, hts, h⟩ := h
  rw [bind_eq_ok] at h
  obtain ⟨_, h1, h⟩ := h
  rw [bind_eq_ok] at h
  obtain ⟨_, h2, h⟩ := h
  rw [bind_eq_ok] at h
  obtain ⟨_, h3, h⟩ := h
  rw [assert_eq_ok] at h1 h2 h3
  rw [bind_eq_ok] at h
  obtain ⟨⟨buffer, dev1⟩, h4, h⟩ := h
  simp only [Buffer.make_data, impl.get_data_size, indices.data_length, Nat.lt_irrefl,
    if_false, impl.GLObject.make, Except.ok.injEq, Prod.mk.injEq] at h4
  obtain ⟨hb, hd⟩ := h4
  subst hb hd
  simp only [Except.ok.injEq, Prod.mk.injEq] at h
  refine ⟨ts, hts, by simpa using h1, by simpa using h2, by simpa using h3, ?_, h.2.symm⟩
  rw [← h.1]
  have : List.take (indices.size * indices.value_sizeof) indices.data = indices.data :=
    List.take_of_length_le (by rw [indices.data_length])
  simp [this]

end Mesh

namespace Mesh

theorem set_vertex_attributes_sizes_ok :
    ∀ (attributes : List VertexAttribute) (total_size : GLsizeiptr) (attributes_sizeof : GLsizei)
      (r : GLsizeiptr × GLsizei),
      set_vertex_attributes_sizes attributes total_size attributes_sizeof = .ok r →
      (∀ attr ∈ attributes, 0 < attr.m_size) ∧
      attributes_sizeof_loop attributes attributes_sizeof = .ok r.2 ∧
      r.1 = total_size + (attributes.map fun attr => attr.m_size).sum := by
  intro attributes
  induction attributes with
  | nil =>
    intro t s r h
    simp only [set_vertex_attributes_sizes, Except.ok.injEq] at h
    subst h
    simp [attributes_sizeof_loop]
  | cons attr rest ih =>
    intro t s r h
    simp only [set_vertex_attributes_sizes] at h
    rw [bind_eq_ok] at h
    obtain ⟨_, h1, h⟩ := h
    rw [assert_eq_ok] at h1
    rw [bind_eq_ok] at h
    obtain ⟨ss, h2, h⟩ := h
    obtain ⟨r1, r2, r3⟩ := ih _ _ _ h
    refine ⟨?_, ?_, ?_⟩
    · intro a ha
      rcases List.mem_cons.1 ha with rfl | ha
      · simpa using h1
      · exact r1 a ha
    · simp only [attributes_sizeof_loop, h2, bind, Except.bind]
      exact r2
    · rw [r3]
      simp only [List.map_cons, List.sum_cons]
      exact Nat.add_assoc _ _ _

/-- What a returning `Mesh::set_vertex_attribute` has checked and changed. -/
theorem set_vertex_attribute_ok (self self' : Mesh) (vertex_data vertex_data' : List Byte)
    (index index' : GLuint) (offset offset' : Nat) (stride : GLsizei) (attr : VertexAttribute)
    (h : self.set_vertex_attribute vertex_data index offset stride attr =
      .ok (self', vertex_data', index', offset')) :
    ∃ scalar_sizeof pointer,
      impl.get_scalar_sizeof attr.m_type = .ok scalar_sizeof ∧
      scalar_sizeof * attr.m_channel_count ≠ 0 ∧
      attr.m_size % (scalar_sizeof * attr.m_channel_count) = 0 ∧
      attribute_pointer index offset stride attr = .ok pointer ∧
      self' = { self with
        vao_pointers := self.vao_pointers ++ [pointer]
        m_vertex_count := self'.m_vertex_count } ∧
      (self.m_vertex_count = 0 →
        self'.m_vertex_count = attr.m_size / (scalar_sizeof * attr.m_channel_count)) ∧
      (self.m_vertex_count ≠ 0 →
        self'.m_vertex_count = self.m_vertex_count ∧
        attr.m_size / (scalar_sizeof * attr.m_channel_count) = self.m_vertex_count) ∧
      index' = index + 1 ∧
      offset' = offset + scalar_sizeof * attr.m_channel_count := by
  unfold set_vertex_attribute at h
  rw [bind_eq_ok] at h
  obtain ⟨ss, hss, h⟩ := h
  by_cases h0 : ss * attr.m_channel_count = 0
  · simp [h0] at h
  simp only [h0, if_false] at h
  rw [bind_eq_ok] at h
  obtain ⟨_, hmod, h⟩ := h
  rw [assert_eq_ok] at hmod
  rw [bind_eq_ok] at h
  obtain ⟨vd, _, h⟩ := h
  rw [bind_eq_ok] at h
  obtain ⟨self1, hsetup, h⟩ := h
  rw [setup_attribute_pointer_eq] at hsetup
  cases hp : attribute_pointer index offset stride attr with
  | error e => simp [hp] at hsetup
  | ok pointer =>
    simp only [hp, Except.ok.injEq] at hsetup
    subst hsetup
    by_cases hv : self.m_vertex_count = 0
    · simp only [hv, if_true, pure, Except.pure, bind, Except.bind, Except.ok.injEq,
        Prod.mk.injEq] at h
      obtain ⟨e1, -, e3, e4⟩ := h
      subst e1
      exact ⟨ss, pointer, hss, h0, by simpa using hmod, rfl, rfl, fun _ => rfl,
        fun hn => absurd hv hn, e3.symm, e4.symm⟩
    · simp only [hv, if_false] at h
      rw [bind_eq_ok] at h
      obtain ⟨_, hassert, h⟩ := h
      rw [assert_eq_ok] at hassert
      simp only [pure, Except.pure, bind, Except.bind, Except.ok.injEq, Prod.mk.injEq] at h
      obtain ⟨e1, -, e3, e4⟩ := h
      subst e1
      exact ⟨ss, pointer, hss, h0, by simpa using hmod, rfl, rfl, fun hz => absurd hz hv,
        fun _ => ⟨rfl, by simpa using hassert⟩, e3.symm, e4.symm⟩

/-- A returning second loop of `Mesh::set_vertex_attributes` leaves every attribute
with the byte size of `m_vertex_count` chunks. -/
theorem set_vertex_attributes_loop_ok (stride : GLsizei) :
    ∀ (attributes : List VertexAttribute) (self self' : Mesh) (vertex_data vertex_data' : List Byte)
      (index : GLuint) (offset : Nat),
      set_vertex_attributes_loop stride attributes self vertex_data index offset =
        .ok (self', vertex_data') →
      (∀ attr ∈ attributes, 0 < attr.m_size) →
      self' = { self with
        vao_pointers := self'.vao_pointers
        m_vertex_count := self'.m_vertex_count } ∧
      (self.m_vertex_count ≠ 0 → self'.m_vertex_count = self.m_vertex_count) ∧
      (∀ attr ∈ attributes, ∃ scalar_sizeof,
        impl.get_scalar_sizeof attr.m_type = .ok scalar_sizeof ∧
        attr.m_size = self'.m_vertex_count * (attr.m_channel_count * scalar_sizeof)) := by
  intro attributes
  induction attributes with
  | nil =>
    intro self self' vd vd' index offset h _
    simp only [set_vertex_attributes_loop, Except.ok.injEq, Prod.mk.injEq] at h
    obtain ⟨h, -⟩ := h
    subst h
    simp
  | cons attr rest ih =>
    intro self self' vd vd' index offset h hpos
    simp only [set_vertex_attributes_loop] at h
    rw [bind_eq_ok] at h
    obtain ⟨⟨self1, vd1, index1, offset1⟩, h1, h⟩ := h
    simp only [] at h
    obtain ⟨ss, pointer, hss, h0, hmod, -, hframe, hzero, hnz, -, -⟩ :=
      set_vertex_attribute_ok _ _ _ _ _ _ _ _ _ _ h1
    have hsize := hpos attr (List.mem_cons_self _ _)
    have hdiv : attr.m_size = attr.m_size / (ss * attr.m_channel_count)
        * (attr.m_channel_count * ss) := by
      rw [Nat.mul_comm attr.m_channel_count ss]
      exact (Nat.div_mul_cancel (Nat.dvd_of_mod_eq_zero hmod)).symm
    have hv1 : self1.m_vertex_count ≠ 0 ∧
        attr.m_size = self1.m_vertex_count * (attr.m_channel_count * ss) := by
      by_cases hv : self.m_vertex_count = 0
      · rw [hzero hv]
        refine ⟨?_, hdiv⟩
        intro hq
        rw [hq, Nat.zero_mul] at hdiv
        exact absurd hdiv (Nat.pos_iff_ne_zero.1 hsize)
      · obtain ⟨e1, e2⟩ := hnz hv
        rw [e1]
        exact ⟨hv, by rw [← e2]; exact hdiv⟩
    obtain ⟨r1, r2, r3⟩ := ih _ _ _ _ _ _ h (fun a ha => hpos a (List.mem_cons_of_mem _ ha))
    have hkeep := r2 hv1.1
    refine ⟨?_, ?_, ?_⟩
    · rw [r1, hframe]
    · intro hv
      rw [hkeep, (hnz hv).1]
    · intro a ha
      rcases List.mem_cons.1 ha with rfl | ha
      · exact ⟨ss, hss, by rw [hkeep]; exact hv1.2⟩
      · exact r3 a ha

theorem attributes_sizeof_loop_total (v : Nat) :
    ∀ (attributes : List VertexAttribute) (attributes_sizeof stride : GLsizei),
      (∀ attr ∈ attributes, ∃ scalar_sizeof,
        impl.get_scalar_sizeof attr.m_type = .ok scalar_sizeof ∧
        attr.m_size = v * (attr.m_channel_count * scalar_sizeof)) →
      attributes_sizeof_loop attributes attributes_sizeof = .ok stride →
      v * attributes_sizeof + (attributes.map fun attr => attr.m_size).sum = v * stride := by
  intro attributes
  induction attributes with
  | nil =>
    intro s stride _ h
    simp only [attributes_sizeof_loop, Except.ok.injEq] at h
    subst h
    simp
  | cons attr rest ih =>
    intro s stride hall h
    obtain ⟨ss, hss, hsize⟩ := hall attr (List.mem_cons_self _ _)
    simp only [attributes_sizeof_loop, hss, bind, Except.bind] at h
    have := ih _ _ (fun a ha => hall a (List.mem_cons_of_mem _ ha)) h
    simp only [List.map_cons, List.sum_cons, hsize]
    rw [← this, Nat.mul_add]
    omega

theorem attributes_sizeof_loop_layout :
    ∀ (a b : List VertexAttribute) (attributes_sizeof : GLsizei),
      attribute_layout a = attribute_layout b →
      attributes_sizeof_loop a attributes_sizeof = attributes_sizeof_loop b attributes_sizeof := by
  intro a
  induction a with
  | nil =>
    intro b s h
    cases b with
    | nil => rfl
    | cons _ _ => simp [attribute_layout] at h
  | cons x xs ih =>
    intro b s h
    cases b with
    | nil => simp [attribute_layout] at h
    | cons y ys =>
      simp only [attribute_layout, List.map_cons, List.cons.injEq, Prod.mk.injEq] at h
      obtain ⟨⟨h1, h2⟩, h3⟩ := h
      simp only [attributes_sizeof_loop, h1, h2]
      cases impl.get_scalar_sizeof y.m_type with
      | error e => rfl
      | ok ss => exact ih ys _ h3

/-- What a returning `Mesh::set_vertex_attributes` leaves: the vertex buffer holds
`m_vertex_count` records of `get_vertex_sizeof` bytes. -/
theorem set_vertex_attributes_ok (dev dev' : Device) (self self' : Mesh)
    (attributes : List VertexAttribute)
    (h : self.set_vertex_attributes dev attributes = .ok (self', dev')) :
    ∃ stride, self'.get_vertex_sizeof = .ok stride ∧
      self'.m_vertex_buffer.m_size = self'.m_vertex_count * stride ∧
      self'.m_vertex_buffer.store.length = self'.m_vertex_count * stride ∧
      self' = { self with
        m_vertex_attributes := attributes
        m_vertex_buffer := self'.m_vertex_buffer
        vao_pointers := self'.vao_pointers
        m_vertex_count := self'.m_vertex_count } := by
  unfold set_vertex_attributes at h
  rw [bind_eq_ok] at h
  obtain ⟨_, -, h⟩ := h
  rw [bind_eq_ok] at h
  obtain ⟨⟨total_size, stride⟩, hsizes, h⟩ := h
  obtain ⟨hpos, hstride, htotal⟩ := set_vertex_attributes_sizes_ok _ _ _ _ hsizes
  simp only [Buffer.make, impl.GLObject.make] at h
  rw [bind_eq_ok] at h
  obtain ⟨⟨self1, vd1⟩, hloop, h⟩ := h
  obtain ⟨hframe, -, hall⟩ := set_vertex_attributes_loop_ok _ _ _ _ _ _ _ _ hloop hpos
  simp only [] at h
  rw [bind_eq_ok] at h
  obtain ⟨buffer, hupload, h⟩ := h
  simp only [Except.ok.injEq, Prod.mk.injEq] at h
  obtain ⟨h, -⟩ := h
  have hsum := attributes_sizeof_loop_total self1.m_vertex_count attributes 0 stride hall hstride
  simp only [Nat.mul_zero, Nat.zero_add] at hsum hstride htotal
  have hbuf : buffer.m_size = total_size ∧ buffer.store.length = total_size := by
    rw [hframe] at hupload
    unfold Buffer.upload_data at hupload
    simp only [ne_eq, not_true_eq_false, if_false, Nat.zero_add] at hupload
    split at hupload
    · exact absurd hupload (by simp)
    · split at hupload
      · rename_i hfit
        simp only [List.length_replicate] at hfit
        simp only [Except.ok.injEq] at hupload
        rw [← hupload]
        simp only [List.take_zero, List.nil_append, List.length_append, List.length_take,
          List.length_drop, List.length_replicate, true_and]
        omega
      · simp only [Except.ok.injEq] at hupload
        rw [← hupload]
        simp
  rw [← h]
  refine ⟨stride, ?_, ?_, ?_, ?_⟩
  · rw [hframe]
    exact hstride
  · show buffer.m_size = self1.m_vertex_count * stride
    rw [hbuf.1, htotal, hsum]
  · show buffer.store.length = self1.m_vertex_count * stride
    rw [hbuf.2, htotal, hsum]
  · rw [hframe]

end Mesh

theorem length_flatMap_store (sel : Mesh → Buffer Byte) (meshes : List Mesh) :
    (meshes.flatMap fun mesh => (sel mesh).store).length
      = (meshes.map fun mesh => (sel mesh).store.length).sum := by
  induction meshes with
  | nil => rfl
  | cons m r ih => simp only [List.flatMap_cons, List.length_append, ih, List.map_cons,
      List.sum_cons]

/-- What `Mesh::build` leaves: one whole-buffer submesh, an index buffer of
`m_index_count` scalars and a vertex buffer of `m_vertex_count` records. -/
theorem Mesh.build_ok (dev dev' : Device) (primitive_type : GLenum) (indices : Container)
    (type : GLenum) (attributes : List VertexAttribute) (mesh : Mesh)
    (h : Mesh.build dev primitive_type indices type attributes = .ok (mesh, dev')) :
    ∃ type_sizeof stride,
      impl.get_scalar_sizeof type = .ok type_sizeof ∧
      mesh.get_vertex_sizeof = .ok stride ∧
      mesh.m_vertex_attributes = attributes ∧
      mesh.m_index_buffer.m_size = mesh.m_index_count * type_sizeof ∧
      mesh.m_index_buffer.store.length = mesh.m_index_count * type_sizeof ∧
      mesh.m_vertex_buffer.m_size = mesh.m_vertex_count * stride ∧
      mesh.m_vertex_buffer.store.length = mesh.m_vertex_count * stride ∧
      mesh.m_submeshes = [{ m_index_count := mesh.m_index_count, m_indice_offset := 0,
                            m_first_index := 0 }] ∧
      mesh.m_instances_count = [1] := by
  unfold Mesh.build at h
  simp only [Mesh.make, impl.GLObject.make] at h
  rw [bind_eq_ok] at h
  obtain ⟨⟨m1, dev1⟩, hidx, h⟩ := h
  simp only [] at h
  obtain ⟨ts, hts, -, -, hmod, hm1, -⟩ := Mesh.set_indices_ok _ _ _ _ _ _ _ hidx
  obtain ⟨stride, hstride, hsize, hlen, hframe⟩ := Mesh.set_vertex_attributes_ok _ _ _ _ _ h
  have hvs : indices.size * indices.value_sizeof
      = indices.size * (indices.value_sizeof / ts) * ts := by
    rw [Nat.mul_assoc, Nat.div_mul_cancel (Nat.dvd_of_mod_eq_zero hmod)]
  refine ⟨ts, stride, hts, hstride, ?_, ?_, ?_, hsize, hlen, ?_, ?_⟩
  · rw [hframe]
  · rw [hframe, hm1]; exact hvs
  · rw [hframe, hm1]
    show indices.data.length = _
    rw [indices.data_length]; exact hvs
  · rw [hframe, hm1]
  · rw [hframe, hm1]

/-- C3. Round trip of `Mesh::combine` over the buffer contents: for sources built by
`set_indices` and `set_vertex_attributes` with the same index scalar type and the same
attribute layout, whenever `combine` returns a mesh its index buffer is the
concatenation of the sources' index buffers and its vertex buffer the concatenation
of the sources' vertex buffers, in input order.  So for the combined submesh `d` that
comes from submesh `s` of source `k`: index `first_index + e` of the combined index
buffer is index `first_index + e` of the source, for every `e` below the submesh's
`index_count`, and vertex record `base_vertex + v` of the combined vertex buffer is
vertex record `v` of the source, for every `v` below the source's vertex count. -/
theorem combine_round_trip (dev dev' : Device) (meshes : List Mesh) (dst : Mesh)
    (type : GLenum) (layout : List (GLenum × GLsizei))
    (hbuilt : ∀ mesh ∈ meshes, Built type layout mesh)
    (h : Mesh.combine dev meshes = .ok (dst, dev')) :
    dst.m_index_buffer.store = (meshes.flatMap fun mesh => mesh.m_index_buffer.store) ∧
    dst.m_vertex_buffer.store = (meshes.flatMap fun mesh => mesh.m_vertex_buffer.store) ∧
    ∀ (k j : Nat) (src : Mesh) (s d : SubMesh) (type_sizeof : GLuint) (stride : GLsizei),
      meshes[k]? = some src → src.m_submeshes[j]? = some s →
      dst.m_submeshes[submesh_total (meshes.take k) + j]? = some d →
      impl.get_scalar_sizeof type = .ok type_sizeof →
      src.get_vertex_sizeof = .ok stride →
      (∀ e, e < s.m_index_count →
        buffer_element type_sizeof dst.m_index_buffer.store (d.m_first_index + e) =
          buffer_element type_sizeof src.m_index_buffer.store (s.m_first_index + e)) ∧
      (∀ v, v < src.m_vertex_count →
        buffer_element stride dst.m_vertex_buffer.store (d.m_indice_offset + v) =
          buffer_element stride src.m_vertex_buffer.store v) := by
  obtain ⟨front, rest, p, i, stride0, pointers, -, -, -, -, -, -, hdst, -⟩ :=
    Mesh.combine_ok dev dev' meshes dst h
  subst hdst
  -- the stores of the sources have the sizes recorded in `m_size`
  have hiwf : ∀ mesh ∈ meshes, mesh.m_index_buffer.store.length = mesh.m_index_buffer.m_size := by
    intro mesh hm
    obtain ⟨d0, d1, pt, indices, attributes, hb, -⟩ := hbuilt mesh hm
    obtain ⟨ts, st, -, -, -, h1, h2, -, -, -, -⟩ := Mesh.build_ok _ _ _ _ _ _ _ hb
    rw [h1, h2]
  have hvwf : ∀ mesh ∈ meshes,
      mesh.m_vertex_buffer.store.length = mesh.m_vertex_buffer.m_size := by
    intro mesh hm
    obtain ⟨d0, d1, pt, indices, attributes, hb, -⟩ := hbuilt mesh hm
    obtain ⟨ts, st, -, -, -, -, -, h1, h2, -, -⟩ := Mesh.build_ok _ _ _ _ _ _ _ hb
    rw [h1, h2]
  have hisum : (meshes.map fun mesh => mesh.m_index_buffer.store.length).sum
      = index_size_total meshes := by
    unfold index_size_total
    congr 1
    exact List.map_congr_left hiwf
  have hvsum : (meshes.map fun mesh => mesh.m_vertex_buffer.store.length).sum
      = vertex_size_total meshes := by
    unfold vertex_size_total
    congr 1
    exact List.map_congr_left hvwf
  have hflat := fun sel => length_flatMap_store sel meshes
  have hi : (combined dev meshes p i pointers).m_index_buffer.store
      = (meshes.flatMap fun mesh => mesh.m_index_buffer.store) := by
    simp only [combined]
    rw [copy_all_store _ _ _ _ hiwf (by simp [hisum])]
    exact overwrite_all _ _ (by simp [hflat (fun mesh => mesh.m_index_buffer), hisum])
  have hv : (combined dev meshes p i pointers).m_vertex_buffer.store
      = (meshes.flatMap fun mesh => mesh.m_vertex_buffer.store) := by
    simp only [combined]
    rw [copy_all_store _ _ _ _ hvwf (by simp [hvsum])]
    exact overwrite_all _ _ (by simp [hflat (fun mesh => mesh.m_vertex_buffer), hvsum])
  refine ⟨hi, hv, ?_⟩
  intro k j src s d ts stride hk hj hd hts hstride
  have hsrc : src ∈ meshes := List.getElem?_mem hk
  have hreb := rebase_all_getElem meshes 0 0 k j src s hk hj
  simp only [combined] at hd
  rw [hreb] at hd
  simp only [Option.some.injEq] at hd
  subst hd
  obtain ⟨d0, d1, pt, indices, attributes, hb, hlay⟩ := hbuilt src hsrc
  obtain ⟨ts', st', hts', hst', hattr, -, -, -, -, hsub, -⟩ := Mesh.build_ok _ _ _ _ _ _ _ hb
  rw [hsub] at hj
  have hj0 : j = 0 := by
    by_contra hn
    rw [List.getElem?_eq_none (by simp; omega)] at hj
    exact absurd hj (by simp)
  subst hj0
  simp only [List.getElem?_cons_zero, Option.some.injEq] at hj
  subst hj
  have hilen : ∀ mesh ∈ meshes,
      mesh.m_index_buffer.store.length = mesh.m_index_count * ts := by
    intro mesh hm
    obtain ⟨e0, e1, pt', indices', attributes', hb', -⟩ := hbuilt mesh hm
    obtain ⟨ts2, st2, hts2, -, -, -, h2, -, -, -, -⟩ := Mesh.build_ok _ _ _ _ _ _ _ hb'
    rw [hts] at hts2
    simp only [Except.ok.injEq] at hts2
    rw [h2, hts2]
  have hvlen : ∀ mesh ∈ meshes,
      mesh.m_vertex_buffer.store.length = mesh.m_vertex_count * stride := by
    intro mesh hm
    obtain ⟨e0, e1, pt', indices', attributes', hb', hlay'⟩ := hbuilt mesh hm
    obtain ⟨ts2, st2, -, hst2, hattr2, -, -, -, h2, -, -⟩ := Mesh.build_ok _ _ _ _ _ _ _ hb'
    have : mesh.get_vertex_sizeof = src.get_vertex_sizeof := by
      unfold Mesh.get_vertex_sizeof
      apply Mesh.attributes_sizeof_loop_layout
      rw [hattr2, hattr, hlay', hlay]
    rw [this, hstride] at hst2
    simp only [Except.ok.injEq] at hst2
    rw [h2, hst2]
  constructor
  · intro e he
    rw [hi]
    have := buffer_element_flatMap (fun mesh => mesh.m_index_buffer)
      (fun mesh => mesh.m_index_count) ts meshes k e src hilen hk he
    simp only [rebase, Nat.zero_add, Nat.add_zero]
    exact this
  · intro v hv'
    rw [hv]
    have := buffer_element_flatMap (fun mesh => mesh.m_vertex_buffer)
      (fun mesh => mesh.m_vertex_count) stride meshes k v src hvlen hk hv'
    simp only [rebase, Nat.zero_add]
    exact this

theorem two_built_triangles_built :
    ∀ mesh ∈ two_built_triangles, Built GL_UNSIGNED_BYTE [(GL_FLOAT, 1)] mesh := by
  intro mesh hm
  simp only [two_built_triangles, List.mem_cons, List.mem_singleton, List.not_mem_nil,
    or_false] at hm
  rcases hm with rfl | rfl
  · exact ⟨⟨0⟩, ⟨3⟩, GL_TRIANGLES, triangle_indices, [triangle_positions 10], rfl, rfl⟩
  · exact ⟨⟨3⟩, ⟨6⟩, GL_TRIANGLES, triangle_indices, [triangle_positions 40], rfl, rfl⟩

theorem combine_round_trip_witness :
    (∀ mesh ∈ two_built_triangles, Built GL_UNSIGNED_BYTE [(GL_FLOAT, 1)] mesh) ∧
    Mesh.combine ⟨6⟩ two_built_triangles = .ok (two_built_triangles_combined, ⟨10⟩) ∧
    two_built_triangles_combined.m_index_buffer.store = [0, 1, 2] ++ [0, 1, 2] ∧
    buffer_element 1 two_built_triangles_combined.m_index_buffer.store (3 + 2) =
      buffer_element 1 (triangle 3 GL_TRIANGLES 40 [1]).m_index_buffer.store (0 + 2) ∧
    buffer_element 4 two_built_triangles_combined.m_vertex_buffer.store (3 + 1) =
      buffer_element 4 (triangle 3 GL_TRIANGLES 40 [1]).m_vertex_buffer.store 1 :=
  ⟨two_built_triangles_built, rfl,
    (combine_round_trip ⟨6⟩ ⟨10⟩ two_built_triangles two_built_triangles_combined
      GL_UNSIGNED_BYTE [(GL_FLOAT, 1)] two_built_triangles_built rfl).1,
    ((combine_round_trip ⟨6⟩ ⟨10⟩ two_built_triangles two_built_triangles_combined
      GL_UNSIGNED_BYTE [(GL_FLOAT, 1)] two_built_triangles_built rfl).2.2 1 0
      (triangle 3 GL_TRIANGLES 40 [1]) ⟨3, 0, 0⟩ ⟨3, 3, 3⟩ 1 4 rfl rfl rfl rfl rfl).1 2
      (by decide),
    ((combine_round_trip ⟨6⟩ ⟨10⟩ two_built_triangles two_built_triangles_combined
      GL_UNSIGNED_BYTE [(GL_FLOAT, 1)] two_built_triangles_built rfl).2.2 1 0
      (triangle 3 GL_TRIANGLES 40 [1]) ⟨3, 0, 0⟩ ⟨3, 3, 3⟩ 1 4 rfl rfl rfl rfl rfl).2 1
      (by decide)⟩

theorem set_instances_count_each_ok :
    ∀ (inputs : List (Mesh × List GLuint)) (dev : Device),
      (∀ input ∈ inputs, input.2.length = input.1.m_submeshes.length) →
      ∃ meshes dev', set_instances_count_each dev inputs = .ok (meshes, dev') ∧
        List.Forall₂ Instanced inputs meshes := by
  intro inputs
  induction inputs with
  | nil => intro dev _; exact ⟨[], dev, rfl, List.Forall₂.nil⟩
  | cons input rest ih =>
    intro dev hlen
    obtain ⟨mesh, c⟩ := input
    have h1 := hlen (mesh, c) (List.mem_cons_self _ _)
    obtain ⟨meshes, dev', hrest, hall⟩ :=
      ih { generated := dev.generated + 1 } (fun i hi => hlen i (List.mem_cons_of_mem _ hi))
    refine ⟨{ mesh with
        m_instances_count := c
        m_indirect_draw_buffer :=
          { m_gl := dev.generated + 1
            m_target := GL_DRAW_INDIRECT_BUFFER
            m_size := mesh.m_submeshes.length * sizeof_DrawElementsIndirectCommand
            store := command_table mesh.m_submeshes c } } :: meshes, dev', ?_,
      List.Forall₂.cons ?_ hall⟩
    · simp only [set_instances_count_each, Mesh.set_instances_count_eq dev mesh c h1, bind,
        Except.bind, hrest]
    · simp [Instanced]

theorem rebase_all_instanced :
    ∀ (inputs : List (Mesh × List GLuint)) (meshes : List Mesh),
      List.Forall₂ Instanced inputs meshes → ∀ (index_offset index_count : GLsizei),
      rebase_all meshes index_offset index_count =
        rebase_all (inputs.map Prod.fst) index_offset index_count := by
  intro inputs meshes h
  induction h with
  | nil => intro _ _; rfl
  | cons h1 _ ih =>
    intro vo ic
    unfold Instanced at h1
    simp only [List.map_cons, picogl.rebase_all]
    rw [ih, h1]

theorem agree_types_instanced :
    ∀ (inputs : List (Mesh × List GLuint)) (meshes : List Mesh),
      List.Forall₂ Instanced inputs meshes → ∀ (p i : GLenum),
      agree_types meshes p i = agree_types (inputs.map Prod.fst) p i := by
  intro inputs meshes h
  induction h with
  | nil => intro _ _; rfl
  | cons h1 _ ih =>
    intro p i
    unfold Instanced at h1
    simp only [List.map_cons, picogl.agree_types]
    rw [h1]
    simp only [ih]

theorem instances_instanced :
    ∀ (inputs : List (Mesh × List GLuint)) (meshes : List Mesh),
      List.Forall₂ Instanced inputs meshes →
      (meshes.flatMap fun mesh => mesh.m_instances_count) = inputs.flatMap Prod.snd := by
  intro inputs meshes h
  induction h with
  | nil => rfl
  | cons h1 _ ih =>
    unfold Instanced at h1
    simp only [List.flatMap_cons, ih]
    rw [h1]

theorem lengths_instanced :
    ∀ (inputs : List (Mesh × List GLuint)) (meshes : List Mesh),
      List.Forall₂ Instanced inputs meshes →
      (∀ input ∈ inputs, input.2.length = input.1.m_submeshes.length) →
      ∀ mesh ∈ meshes, mesh.m_instances_count.length = mesh.m_submeshes.length := by
  intro inputs meshes h
  induction h with
  | nil => intro _ mesh hm; simp at hm
  | @cons input mesh' inputs' meshes' h1 _ ih =>
    intro hlen mesh hm
    rcases List.mem_cons.1 hm with rfl | hm
    · unfold Instanced at h1
      rw [h1]
      exact hlen input (List.mem_cons_self _ _)
    · exact ih (fun i hi => hlen i (List.mem_cons_of_mem _ hi)) mesh hm

theorem length_flatMap_snd (inputs : List (Mesh × List GLuint))
    (hlen : ∀ input ∈ inputs, input.2.length = input.1.m_submeshes.length) :
    (inputs.flatMap Prod.snd).length = submesh_total (inputs.map Prod.fst) := by
  induction inputs with
  | nil => rfl
  | cons input rest ih =>
    simp only [List.flatMap_cons, List.length_append, List.map_cons, submesh_total_cons,
      ih (fun i hi => hlen i (List.mem_cons_of_mem _ hi)), hlen input (List.mem_cons_self _ _)]

/-- C5. Applying instance counts commutes with combining: take meshes `M_1..M_n` that
`Mesh::combine` combines, and count lists `c_1..c_n` with `length c_k` the submesh
count of `M_k`.  Then `set_instances_count(c_k)` returns on every `M_k`, `combine`
returns on the resulting meshes, `set_instances_count(c_1 ++ ... ++ c_n)` returns on
`combine([M_1..M_n])`, and the two indirect-draw-command tables are identical. -/
theorem set_instances_count_commutes_with_combine (dev_l dev_r dev_r' : Device)
    (inputs : List (Mesh × List GLuint)) (combined_first : Mesh)
    (hlen : ∀ input ∈ inputs, input.2.length = input.1.m_submeshes.length)
    (h : Mesh.combine dev_r (inputs.map Prod.fst) = .ok (combined_first, dev_r')) :
    ∃ (instanced : List Mesh) (dev_l' dev_l'' dev_r'' : Device) (lhs rhs : Mesh),
      set_instances_count_each dev_l inputs = .ok (instanced, dev_l') ∧
      Mesh.combine dev_l' instanced = .ok (lhs, dev_l'') ∧
      combined_first.set_instances_count dev_r' (inputs.flatMap Prod.snd) = .ok (rhs, dev_r'') ∧
      lhs.m_indirect_draw_buffer.store = rhs.m_indirect_draw_buffer.store := by
  obtain ⟨front, rest, p, i, stride, pointers, hcons, hattr, htypes, hstride, hptrs, -, hdst, -⟩ :=
    Mesh.combine_ok dev_r dev_r' _ combined_first h
  obtain ⟨instanced, dev_l', heach, hall⟩ := set_instances_count_each_ok inputs dev_l hlen
  have hlens := lengths_instanced _ _ hall hlen
  -- the first mesh keeps its attributes
  cases hall with
  | nil => simp at hcons
  | @cons input front' inputs' rest' h1 hrest =>
    have hall : List.Forall₂ Instanced (input :: inputs') (front' :: rest') :=
      List.Forall₂.cons h1 hrest
    simp only [List.map_cons, List.cons.injEq] at hcons
    have hfront : front'.m_vertex_attributes = front.m_vertex_attributes := by
      unfold Instanced at h1
      rw [h1, hcons.1]
    have hcomb := Mesh.combine_eq dev_l' front' rest' p i stride pointers
      (by rw [hfront]; exact hattr)
      (by rw [agree_types_instanced _ _ hall]; exact htypes)
      (by rw [hfront]; exact hstride)
      (by rw [hfront]; exact hptrs) hlens
    have hrhs_len : ((input :: inputs').flatMap Prod.snd).length
        = combined_first.m_submeshes.length := by
      rw [hdst, length_flatMap_snd _ hlen]
      simp [combined, length_rebase_all]
    refine ⟨_, dev_l', _, _, _, _, heach, hcomb,
      Mesh.set_instances_count_eq dev_r' combined_first _ hrhs_len, ?_⟩
    simp only [combined]
    rw [instances_read_eq _ hlens, instances_instanced _ _ hall, rebase_all_instanced _ _ hall,
      hdst]
    simp only [combined]

theorem set_instances_count_commutes_with_combine_witness :
    (∀ input ∈ two_triangle_inputs, input.2.length = input.1.m_submeshes.length) ∧
    Mesh.combine ⟨6⟩ (two_triangle_inputs.map Prod.fst) =
      .ok (two_built_triangles_combined, ⟨10⟩) ∧
    ∃ (instanced : List Mesh) (dev_l' dev_l'' dev_r'' : Device) (lhs rhs : Mesh),
      set_instances_count_each ⟨6⟩ two_triangle_inputs = .ok (instanced, dev_l') ∧
      Mesh.combine dev_l' instanced = .ok (lhs, dev_l'') ∧
      two_built_triangles_combined.set_instances_count ⟨10⟩ ([5] ++ [7]) = .ok (rhs, dev_r'') ∧
      lhs.m_indirect_draw_buffer.store = rhs.m_indirect_draw_buffer.store :=
  ⟨by decide, rfl,
    set_instances_count_commutes_with_combine ⟨6⟩ ⟨6⟩ ⟨10⟩ two_triangle_inputs
      two_built_triangles_combined (by decide) rfl⟩

theorem id_triangle_built :
    Mesh.build ⟨3⟩ GL_TRIANGLES triangle_indices GL_UNSIGNED_BYTE [triangle_ids] =
      .ok (id_triangle, ⟨6⟩) := by
  rfl

theorem points_built :
    Mesh.build ⟨0⟩ GL_POINTS triangle_indices GL_UNSIGNED_BYTE [triangle_positions 10] =
      .ok (triangle 0 GL_POINTS 10 [1], ⟨3⟩) := by
  rfl

/-- C10. `Mesh::set_instances_count` builds the command table: for a mesh with `n`
submeshes and a count list `counts` of length `n` the call returns; afterwards the
instance-count table is `counts`, the indirect-draw-command buffer exists and holds exactly
`n` records (`n * 20` bytes), the i-th being `{submesh i's index_count, counts[i], submesh
i's first_index, submesh i's m_indice_offset, 0}`, and the submesh table is unchanged. -/
theorem set_instances_count_builds_table (dev : Device) (self : Mesh) (counts : List GLuint)
    (hlen : counts.length = self.m_submeshes.length) :
    ∃ (self' : Mesh) (dev' : Device),
      self.set_instances_count dev counts = .ok (self', dev') ∧
      self'.m_instances_count = counts ∧
      self'.m_indirect_draw_buffer.m_gl ≠ 0 ∧
      self'.m_indirect_draw_buffer.store.length = self.m_submeshes.length ∧
      self'.m_indirect_draw_buffer.get_size =
        self.m_submeshes.length * sizeof_DrawElementsIndirectCommand ∧
      (∀ (i : Nat) (submesh : SubMesh) (count : GLuint),
        self.m_submeshes[i]? = some submesh → counts[i]? = some count →
        self'.m_indirect_draw_buffer.store[i]? =
          some { m_count := submesh.m_index_count
                 m_instance_count := count
                 m_first_index := submesh.m_first_index
                 m_base_vertex := submesh.m_indice_offset
                 m_base_instance := 0 }) ∧
      self'.m_submeshes = self.m_submeshes := by
  refine ⟨_, _, Mesh.set_instances_count_eq dev self counts hlen, rfl, ?_, ?_, rfl, ?_, rfl⟩
  · simp
  · simp [length_command_table, hlen]
  · intro i submesh count hs hc
    simp only [command_table, List.getElem?_zipWith, hs, hc]

theorem set_instances_count_builds_table_witness :
    [5, 7].length = two_built_triangles_combined.m_submeshes.length ∧
    ∃ (self' : Mesh) (dev' : Device),
      two_built_triangles_combined.set_instances_count ⟨10⟩ [5, 7] = .ok (self', dev') ∧
      self'.m_instances_count = [5, 7] ∧
      self'.m_indirect_draw_buffer.m_gl ≠ 0 ∧
      self'.m_indirect_draw_buffer.store.length = two_built_triangles_combined.m_submeshes.length ∧
      self'.m_indirect_draw_buffer.get_size =
        two_built_triangles_combined.m_submeshes.length * sizeof_DrawElementsIndirectCommand ∧
      (∀ (i : Nat) (submesh : SubMesh) (count : GLuint),
        two_built_triangles_combined.m_submeshes[i]? = some submesh →
        (([5, 7] : List GLuint)[i]?) = some count →
        self'.m_indirect_draw_buffer.store[i]? =
          some { m_count := submesh.m_index_count
                 m_instance_count := count
                 m_first_index := submesh.m_first_index
                 m_base_vertex := submesh.m_indice_offset
                 m_base_instance := 0 }) ∧
      self'.m_submeshes = two_built_triangles_combined.m_submeshes :=
  ⟨rfl, set_instances_count_builds_table ⟨10⟩ two_built_triangles_combined [5, 7] rfl⟩

/-- After `Mesh::set_instances_count` the command buffer is the table derived from the
mesh's submesh and instance-count tables. -/
theorem set_instances_count_fresh (dev dev' : Device) (self self' : Mesh) (c : List GLuint)
    (h : self.set_instances_count dev c = .ok (self', dev')) :
    self'.m_indirect_draw_buffer.m_gl ≠ 0 ∧
    self'.m_indirect_draw_buffer.store = command_table self'.m_submeshes self'.m_instances_count := by
  have hlen := Mesh.set_instances_count_ok_length _ _ _ _ _ h
  rw [Mesh.set_instances_count_eq dev self c hlen] at h
  simp only [Except.ok.injEq, Prod.mk.injEq] at h
  rw [← h.1]
  simp

/-- After `Mesh::combine` the command buffer is the table derived from the combined
submesh and instance-count tables. -/
theorem combine_fresh (dev dev' : Device) (meshes : List Mesh) (dst : Mesh)
    (h : Mesh.combine dev meshes = .ok (dst, dev')) :
    dst.m_indirect_draw_buffer.m_gl ≠ 0 ∧
    dst.m_indirect_draw_buffer.store = command_table dst.m_submeshes dst.m_instances_count := by
  obtain ⟨front, rest, p, i, stride, pointers, -, -, -, -, -, -, hdst, -⟩ :=
    Mesh.combine_ok dev dev' meshes dst h
  subst hdst
  simp [combined]

/-- C9 (the code departs from the claim). The calls `Mesh::make()`,
`set_indices(GL_TRIANGLES, six indices)`, `set_instances_count({2})`,
`set_indices(GL_TRIANGLES, three indices)` all return; in the mesh they end with the
indirect-draw-command buffer exists and still holds the record `{6, 2, 0, 0, 0}` of the
replaced submesh, while the table derived from the current submesh and
instance-count tables is `{3, 2, 0, 0, 0}`: `set_indices` replaces the submesh table
and leaves the command buffer as it was. -/
theorem set_indices_leaves_command_buffer_stale :
    set_indices_after_instances = .ok (set_indices_after_instances_mesh, ⟨4⟩) ∧
    set_indices_after_instances_mesh.m_indirect_draw_buffer.m_gl ≠ 0 ∧
    set_indices_after_instances_mesh.m_indirect_draw_buffer.store =
      [{ m_count := 6, m_instance_count := 2, m_first_index := 0, m_base_vertex := 0,
         m_base_instance := 0 }] ∧
    command_table set_indices_after_instances_mesh.m_submeshes
        set_indices_after_instances_mesh.m_instances_count =
      [{ m_count := 3, m_instance_count := 2, m_first_index := 0, m_base_vertex := 0,
         m_base_instance := 0 }] ∧
    set_indices_after_instances_mesh.m_indirect_draw_buffer.store ≠
      command_table set_indices_after_instances_mesh.m_submeshes
        set_indices_after_instances_mesh.m_instances_count := by
  refine ⟨rfl, by decide, rfl, rfl, by decide⟩

/-- C7 (the code departs from the claim). A point list (`GL_POINTS`, the enumerant 0)
and a triangle list have different primitive types, and `Mesh::combine` returns a
mesh for them, of primitive type `GL_TRIANGLES`: the first loop reads the primitive
type 0 taken from the first mesh as "no type taken yet" and overwrites it without an
assertion. -/
theorem combine_accepts_points_with_triangles :
    (∀ mesh ∈ points_and_triangles, Built GL_UNSIGNED_BYTE [(GL_FLOAT, 1)] mesh) ∧
    (triangle 0 GL_POINTS 10 [1]).m_primitive_type ≠
      (triangle 3 GL_TRIANGLES 40 [1]).m_primitive_type ∧
    Mesh.combine ⟨6⟩ points_and_triangles = .ok (two_built_triangles_combined, ⟨10⟩) ∧
    two_built_triangles_combined.m_primitive_type = GL_TRIANGLES := by
  refine ⟨?_, by decide, rfl, rfl⟩
  intro mesh hm
  simp only [points_and_triangles, List.mem_cons, List.mem_singleton, List.not_mem_nil,
    or_false] at hm
  rcases hm with rfl | rfl
  · exact ⟨⟨0⟩, ⟨3⟩, GL_POINTS, triangle_indices, [triangle_positions 10], rfl, rfl⟩
  · exact ⟨⟨3⟩, ⟨6⟩, GL_TRIANGLES, triangle_indices, [triangle_positions 40], rfl, rfl⟩

theorem Mesh.combine_submeshes_congr (a b : Mesh) (index_offset index_count : GLsizei)
    (h : b.m_instances_count = a.m_instances_count) :
    ∀ (submeshes : List SubMesh) (local_id global_id : Nat) (dst : Mesh),
      Mesh.combine_submeshes b index_offset index_count submeshes local_id global_id dst =
        Mesh.combine_submeshes a index_offset index_count submeshes local_id global_id dst := by
  intro submeshes
  induction submeshes with
  | nil => intro _ _ _; rfl
  | cons s rest ih =>
    intro l g dst
    simp only [Mesh.combine_submeshes, h, ih]

theorem same_but_attributes_refl (mesh : Mesh) : SameButAttributes mesh mesh := by
  unfold SameButAttributes
  rfl

theorem combine_meshes_same_attributes :
    ∀ (sources meshes : List Mesh), List.Forall₂ SameButAttributes sources meshes →
      ∀ (offsets : Mesh.CombineOffsets) (dst : Mesh),
        Mesh.combine_meshes meshes offsets dst = Mesh.combine_meshes sources offsets dst := by
  intro sources meshes h
  induction h with
  | nil => intro _ _; rfl
  | @cons a b as bs h1 _ ih =>
    intro offsets dst
    unfold SameButAttributes at h1
    have e1 : b.m_instances_count = a.m_instances_count := by rw [h1]
    have e2 : b.m_submeshes = a.m_submeshes := by rw [h1]
    have e3 : b.m_index_buffer = a.m_index_buffer := by rw [h1]
    have e4 : b.m_vertex_buffer = a.m_vertex_buffer := by rw [h1]
    have e5 : b.m_vertex_count = a.m_vertex_count := by rw [h1]
    have e6 : b.m_index_count = a.m_index_count := by rw [h1]
    simp only [Mesh.combine_meshes, Mesh.combine_submeshes_congr a b _ _ e1, e2, e3, e4, e5, e6,
      ih]

theorem agree_types_same_attributes :
    ∀ (sources meshes : List Mesh), List.Forall₂ SameButAttributes sources meshes →
      ∀ (p i : GLenum), agree_types meshes p i = agree_types sources p i := by
  intro sources meshes h
  induction h with
  | nil => intro _ _; rfl
  | @cons a b as bs h1 _ ih =>
    intro p i
    unfold SameButAttributes at h1
    have e1 : b.m_primitive_type = a.m_primitive_type := by rw [h1]
    have e2 : b.m_indice_type = a.m_indice_type := by rw [h1]
    simp only [picogl.agree_types, e1, e2, ih]

theorem map_same_attributes {β : Type} (f : Mesh → β)
    (hf : ∀ a b, SameButAttributes a b → f b = f a) :
    ∀ (sources meshes : List Mesh), List.Forall₂ SameButAttributes sources meshes →
      meshes.map f = sources.map f := by
  intro sources meshes h
  induction h with
  | nil => rfl
  | @cons a b as bs h1 _ ih => simp only [List.map_cons, hf a b h1, ih]

theorem combine_start_same_attributes (dev : Device) (p i : GLenum)
    (pointers : List AttribPointer) (sources meshes : List Mesh)
    (h : List.Forall₂ SameButAttributes sources meshes) :
    combine_start dev meshes p i pointers = combine_start dev sources p i pointers := by
  have h1 : index_size_total meshes = index_size_total sources := by
    unfold index_size_total
    rw [map_same_attributes _ (fun a b hab => by unfold SameButAttributes at hab; rw [hab])
      _ _ h]
  have h2 : vertex_size_total meshes = vertex_size_total sources := by
    unfold vertex_size_total
    rw [map_same_attributes _ (fun a b hab => by unfold SameButAttributes at hab; rw [hab])
      _ _ h]
  have h3 : index_total meshes = index_total sources := by
    unfold index_total
    rw [map_same_attributes _ (fun a b hab => by unfold SameButAttributes at hab; rw [hab])
      _ _ h]
  have h4 : vertex_total meshes = vertex_total sources := by
    unfold vertex_total
    rw [map_same_attributes _ (fun a b hab => by unfold SameButAttributes at hab; rw [hab])
      _ _ h]
  have h5 : submesh_total meshes = submesh_total sources := by
    unfold submesh_total
    rw [map_same_attributes _ (fun a b hab => by unfold SameButAttributes at hab; rw [hab])
      _ _ h]
  have h6 : instance_total meshes = instance_total sources := by
    unfold instance_total
    rw [map_same_attributes _ (fun a b hab => by unfold SameButAttributes at hab; rw [hab])
      _ _ h]
  simp only [picogl.combine_start, h1, h2, h3, h4, h5, h6]

/-- C8 (counterexample). The second mesh of `mixed_layout_triangles` has the attribute
layout `[(GL_INT, 1)]`, the first `[(GL_FLOAT, 1)]`; both are built by `Mesh::build`,
and `Mesh::combine` returns a mesh for the list instead of failing an assertion. -/
theorem combine_accepts_mixed_layouts :
    Mesh.build ⟨0⟩ GL_TRIANGLES triangle_indices GL_UNSIGNED_BYTE [triangle_positions 10] =
      .ok (triangle 0 GL_TRIANGLES 10 [1], ⟨3⟩) ∧
    Mesh.build ⟨3⟩ GL_TRIANGLES triangle_indices GL_UNSIGNED_BYTE [triangle_ids] =
      .ok (id_triangle, ⟨6⟩) ∧
    attribute_layout id_triangle.m_vertex_attributes ≠
      attribute_layout (triangle 0 GL_TRIANGLES 10 [1]).m_vertex_attributes ∧
    Mesh.combine ⟨6⟩ mixed_layout_triangles = .ok (two_built_triangles_combined, ⟨10⟩) := by
  refine ⟨rfl, rfl, by decide, rfl⟩

/-- C8 (amended). `Mesh::combine` asserts that the first mesh has at least one vertex
attribute and reads no attribute list but the first mesh's: two lists of sources that
differ only in the attribute lists of the meshes behind the first have the same
outcome, be it the combined mesh or the failure. -/
theorem combine_reads_first_attributes_only (dev : Device) (front : Mesh)
    (rest rest' : List Mesh) (h : List.Forall₂ SameButAttributes rest rest') :
    Mesh.combine dev (front :: rest') = Mesh.combine dev (front :: rest) ∧
    (front.m_vertex_attributes = [] →
      Mesh.combine dev (front :: rest) = .error .assertion) := by
  have hall : List.Forall₂ SameButAttributes (front :: rest) (front :: rest') :=
    List.Forall₂.cons (same_but_attributes_refl front) h
  constructor
  · rw [Mesh.combine_cons_unfold, Mesh.combine_cons_unfold]
    simp only [agree_types_same_attributes _ _ hall, combine_meshes_same_attributes _ _ hall,
      combine_start_same_attributes _ _ _ _ _ _ hall]
  · intro hattr
    rw [Mesh.combine_cons_unfold, if_pos hattr]

theorem combine_reads_first_attributes_only_witness :
    List.Forall₂ SameButAttributes [triangle 3 GL_TRIANGLES 40 [1]] [id_triangle] ∧
    Mesh.combine ⟨6⟩ (triangle 0 GL_TRIANGLES 10 [1] :: [id_triangle]) =
      Mesh.combine ⟨6⟩ (triangle 0 GL_TRIANGLES 10 [1] :: [triangle 3 GL_TRIANGLES 40 [1]]) :=
  ⟨List.Forall₂.cons rfl List.Forall₂.nil,
    (combine_reads_first_attributes_only ⟨6⟩ (triangle 0 GL_TRIANGLES 10 [1])
      [triangle 3 GL_TRIANGLES 40 [1]] [id_triangle]
      (List.Forall₂.cons rfl List.Forall₂.nil)).1⟩

theorem agree_type_ok (dst_type mesh_type r : GLenum) (h : agree_type dst_type mesh_type = .ok r)
    (hnz : mesh_type ≠ 0) : r = mesh_type ∧ r ≠ 0 := by
  unfold agree_type at h
  by_cases h0 : dst_type = 0
  · rw [if_pos h0] at h
    simp only [Except.ok.injEq] at h
    exact ⟨h.symm, by rw [← h]; exact hnz⟩
  · by_cases h1 : dst_type = mesh_type
    · rw [if_neg h0, if_pos h1] at h
      simp only [Except.ok.injEq] at h
      exact ⟨by rw [← h, h1], by rw [← h]; exact h0⟩
    · rw [if_neg h0, if_neg h1] at h
      exact absurd h (by simp)

theorem agree_type_keeps (dst_type mesh_type r : GLenum)
    (h : agree_type dst_type mesh_type = .ok r) (hnz : dst_type ≠ 0) : r = dst_type := by
  unfold agree_type at h
  by_cases h1 : dst_type = mesh_type
  · rw [if_neg hnz, if_pos h1] at h
    simp only [Except.ok.injEq] at h
    exact h.symm
  · rw [if_neg hnz, if_neg h1] at h
    exact absurd h (by simp)

theorem agree_type_error (dst_type mesh_type : GLenum) (e : Failure)
    (h : agree_type dst_type mesh_type = .error e) : e = .assertion := by
  unfold agree_type at h
  by_cases h0 : dst_type = 0
  · simp [h0] at h
  · by_cases h1 : dst_type = mesh_type
    · simp [h0, h1] at h
    · simp only [h0, h1, if_false, Except.error.injEq] at h
      exact h.symm

/-- With all source types different from 0, a passing type agreement means that all
sources have one primitive type and one index type. -/
theorem agree_types_ok :
    ∀ (meshes : List Mesh) (p0 i0 p i : GLenum),
      agree_types meshes p0 i0 = .ok (p, i) →
      (∀ mesh ∈ meshes, mesh.m_primitive_type ≠ 0 ∧ mesh.m_indice_type ≠ 0) →
      (p0 ≠ 0 → p = p0) ∧ (i0 ≠ 0 → i = i0) ∧
      ∀ mesh ∈ meshes, mesh.m_primitive_type = p ∧ mesh.m_indice_type = i := by
  intro meshes
  induction meshes with
  | nil =>
    intro p0 i0 p i h _
    simp only [agree_types, Except.ok.injEq, Prod.mk.injEq] at h
    exact ⟨fun _ => h.1.symm, fun _ => h.2.symm, fun m hm => by simp at hm⟩
  | cons mesh rest ih =>
    intro p0 i0 p i h hnz
    have hm := hnz mesh (List.mem_cons_self _ _)
    simp only [agree_types] at h
    cases hp : agree_type p0 mesh.m_primitive_type with
    | error e => simp [hp] at h
    | ok p1 =>
      simp only [hp] at h
      cases hi : agree_type i0 mesh.m_indice_type with
      | error e => simp [hi] at h
      | ok i1 =>
        simp only [hi] at h
        obtain ⟨hp1, hp1nz⟩ := agree_type_ok _ _ _ hp hm.1
        obtain ⟨hi1, hi1nz⟩ := agree_type_ok _ _ _ hi hm.2
        obtain ⟨r1, r2, r3⟩ := ih p1 i1 p i h (fun m hmem => hnz m (List.mem_cons_of_mem _ hmem))
        have ep := r1 hp1nz
        have ei := r2 hi1nz
        refine ⟨fun h0 => by rw [ep]; exact agree_type_keeps _ _ _ hp h0,
          fun h0 => by rw [ei]; exact agree_type_keeps _ _ _ hi h0, ?_⟩
        intro m hmem
        rcases List.mem_cons.1 hmem with rfl | hmem
        · exact ⟨by rw [ep, hp1], by rw [ei, hi1]⟩
        · exact r3 m hmem

theorem agree_types_error :
    ∀ (meshes : List Mesh) (p0 i0 : GLenum) (e : Failure),
      agree_types meshes p0 i0 = .error e → e = .assertion := by
  intro meshes
  induction meshes with
  | nil => intro p0 i0 e h; simp [agree_types] at h
  | cons mesh rest ih =>
    intro p0 i0 e h
    simp only [agree_types] at h
    cases hp : agree_type p0 mesh.m_primitive_type with
    | error e' =>
      simp only [hp, Except.error.injEq] at h
      rw [← h]; exact agree_type_error _ _ _ hp
    | ok p1 =>
      simp only [hp] at h
      cases hi : agree_type i0 mesh.m_indice_type with
      | error e' =>
        simp only [hi, Except.error.injEq] at h
        rw [← h]; exact agree_type_error _ _ _ hi
      | ok i1 =>
        simp only [hi] at h
        exact ih _ _ _ h

/-- When no source has the primitive type 0 or the index type 0, `Mesh::combine` ends
in an assertion failure on every list with two different primitive types or two
different index types. -/
theorem combine_rejects_mixed_types (dev : Device) (meshes : List Mesh)
    (hnz : ∀ mesh ∈ meshes, mesh.m_primitive_type ≠ 0 ∧ mesh.m_indice_type ≠ 0)
    (hmix : ∃ a ∈ meshes, ∃ b ∈ meshes,
      a.m_primitive_type ≠ b.m_primitive_type ∨ a.m_indice_type ≠ b.m_indice_type) :
    Mesh.combine dev meshes = .error .assertion := by
  obtain ⟨a, ha, b, hb, hab⟩ := hmix
  cases meshes with
  | nil => simp at ha
  | cons front rest =>
    rw [Mesh.combine_cons_unfold]
    by_cases hattr : front.m_vertex_attributes = []
    · rw [if_pos hattr]
    rw [if_neg hattr]
    cases ht : agree_types (front :: rest) 0 0 with
    | error e => simp only [agree_types_error _ _ _ _ ht]
    | ok pi =>
      obtain ⟨p, i⟩ := pi
      obtain ⟨-, -, hall⟩ := agree_types_ok _ _ _ _ _ ht hnz
      have h1 := hall a ha
      have h2 := hall b hb
      rcases hab with hab | hab
      · exact absurd (h1.1.trans h2.1.symm) hab
      · exact absurd (h1.2.trans h2.2.symm) hab

/-- More rounds than `src_data.length + 1` change nothing: once `src` has left the
source array the next `memcpy` is undefined, so a loop that is still running then does
not return either way. -/
theorem Mesh.set_vertex_attribute_loop_enough (attribute_sizeof : Nat) (stride : GLsizei)
    (src_data : List Byte) :
    ∀ (fuel extra : Nat) (vertex_data : List Byte) (src dst : Nat),
      src_data.length < src + (fuel + 1) * attribute_sizeof →
      Mesh.set_vertex_attribute_loop attribute_sizeof stride src_data (fuel + extra)
          vertex_data src dst =
        Mesh.set_vertex_attribute_loop attribute_sizeof stride src_data fuel
          vertex_data src dst := by
  intro fuel
  induction fuel with
  | zero =>
    intro extra vd src dst h
    simp only [Nat.zero_add, Nat.one_mul] at h
    cases extra with
    | zero => rfl
    | succ k =>
      simp only [Nat.zero_add, Mesh.set_vertex_attribute_loop]
      by_cases hd : dst < vd.length
      · have hm : Mesh.memcpy vd dst src_data src attribute_sizeof = .error .undefined := by
          unfold Mesh.memcpy
          rw [if_neg (by omega)]
        simp only [hd, if_true, hm, bind, Except.bind]
      · simp only [hd, if_false]
  | succ f ih =>
    intro extra vd src dst h
    have e : f + 1 + extra = (f + extra) + 1 := by omega
    rw [e]
    simp only [Mesh.set_vertex_attribute_loop]
    by_cases hd : dst < vd.length
    · simp only [hd, if_true, bind, Except.bind]
      cases hm : Mesh.memcpy vd dst src_data src attribute_sizeof with
      | error err => rfl
      | ok vd' =>
        simp only []
        exact ih extra vd' (src + attribute_sizeof) (dst + stride)
          (by rw [Nat.add_mul] at h ⊢; rw [Nat.add_mul] at h; omega)
    · simp only [hd, if_false]

/-- The rounds `Mesh::set_vertex_attribute` grants its loop are enough: any larger
bound gives the same outcome. -/
theorem Mesh.set_vertex_attribute_loop_fuel (attribute_sizeof : Nat) (stride : GLsizei)
    (src_data : List Byte) (hpos : 0 < attribute_sizeof) (extra : Nat)
    (vertex_data : List Byte) (dst : Nat) :
    Mesh.set_vertex_attribute_loop attribute_sizeof stride src_data
        (src_data.length + 1 + extra) vertex_data 0 dst =
      Mesh.set_vertex_attribute_loop attribute_sizeof stride src_data
        (src_data.length + 1) vertex_data 0 dst := by
  apply Mesh.set_vertex_attribute_loop_enough
  have : src_data.length + 1 + 1 ≤ (src_data.length + 1 + 1) * attribute_sizeof :=
    Nat.le_mul_of_pos_right _ hpos
  omega

theorem attributes_sizeof_loop_eq_stride :
    ∀ (attributes : List VertexAttribute) (attributes_sizeof stride : GLsizei),
      Mesh.attributes_sizeof_loop attributes attributes_sizeof = .ok stride →
      stride = attributes_sizeof + vertex_stride attributes := by
  intro attributes
  induction attributes with
  | nil =>
    intro s stride h
    simp only [Mesh.attributes_sizeof_loop, Except.ok.injEq] at h
    simp [vertex_stride, h]
  | cons attr rest ih =>
    intro s stride h
    simp only [Mesh.attributes_sizeof_loop] at h
    rw [bind_eq_ok] at h
    obtain ⟨ss, hss, h⟩ := h
    have := ih _ _ h
    rw [this]
    simp only [vertex_stride, List.map_cons, List.sum_cons, attribute_sizeof, scalar_sizeof, hss]
    exact Nat.add_assoc _ _ _

/-- C15. `Mesh::set_indices` records one whole-buffer submesh: on a mesh with a vertex
array object, for a non-empty index container whose element size is a multiple of the
size of the index scalar type, the call returns; afterwards the submesh table is the
one submesh with `first_index` 0, `m_indice_offset` 0 and `index_count` = container
length x (element size / index scalar size), `m_index_count` is that count, the index
buffer holds the container's bytes and its byte size is `index_count` x index scalar
size. -/
theorem set_indices_records_whole_buffer (dev : Device) (self : Mesh) (primitive_type : GLenum)
    (indices : Container) (type : GLenum) (type_sizeof : GLuint)
    (hvao : self.m_vao ≠ 0)
    (htype : impl.get_scalar_sizeof type = .ok type_sizeof)
    (hne : indices.size ≠ 0)
    (hmul : indices.value_sizeof % type_sizeof = 0) :
    ∃ (self' : Mesh) (dev' : Device),
      self.set_indices dev primitive_type indices type = .ok (self', dev') ∧
      self'.m_submeshes =
        [{ m_first_index := 0, m_indice_offset := 0,
           m_index_count := indices.size * (indices.value_sizeof / type_sizeof) }] ∧
      self'.m_index_count = indices.size * (indices.value_sizeof / type_sizeof) ∧
      self'.m_index_buffer.store = indices.data ∧
      self'.m_index_buffer.get_size = self'.m_index_count * type_sizeof ∧
      self'.m_primitive_type = primitive_type ∧
      self'.m_indice_type = type := by
  have htake : List.take (indices.size * indices.value_sizeof) indices.data = indices.data :=
    List.take_of_length_le (by rw [indices.data_length])
  have hvs : indices.size * indices.value_sizeof
      = indices.size * (indices.value_sizeof / type_sizeof) * type_sizeof := by
    rw [Nat.mul_assoc, Nat.div_mul_cancel (Nat.dvd_of_mod_eq_zero hmul)]
  refine ⟨{ self with
      m_index_buffer :=
        { m_gl := dev.generated + 1, m_target := GL_ELEMENT_ARRAY_BUFFER,
          m_size := indices.size * indices.value_sizeof, store := indices.data }
      m_indice_type := type
      m_primitive_type := primitive_type
      m_index_count := indices.size * (indices.value_sizeof / type_sizeof)
      m_submeshes := [{ m_first_index := 0
                        m_index_count := indices.size * (indices.value_sizeof / type_sizeof)
                        m_indice_offset := 0 }] },
    { generated := dev.generated + 1 }, ?_, rfl, rfl, rfl, ?_, rfl, rfl⟩
  · simp only [Mesh.set_indices, htype, bind, Except.bind, PICOGL_ASSERT, bne_iff_ne, ne_eq, hvao,
      not_false_eq_true, hne, hmul, beq_self_eq_true, if_true, Buffer.make_data,
      impl.get_data_size, indices.data_length, Nat.lt_irrefl, if_false, impl.GLObject.make,
      htake, decide_True, decide_not]
  · exact hvs

theorem set_indices_records_whole_buffer_witness :
    (Mesh.make {}).1.m_vao ≠ 0 ∧
    impl.get_scalar_sizeof GL_UNSIGNED_BYTE = .ok 1 ∧
    six_indices.size ≠ 0 ∧
    six_indices.value_sizeof % 1 = 0 ∧
    ∃ (self' : Mesh) (dev' : Device),
      (Mesh.make {}).1.set_indices ⟨1⟩ GL_TRIANGLES six_indices GL_UNSIGNED_BYTE = .ok (self', dev') ∧
      self'.m_submeshes =
        [{ m_first_index := 0, m_indice_offset := 0,
           m_index_count := six_indices.size * (six_indices.value_sizeof / 1) }] ∧
      self'.m_index_count = six_indices.size * (six_indices.value_sizeof / 1) ∧
      self'.m_index_buffer.store = six_indices.data ∧
      self'.m_index_buffer.get_size = self'.m_index_count * 1 ∧
      self'.m_primitive_type = GL_TRIANGLES ∧
      self'.m_indice_type = GL_UNSIGNED_BYTE :=
  ⟨by decide, rfl, by decide, by decide,
    set_indices_records_whole_buffer ⟨1⟩ (Mesh.make {}).1 GL_TRIANGLES six_indices
      GL_UNSIGNED_BYTE 1 (by decide) rfl (by decide) (by decide)⟩

/-- The steps of a returning `Mesh::set_vertex_attributes`. -/
theorem Mesh.set_vertex_attributes_steps (dev dev' : Device) (self self' : Mesh)
    (attributes : List VertexAttribute)
    (h : self.set_vertex_attributes dev attributes = .ok (self', dev')) :
    ∃ (total_size : GLsizeiptr) (stride : GLsizei) (self1 : Mesh) (vertex_data : List Byte)
      (buffer : Buffer Byte),
      self.m_vao ≠ 0 ∧
      Mesh.set_vertex_attributes_sizes attributes 0 0 = .ok (total_size, stride) ∧
      Mesh.set_vertex_attributes_loop stride attributes
        { self with
          m_vertex_attributes := attributes
          m_vertex_buffer :=
            { m_gl := dev.generated + 1, m_target := GL_ARRAY_BUFFER, m_size := total_size,
              store := List.replicate total_size 0 } }
        (List.replicate total_size 0) 0 0 = .ok (self1, vertex_data) ∧
      self1.m_vertex_buffer.upload_data vertex_data 0 0 = .ok buffer ∧
      self' = { self1 with m_vertex_buffer := buffer } ∧
      dev' = { generated := dev.generated + 1 } := by
  unfold Mesh.set_vertex_attributes at h
  rw [bind_eq_ok] at h
  obtain ⟨_, hvao, h⟩ := h
  rw [assert_eq_ok] at hvao
  rw [bind_eq_ok] at h
  obtain ⟨⟨total_size, stride⟩, hsizes, h⟩ := h
  simp only [Buffer.make, impl.GLObject.make] at h
  rw [bind_eq_ok] at h
  obtain ⟨⟨self1, vd1⟩, hloop, h⟩ := h
  simp only [] at h
  rw [bind_eq_ok] at h
  obtain ⟨buffer, hupload, h⟩ := h
  simp only [Except.ok.injEq, Prod.mk.injEq] at h
  exact ⟨total_size, stride, self1, vd1, buffer, by simpa using hvao, hsizes, hloop, hupload,
    h.1.symm, h.2.symm⟩

/-- C13. `Mesh::set_vertex_attributes` sizes the vertex buffer as stride x vertex
count: whenever the call returns, the interleaved stride is the sum over the
attributes of `m_channel_count` x scalar size of `m_type` (every type is in the scalar
size table), and the byte size of the allocated vertex buffer, the sum of the
attributes' source byte sizes, equals stride x `m_vertex_count`. -/
theorem set_vertex_attributes_sizes_vertex_buffer (dev dev' : Device) (self self' : Mesh)
    (attributes : List VertexAttribute)
    (h : self.set_vertex_attributes dev attributes = .ok (self', dev')) :
    (∀ attr ∈ attributes, impl.get_scalar_sizeof attr.m_type = .ok (scalar_sizeof attr.m_type)) ∧
    self'.get_vertex_sizeof = .ok (vertex_stride attributes) ∧
    self'.m_vertex_buffer.get_size = (attributes.map fun attr => attr.m_size).sum ∧
    self'.m_vertex_buffer.get_size = vertex_stride attributes * self'.m_vertex_count ∧
    self'.m_vertex_buffer.store.length = vertex_stride attributes * self'.m_vertex_count := by
  obtain ⟨stride, hstride, hsize, hlen, hframe⟩ := Mesh.set_vertex_attributes_ok _ _ _ _ _ h
  obtain ⟨total_size, stride', self1, vd, buffer, -, hsizes, hloop, hupload, hself, -⟩ :=
    Mesh.set_vertex_attributes_steps _ _ _ _ _ h
  obtain ⟨hpos, hloop', htotal⟩ := Mesh.set_vertex_attributes_sizes_ok _ _ _ _ hsizes
  obtain ⟨hframe1, -, hall⟩ := Mesh.set_vertex_attributes_loop_ok _ _ _ _ _ _ _ _ hloop hpos
  have hattrs : self'.m_vertex_attributes = attributes := by rw [hframe]
  have hs : stride = vertex_stride attributes := by
    have := attributes_sizeof_loop_eq_stride attributes 0 stride
      (by rw [← hattrs]; exact hstride)
    rw [this, Nat.zero_add]
  subst hs
  have hvc : self'.m_vertex_count = self1.m_vertex_count := by rw [hself]
  have hsum := Mesh.attributes_sizeof_loop_total self1.m_vertex_count attributes 0 _ hall
    (by rw [← hattrs]; exact hstride)
  simp only [Nat.mul_zero, Nat.zero_add] at hsum
  refine ⟨?_, hstride, ?_, ?_, ?_⟩
  · intro attr ha
    obtain ⟨ss, hss, -⟩ := hall attr ha
    simp only [scalar_sizeof, hss]
  · show self'.m_vertex_buffer.m_size = _
    rw [hsize, hsum, hvc]
  · show self'.m_vertex_buffer.m_size = _
    rw [hsize, Nat.mul_comm]
  · rw [hlen, Nat.mul_comm]

theorem set_vertex_attributes_sizes_vertex_buffer_witness :
    (Mesh.make {}).1.set_vertex_attributes ⟨1⟩ [triangle_positions 10, triangle_ids] =
      .ok ({ (Mesh.make {}).1 with
              m_vertex_buffer :=
                { m_gl := 2, m_target := GL_ARRAY_BUFFER, m_size := 24
                  store := [10, 11, 12, 13, 40, 41, 42, 43, 14, 15, 16, 17, 44, 45, 46, 47,
                            18, 19, 20, 21, 48, 49, 50, 51] }
              m_vertex_count := 3
              m_vertex_attributes := [triangle_positions 10, triangle_ids]
              vao_pointers :=
                [{ index := 0, channel_count := 1, type := GL_FLOAT, normalized := false,
                   integer := false, stride := 8, offset := 0 },
                 { index := 1, channel_count := 1, type := GL_INT, normalized := false,
                   integer := true, stride := 8, offset := 4 }] }, ⟨2⟩) ∧
    (24 : Nat) = 12 + (12 + 0) ∧
    (24 : Nat) = vertex_stride [triangle_positions 10, triangle_ids] * 3 :=
  ⟨rfl,
    (set_vertex_attributes_sizes_vertex_buffer ⟨1⟩ ⟨2⟩ (Mesh.make {}).1 _
      [triangle_positions 10, triangle_ids] rfl).2.2.1,
    (set_vertex_attributes_sizes_vertex_buffer ⟨1⟩ ⟨2⟩ (Mesh.make {}).1 _
      [triangle_positions 10, triangle_ids] rfl).2.2.2.1⟩

theorem Mesh.set_instances_count_run_agrees (dev : Device) (self : Mesh)
    (instances_count : List GLuint) :
    self.set_instances_count dev instances_count =
      match Mesh.set_instances_count_run dev self instances_count with
      | (mesh, dev', .ok _) => .ok (mesh, dev')
      | (_, _, .error e) => .error e := by
  unfold Mesh.set_instances_count Mesh.set_instances_count_run
  cases h1 : PICOGL_ASSERT (instances_count.length == self.get_submeshes_count) with
  | error e => rfl
  | ok u =>
    simp only [bind, Except.bind]
    cases h2 : Mesh.set_instances_count_loop instances_count self.m_submeshes 0
        (List.replicate self.m_submeshes.length ⟨0, 0, 0, 0, 0⟩) with
    | error e => rfl
    | ok draws => rfl

/-- C11. `Mesh::set_instances_count` rejects a wrong-sized table: the call ends in an
assertion failure if and only if the length of the count list differs from the
submesh count, and returns if and only if the two are equal; when it fails, the
assertion stops the call before any member is written: the mesh (its instance-count
table and its indirect-draw-command buffer among the rest) and the device are as
before the call. -/
theorem set_instances_count_rejects_wrong_size (dev : Device) (self : Mesh)
    (counts : List GLuint) :
    (self.set_instances_count dev counts = .error .assertion ↔
      counts.length ≠ self.m_submeshes.length) ∧
    ((∃ r, self.set_instances_count dev counts = .ok r) ↔
      counts.length = self.m_submeshes.length) ∧
    (counts.length ≠ self.m_submeshes.length →
      Mesh.set_instances_count_run dev self counts = (self, dev, .error .assertion)) ∧
    (∀ e, self.set_instances_count dev counts = .error e →
      (Mesh.set_instances_count_run dev self counts).1.m_instances_count
        = self.m_instances_count ∧
      (Mesh.set_instances_count_run dev self counts).1.m_indirect_draw_buffer
        = self.m_indirect_draw_buffer) := by
  have hfail : counts.length ≠ self.m_submeshes.length →
      self.set_instances_count dev counts = .error .assertion := by
    intro hne
    simp [Mesh.set_instances_count, PICOGL_ASSERT, Mesh.get_submeshes_count, hne, bind,
      Except.bind]
  have hrun : counts.length ≠ self.m_submeshes.length →
      Mesh.set_instances_count_run dev self counts = (self, dev, .error .assertion) := by
    intro hne
    simp [Mesh.set_instances_count_run, PICOGL_ASSERT, Mesh.get_submeshes_count, hne]
  refine ⟨⟨?_, hfail⟩, ⟨?_, ?_⟩, hrun, ?_⟩
  · intro h heq
    rw [Mesh.set_instances_count_eq dev self counts heq] at h
    exact absurd h (by simp)
  · rintro ⟨⟨m, d⟩, h⟩
    exact Mesh.set_instances_count_ok_length _ _ _ _ _ h
  · intro heq
    exact ⟨_, Mesh.set_instances_count_eq dev self counts heq⟩
  · intro e he
    by_cases heq : counts.length = self.m_submeshes.length
    · rw [Mesh.set_instances_count_eq dev self counts heq] at he
      exact absurd he (by simp)
    · rw [hrun heq]
      exact ⟨rfl, rfl⟩

/-- C16. Drawing a combined mesh is one dispatch: for every mesh `Mesh::combine`
returns, `draw()` returns after binding the vertex array, the index buffer and the
indirect buffer and issuing one `glMultiDrawElementsIndirect` with the combined
primitive type and index type, indirect offset 0, draw count the combined submesh
count and stride 0; that call is the only draw call issued. -/
theorem draw_combined_is_one_dispatch (dev dev' : Device) (meshes : List Mesh) (dst : Mesh)
    (h : Mesh.combine dev meshes = .ok (dst, dev')) :
    dst.draw =
      .ok [.glBindVertexArray dst.m_vao,
           .glBindBuffer GL_ELEMENT_ARRAY_BUFFER dst.m_index_buffer.m_gl,
           .glBindBuffer GL_DRAW_INDIRECT_BUFFER dst.m_indirect_draw_buffer.m_gl,
           .glMultiDrawElementsIndirect dst.m_primitive_type dst.m_indice_type 0
             (submesh_total meshes) 0] ∧
    (∀ calls, dst.draw = .ok calls →
      calls.filter DrawCall.is_draw =
        [.glMultiDrawElementsIndirect dst.m_primitive_type dst.m_indice_type 0
          dst.m_submeshes.length 0]) ∧
    dst.m_submeshes.length = submesh_total meshes := by
  obtain ⟨front, rest, p, i, stride, pointers, -, -, -, -, -, -, hdst, -⟩ :=
    Mesh.combine_ok dev dev' meshes dst h
  have hi := copy_all_frame (fun mesh => mesh.m_index_buffer) meshes 0
    { m_gl := dev.generated + 2, m_target := GL_ELEMENT_ARRAY_BUFFER,
      m_size := index_size_total meshes,
      store := List.replicate (index_size_total meshes) 0 }
  have hvao : dst.m_vao = dev.generated + 1 := by rw [hdst]; rfl
  have hib : dst.m_index_buffer.m_gl = dev.generated + 2 := by rw [hdst]; exact hi.1
  have hibt : dst.m_index_buffer.m_target = GL_ELEMENT_ARRAY_BUFFER := by
    rw [hdst]; exact hi.2.1
  have hdb : dst.m_indirect_draw_buffer.m_gl = dev.generated + 4 := by rw [hdst]; rfl
  have hdbt : dst.m_indirect_draw_buffer.m_target = GL_DRAW_INDIRECT_BUFFER := by
    rw [hdst]; rfl
  have hlen : dst.m_submeshes.length = submesh_total meshes := by
    rw [hdst]; simp [combined, length_rebase_all]
  have hdraw : dst.draw =
      .ok [.glBindVertexArray dst.m_vao,
           .glBindBuffer GL_ELEMENT_ARRAY_BUFFER dst.m_index_buffer.m_gl,
           .glBindBuffer GL_DRAW_INDIRECT_BUFFER dst.m_indirect_draw_buffer.m_gl,
           .glMultiDrawElementsIndirect dst.m_primitive_type dst.m_indice_type 0
             (submesh_total meshes) 0] := by
    simp only [Mesh.draw, Mesh.draw_as, Buffer.bind, PICOGL_ASSERT, hvao, hib, hibt, hdb, hdbt,
      hlen, bind, Except.bind, bne_iff_ne, ne_eq, Nat.add_one_ne_zero, not_false_eq_true,
      if_true, List.cons_append, List.nil_append, Nat.succ_ne_zero]
  refine ⟨hdraw, ?_, hlen⟩
  intro calls hc
  rw [hdraw] at hc
  simp only [Except.ok.injEq] at hc
  rw [← hc, hlen]
  rfl

theorem draw_combined_is_one_dispatch_witness :
    Mesh.combine ⟨6⟩ two_triangles = .ok (two_triangles_combined, ⟨10⟩) ∧
    two_triangles_combined.draw =
      .ok [.glBindVertexArray 7,
           .glBindBuffer GL_ELEMENT_ARRAY_BUFFER 8,
           .glBindBuffer GL_DRAW_INDIRECT_BUFFER 10,
           .glMultiDrawElementsIndirect GL_TRIANGLES GL_UNSIGNED_BYTE 0 2 0] :=
  ⟨rfl, (draw_combined_is_one_dispatch ⟨6⟩ ⟨10⟩ two_triangles two_triangles_combined rfl).1⟩

theorem Buffer.upload_data_eq (self : Buffer Byte) (data : List Byte) (size : GLsizeiptr)
    (offset : GLintptr) :
    self.upload_data data size offset =
      match glBufferSubData self.store (self.upload_data_call size offset) data with
      | .error e => .error e
      | .ok store => .ok { self with store := store } := by
  unfold Buffer.upload_data glBufferSubData Buffer.upload_data_call
  simp only []
  generalize (if size ≠ 0 then size else self.m_size) = n
  by_cases h1 : data.length < n
  · simp [h1]
  · by_cases h2 : offset + n ≤ self.store.length
    · simp [h1, h2]
    · simp [h1, h2]

/-- C19 (counterexample). On a buffer of four bytes `upload_data(data, 0, 2)` issues
`glBufferSubData(target, 2, 4, data)`: the range `[2, 6)` written with size 0 does not
lie within the buffer, and the device writes nothing. -/
theorem upload_data_whole_size_at_offset :
    four_byte_buffer.m_size = 4 ∧
    four_byte_buffer.upload_data_call 0 2 = { target := GL_ARRAY_BUFFER, offset := 2, size := 4 } ∧
    ¬ (four_byte_buffer.upload_data_call 0 2).offset + (four_byte_buffer.upload_data_call 0 2).size
        ≤ four_byte_buffer.m_size ∧
    four_byte_buffer.upload_data [1, 2, 3, 4] 0 2 = .ok four_byte_buffer := by
  refine ⟨rfl, rfl, by decide, rfl⟩

/-- C19 (amended). `Buffer::upload_data(data, size, offset)` issues one
`glBufferSubData` of `n` bytes starting at `offset` on the buffer's target, with
`n = size` when `size` is not 0 and `n` the buffer size `S` when `size` is 0; the
effect of the call on the store is the effect of that device call.  With `size` 0
and `offset` 0 the range is the whole buffer `[0, S)`; with `size` 0 the range
`[offset, offset + S)` ends within the buffer exactly when `offset` is 0. -/
theorem upload_data_writes_range (self : Buffer Byte) (data : List Byte) (size : GLsizeiptr)
    (offset : GLintptr) :
    (self.upload_data_call size offset).target = self.m_target ∧
    (self.upload_data_call size offset).offset = offset ∧
    (size ≠ 0 → (self.upload_data_call size offset).size = size) ∧
    (size = 0 → (self.upload_data_call size offset).size = self.m_size) ∧
    (self.upload_data data size offset =
      match glBufferSubData self.store (self.upload_data_call size offset) data with
      | .error e => .error e
      | .ok store => .ok { self with store := store }) ∧
    (self.upload_data_call 0 0).offset = 0 ∧
    (self.upload_data_call 0 0).size = self.m_size ∧
    ((self.upload_data_call 0 offset).offset + (self.upload_data_call 0 offset).size
        ≤ self.m_size ↔ offset = 0) := by
  refine ⟨rfl, rfl, ?_, ?_, Buffer.upload_data_eq self data size offset, rfl, rfl, ?_⟩
  · intro h
    simp [Buffer.upload_data_call, h]
  · intro h
    simp [Buffer.upload_data_call, h]
  · simp only [Buffer.upload_data_call, ne_eq, not_true_eq_false, if_false]
    constructor
    · intro h
      by_cases h0 : offset = 0
      · exact h0
      · exact absurd h (by
          have : 0 < offset := Nat.pos_of_ne_zero h0
          exact Nat.not_le.2 (Nat.lt_add_of_pos_left this))
    · intro h
      rw [h, Nat.zero_add]

/-- C17 (counterexample). Move-assigning the handle of object 7 into a handle that owns
object 5 leaves the source holding 5, not the null identifier. -/
theorem move_assign_into_owner_keeps_source_non_null :
    impl.GLObject.move_assign { m_id := 5 } { m_id := 7 } = ({ m_id := 7 }, { m_id := 5 }) ∧
    (impl.GLObject.move_assign { m_id := 5 } { m_id := 7 }).2.m_id ≠ 0 := by
  refine ⟨rfl, by decide⟩

/-- C17 (amended). Moving a handle swaps identifiers: after move-construction the new
handle holds the source's former identifier and the source holds 0; after
move-assignment the destination holds the source's former identifier and the source
holds the destination's former identifier, which is 0 exactly when the destination
was empty. -/
theorem move_swaps_identifiers (self rhs : impl.GLObject) :
    (rhs.move_construct).1.m_id = rhs.m_id ∧
    (rhs.move_construct).2.m_id = 0 ∧
    (self.move_assign rhs).1.m_id = rhs.m_id ∧
    (self.move_assign rhs).2.m_id = self.m_id ∧
    ((self.move_assign rhs).2.m_id = 0 ↔ self.m_id = 0) :=
  ⟨rfl, rfl, rfl, rfl, Iff.rfl⟩

theorem perm_cons_eraseIdx {α : Type} :
    ∀ (l : List α) (i : Nat) (x : α), l[i]? = some x → l.Perm (x :: l.eraseIdx i) := by
  intro l
  induction l with
  | nil => intro i x h; simp at h
  | cons a rest ih =>
    intro i x h
    cases i with
    | zero =>
      simp only [List.getElem?_cons_zero, Option.some.injEq] at h
      subst h
      exact List.Perm.refl _
    | succ i =>
      simp only [List.getElem?_cons_succ] at h
      simp only [List.eraseIdx_cons_succ]
      exact (List.Perm.cons a (ih i x h)).trans (List.Perm.swap x a _)

theorem set_perm_cons_eraseIdx {α : Type} :
    ∀ (l : List α) (i : Nat) (y : α), i < l.length → (l.set i y).Perm (y :: l.eraseIdx i) := by
  intro l
  induction l with
  | nil => intro i y h; simp at h
  | cons a rest ih =>
    intro i y h
    cases i with
    | zero => exact List.Perm.refl _
    | succ i =>
      simp only [List.length_cons, Nat.add_lt_add_iff_right] at h
      simp only [List.set_cons_succ, List.eraseIdx_cons_succ]
      exact (List.Perm.cons a (ih i y h)).trans (List.Perm.swap y a _)

theorem set_append_perm {α : Type} (l : List α) (i : Nat) (x y : α) (h : l[i]? = some x) :
    (l.set i y ++ [x]).Perm (y :: l) := by
  have hi : i < l.length := by
    by_contra hn
    rw [List.getElem?_eq_none (by omega)] at h
    exact absurd h (by simp)
  have h1 := set_perm_cons_eraseIdx l i y hi
  have h2 := perm_cons_eraseIdx l i x h
  have h3 : (l.set i y ++ [x]).Perm (x :: l.set i y) := List.perm_append_singleton _ _
  exact h3.trans ((List.Perm.cons x h1).trans ((List.Perm.swap y x _).trans
    (List.Perm.cons y h2.symm)))

theorem swap_perm {α : Type} (l : List α) (i j : Nat) (x y : α) (hij : i ≠ j)
    (hx : l[i]? = some x) (hy : l[j]? = some y) :
    ((l.set i y).set j x).Perm l := by
  have hi : i < l.length := by
    by_contra hn
    rw [List.getElem?_eq_none (by omega)] at hx
    exact absurd hx (by simp)
  have hj : j < l.length := by
    by_contra hn
    rw [List.getElem?_eq_none (by omega)] at hy
    exact absurd hy (by simp)
  have hy' : (l.set i y)[j]? = some y := by
    rw [List.getElem?_set_ne hij]; exact hy
  have h1 := set_perm_cons_eraseIdx (l.set i y) j x (by simpa using hj)
  have h2 := perm_cons_eraseIdx (l.set i y) j y hy'
  have h3 := set_perm_cons_eraseIdx l i y hi
  have h4 : ((l.set i y).eraseIdx j).Perm (l.eraseIdx i) :=
    List.Perm.cons_inv (h2.symm.trans h3)
  exact h1.trans ((List.Perm.cons x h4).trans (perm_cons_eraseIdx l i x hx).symm)

theorem HandleWorld.balanced_of_perm (w w' : HandleWorld) (hb : w.Balanced)
    (hdev : w'.dev = w.dev) (hdel : w'.deleted = w.deleted)
    (h : ∀ id, id ≠ 0 → w'.ids.count id = w.ids.count id) : w'.Balanced := by
  refine ⟨fun id hid => ?_, ?_⟩
  · rw [h id hid, hdel, hdev]; exact hb.1 id hid
  · rw [hdel]; exact hb.2

theorem HandleWorld.step_balanced (w : HandleWorld) (op : HandleOp) (hb : w.Balanced) :
    (w.step op).Balanced := by
  cases op with
  | make created =>
    cases created with
    | false =>
      refine HandleWorld.balanced_of_perm w _ hb rfl rfl (fun id hid => ?_)
      simp only [HandleWorld.step, impl.GLObject.make_handle, HandleWorld.ids,
        List.map_append, List.map_cons, List.map_nil, List.count_append,
        Bool.false_eq_true, if_false]
      rw [List.count_singleton]
      have : ((0 : GLuint) == id) = false := by
        simp only [beq_eq_false_iff_ne, ne_eq]; exact fun h => hid h.symm
      simp [this]
    | true =>
      refine ⟨fun id hid => ?_, hb.2⟩
      have h1 := hb.1 id hid
      simp only [HandleWorld.step, impl.GLObject.make_handle, impl.GLObject.make,
        HandleWorld.ids, List.map_append, List.map_cons, List.map_nil, List.count_append,
        if_true] at h1 ⊢
      rw [List.count_singleton]
      by_cases he : w.dev.generated + 1 = id
      · subst he
        simp only [beq_self_eq_true, if_true, le_refl]
        have : ¬ (w.dev.generated + 1 ≤ w.dev.generated) := Nat.not_succ_le_self _
        rw [if_neg this] at h1
        omega
      · have hbeq : ((w.dev.generated + 1 : GLuint) == id) = false := by
          simp only [beq_eq_false_iff_ne, ne_eq]; exact he
        simp only [hbeq, Bool.false_eq_true, if_false, Nat.add_zero]
        by_cases hle : id ≤ w.dev.generated
        · rw [if_pos hle] at h1
          rw [if_pos (Nat.le_succ_of_le hle)]
          exact h1
        · rw [if_neg hle] at h1
          have : ¬ (id ≤ w.dev.generated + 1) := by
            intro h
            rcases Nat.lt_or_eq_of_le h with h2 | h2
            · exact hle (Nat.lt_succ_iff.mp h2)
            · exact he h2.symm
          rw [if_neg this]
          exact h1
  | move_construct source =>
    simp only [HandleWorld.step]
    cases hs : w.handles[source]? with
    | none => exact hb
    | some rhs =>
      refine HandleWorld.balanced_of_perm w _ hb rfl rfl (fun id hid => ?_)
      have hp := set_append_perm w.handles source rhs { m_id := 0 } hs
      have hc := (hp.map (fun handle : impl.GLObject => handle.m_id)).count_eq id
      simp only [HandleWorld.ids, impl.GLObject.move_construct]
      rw [hc, List.map_cons, List.count_cons]
      have : ((0 : GLuint) == id) = false := by
        simp only [beq_eq_false_iff_ne, ne_eq]; exact fun h => hid h.symm
      simp [this]
  | move_assign destination source =>
    simp only [HandleWorld.step]
    cases hd : w.handles[destination]? with
    | none => exact hb
    | some self =>
      cases hs : w.handles[source]? with
      | none => exact hb
      | some rhs =>
        by_cases he : destination = source
        · simp only [he, if_true]; exact hb
        · simp only [he, if_false]
          refine HandleWorld.balanced_of_perm w _ hb rfl rfl (fun id _ => ?_)
          have hp := swap_perm w.handles destination source self rhs he hd hs
          have hc := (hp.map (fun handle : impl.GLObject => handle.m_id)).count_eq id
          simp only [HandleWorld.ids, impl.GLObject.move_assign]
          exact hc
  | destroy handle =>
    simp only [HandleWorld.step]
    cases hs : w.handles[handle]? with
    | none => exact hb
    | some self =>
      have hp := perm_cons_eraseIdx w.handles handle self hs
      have hc := fun id =>
        (hp.map (fun handle : impl.GLObject => handle.m_id)).count_eq id
      simp only [List.map_cons, List.count_cons] at hc
      by_cases h0 : self.m_id = 0
      · refine ⟨fun id hid => ?_, ?_⟩
        · have h1 := hb.1 id hid
          simp only [HandleWorld.ids] at h1 ⊢
          rw [hc id] at h1
          have : (self.m_id == id) = false := by
            simp only [beq_eq_false_iff_ne, ne_eq, h0]; exact fun h => hid h.symm
          simp only [this, Bool.false_eq_true, if_false, Nat.add_zero] at h1
          simpa [impl.GLObject.destroy, h0] using h1
        · simpa [impl.GLObject.destroy, h0] using hb.2
      · refine ⟨fun id hid => ?_, ?_⟩
        · have h1 := hb.1 id hid
          simp only [HandleWorld.ids] at h1 ⊢
          rw [hc id] at h1
          simp only [impl.GLObject.destroy, ne_eq, h0, not_false_eq_true, if_true,
            List.count_append, List.count_singleton]
          omega
        · simp only [impl.GLObject.destroy, ne_eq, h0, not_false_eq_true, if_true,
            List.count_append, List.count_singleton]
          have : (self.m_id == 0) = false := by
            simp only [beq_eq_false_iff_ne, ne_eq]; exact h0
          simp only [this, Bool.false_eq_true, if_false, Nat.add_zero]
          exact hb.2

theorem HandleWorld.run_balanced (ops : List HandleOp) :
    ∀ w : HandleWorld, w.Balanced → (w.run ops).Balanced := by
  induction ops with
  | nil => intro w hb; exact hb
  | cons op ops ih =>
    intro w hb
    exact ih (w.step op) (HandleWorld.step_balanced w op hb)

/-- C18. Whatever sequence of creations, move-constructions, move-assignments and
destructions a program performs on handles, starting with none: every identifier the
device has generated is, at that time, either held by exactly one live handle and not
yet deleted, or held by none and passed to the deleter exactly once; the deleter never
receives the null identifier; and once every handle has been destroyed each created
identifier has been deleted exactly once. -/
theorem handles_release_each_object_once (ops : List HandleOp) (id : GLuint) :
    let w := HandleWorld.run {} ops
    (id ≠ 0 → id ≤ w.dev.generated → w.ids.count id + w.deleted.count id = 1) ∧
    (w.dev.generated < id → w.ids.count id = 0 ∧ w.deleted.count id = 0) ∧
    w.deleted.count 0 = 0 ∧
    (w.handles = [] → id ≠ 0 → id ≤ w.dev.generated → w.deleted.count id = 1) := by
  intro w
  have h0 : (({} : HandleWorld)).Balanced := by
    refine ⟨fun id hid => ?_, rfl⟩
    have : ¬ (id ≤ 0) := by
      intro h; exact hid (Nat.le_zero.mp h)
    simp [HandleWorld.ids, this]
  have hb : w.Balanced := HandleWorld.run_balanced ops {} h0
  refine ⟨fun hid hle => ?_, fun hlt => ?_, hb.2, fun hnil hid hle => ?_⟩
  · have := hb.1 id hid
    rw [if_pos hle] at this
    exact this
  · have hid : id ≠ 0 := by
      intro h; rw [h] at hlt; exact Nat.not_lt_zero _ hlt
    have := hb.1 id hid
    rw [if_neg (Nat.not_le.mpr hlt)] at this
    exact ⟨by omega, by omega⟩
  · have := hb.1 id hid
    rw [if_pos hle] at this
    have h2 : w.ids.count id = 0 := by simp [HandleWorld.ids, hnil]
    omega

theorem handles_release_each_object_once_witness :
    (HandleWorld.run {} handle_swaps).handles = [] ∧
    (HandleWorld.run {} handle_swaps).deleted = [1, 2] ∧
    (HandleWorld.run {} handle_swaps).deleted.count 1 = 1 :=
  ⟨rfl, rfl,
    (handles_release_each_object_once handle_swaps 1).2.2.2 rfl (by decide) (by decide)⟩

/-- C20 (counterexample). A cubemap color attachment of a framebuffer made with 4
samples is a texture with sample count 1. -/
theorem cubemap_attachment_is_single_sampled :
    ((Framebuffer.make {} 4 4 4).1.add_color_attachment (Framebuffer.make {} 4 4 4).2
        GL_RGBA8 GL_TEXTURE_CUBE_MAP 0).map
      (fun r => (r.1.m_sample_count, r.1.m_color_attachments.map fun t => t.m_sample_count))
      = .ok (4, [1]) := by
  rfl

theorem Texture.make_ok {dev dev' : Device} {target internal_format : GLenum}
    {array_size sample_count width height depth : GLsizei} {data : Bool}
    {opts : Texture.Options} {t : Texture} {calls : List TextureCall}
    (h : Texture.make dev target internal_format array_size sample_count width height depth
      data opts = .ok (t, dev', calls)) :
    t.m_target = target ∧ t.m_sample_count = sample_count ∧ t.m_width = width ∧
    t.m_height = height ∧ t.m_array_size = array_size ∧ t.m_depth = depth ∧
    t.m_internal_format = internal_format ∧ t.m_opts = opts ∧
    t.m_gl = dev.generated + 1 ∧ dev' = { generated := dev.generated + 1 } := by
  unfold Texture.make at h
  obtain ⟨pixel_info, _, h⟩ := bind_eq_ok.mp h
  simp only [impl.GLObject.make] at h
  obtain ⟨storage, _, h⟩ := bind_eq_ok.mp h
  simp only [pure, Except.pure, Except.ok.injEq, Prod.mk.injEq] at h
  obtain ⟨rfl, rfl, _⟩ := h
  exact ⟨rfl, rfl, rfl, rfl, rfl, rfl, rfl, rfl, rfl, rfl⟩

theorem Texture.lod_count_ok {x : GLsizei} (h : x ≠ 0) :
    Texture.lod_count x = .ok (Nat.log2 x + 1) := by
  simp [Texture.lod_count, h]

/-- The creation of a texture returns when the internal format is in the table of
`get_pixel_info`, the target is one of the nine of the switch and, if mip levels are to
be allocated, the extent whose logarithm is taken is not 0. -/
theorem Texture.make_returns (dev : Device) (target internal_format : GLenum)
    (array_size sample_count width height depth : GLsizei) (data : Bool)
    (opts : Texture.Options) (pixel_info : impl.PixelInfo)
    (hformat : impl.get_pixel_info internal_format = .ok pixel_info)
    (htarget : target = GL_TEXTURE_2D ∨ target = GL_TEXTURE_CUBE_MAP ∨
      target = GL_TEXTURE_2D_MULTISAMPLE)
    (hsize : width ≠ 0 ∨ opts &&& Texture.Options.AllocateMipmap = 0) :
    ∃ t calls, Texture.make dev target internal_format array_size sample_count width height
      depth data opts = .ok (t, { generated := dev.generated + 1 }, calls) := by
  have hmax : max width height ≠ 0 ∨ opts &&& Texture.Options.AllocateMipmap = 0 := by
    rcases hsize with h | h
    · left
      intro h0
      have : width ≤ max width height := Nat.le_max_left _ _
      rw [h0] at this
      exact h (Nat.le_zero.mp this)
    · right; exact h
  have hstorage : ∃ storage, Texture.make_storage
      { m_gl := dev.generated + 1, m_target := target, m_internal_format := internal_format,
        m_format := pixel_info.m_format, m_type := pixel_info.m_type,
        m_array_size := array_size, m_sample_count := sample_count,
        m_width := width, m_height := height, m_depth := depth, m_opts := opts } data
      = .ok storage := by
    unfold Texture.make_storage
    rcases htarget with rfl | rfl | rfl
    · rcases hmax with h | h
      · simp [GL_TEXTURE_2D, GL_TEXTURE_1D, GL_TEXTURE_1D_ARRAY, Texture.lod_count_2D,
          Texture.lod_count_ok h, bind, Except.bind, pure, Except.pure]
        split <;> exact ⟨_, rfl⟩
      · simp [GL_TEXTURE_2D, GL_TEXTURE_1D, GL_TEXTURE_1D_ARRAY, h, bind, Except.bind, pure,
          Except.pure]
        exact ⟨_, rfl⟩
    · rcases hmax with h | h
      · simp [GL_TEXTURE_CUBE_MAP, GL_TEXTURE_1D, GL_TEXTURE_1D_ARRAY, Texture.lod_count_2D,
          Texture.lod_count_ok h, bind, Except.bind, pure, Except.pure]
        split <;> exact ⟨_, rfl⟩
      · simp [GL_TEXTURE_CUBE_MAP, GL_TEXTURE_1D, GL_TEXTURE_1D_ARRAY, h, bind, Except.bind,
          pure, Except.pure]
        exact ⟨_, rfl⟩
    · simp [GL_TEXTURE_2D_MULTISAMPLE, GL_TEXTURE_2D, GL_TEXTURE_CUBE_MAP, GL_TEXTURE_1D,
        GL_TEXTURE_1D_ARRAY, pure, Except.pure]
  obtain ⟨storage, hs⟩ := hstorage
  unfold Texture.make
  rw [hformat]
  simp only [impl.GLObject.make, Bind.bind, Except.bind, hs, Pure.pure, Except.pure]
  exact ⟨_, _, rfl⟩

theorem Framebuffer.add_color_attachment_ok {self fb : Framebuffer} {dev dev' : Device}
    {internal_format target : GLenum} {options : Texture.Options}
    {calls : List FramebufferCall}
    (h : self.add_color_attachment dev internal_format target options = .ok (fb, dev', calls)) :
    ∃ t : Texture,
      fb = { self with
        m_attachments := self.m_attachments ++
          [GL_COLOR_ATTACHMENT0 + self.m_color_attachments.length],
        m_color_attachments := self.m_color_attachments ++ [t] } ∧
      t.geometry = (self.m_width, self.m_height,
        if target = GL_TEXTURE_CUBE_MAP then 1 else self.m_sample_count) ∧
      t.m_target = (if target = GL_TEXTURE_CUBE_MAP then GL_TEXTURE_CUBE_MAP
        else if self.m_sample_count > 1 then GL_TEXTURE_2D_MULTISAMPLE else GL_TEXTURE_2D) := by
  unfold Framebuffer.add_color_attachment at h
  simp only at h
  split at h
  · exact absurd h (by simp)
  · rename_i t dev1 calls1 hmade
    simp only [Except.ok.injEq, Prod.mk.injEq] at h
    obtain ⟨rfl, _, _⟩ := h
    refine ⟨t, rfl, ?_, ?_⟩
    · by_cases hc : target = GL_TEXTURE_CUBE_MAP
      · simp only [hc, if_true, Texture.make_cubemap] at hmade ⊢
        obtain ⟨_, h2, h3, h4, _⟩ := Texture.make_ok hmade
        simp [Texture.geometry, h2, h3, h4]
      · simp only [hc, if_false, Texture.make_2d] at hmade ⊢
        obtain ⟨_, h2, h3, h4, _⟩ := Texture.make_ok hmade
        simp [Texture.geometry, h2, h3, h4]
    · by_cases hc : target = GL_TEXTURE_CUBE_MAP
      · simp only [hc, if_true, Texture.make_cubemap] at hmade ⊢
        obtain ⟨h1, _⟩ := Texture.make_ok hmade
        simpa using h1
      · simp only [hc, if_false, Texture.make_2d] at hmade ⊢
        obtain ⟨h1, _⟩ := Texture.make_ok hmade
        simpa using h1

theorem Framebuffer.run_ok :
    ∀ (ops : List FramebufferOp) (self fb : Framebuffer) (dev dev' : Device),
      self.run dev ops = .ok (fb, dev') →
      fb.m_gl = self.m_gl ∧ fb.m_width = self.m_width ∧ fb.m_height = self.m_height ∧
      fb.m_sample_count = self.m_sample_count ∧
      fb.m_color_attachments.map Texture.geometry =
        self.m_color_attachments.map Texture.geometry ++
        (color_targets ops).map (fun target => (self.m_width, self.m_height,
          if target = GL_TEXTURE_CUBE_MAP then 1 else self.m_sample_count)) := by
  intro ops
  induction ops with
  | nil =>
    intro self fb dev dev' h
    simp only [Framebuffer.run, Except.ok.injEq, Prod.mk.injEq] at h
    obtain ⟨rfl, _⟩ := h
    simp [color_targets]
  | cons op ops ih =>
    intro self fb dev dev' h
    simp only [Framebuffer.run] at h
    split at h
    · exact absurd h (by simp)
    · rename_i self1 dev1 happly
      obtain ⟨h1, h2, h3, h4, h5⟩ := ih self1 fb dev1 dev' h
      cases op with
      | set_depth_attachment format =>
        simp only [Framebuffer.apply, Framebuffer.set_depth_attachment, Except.ok.injEq,
          Prod.mk.injEq] at happly
        obtain ⟨rfl, _⟩ := happly
        exact ⟨h1, h2, h3, h4, by simpa [color_targets] using h5⟩
      | add_color_attachment internal_format target options =>
        simp only [Framebuffer.apply] at happly
        split at happly
        · exact absurd happly (by simp)
        · rename_i self2 dev2 calls hadd
          simp only [Except.ok.injEq, Prod.mk.injEq] at happly
          obtain ⟨rfl, rfl⟩ := happly
          obtain ⟨t, rfl, hg, _⟩ := Framebuffer.add_color_attachment_ok hadd
          refine ⟨h1, h2, h3, h4, ?_⟩
          rw [h5]
          simp [color_targets, hg]

/-- A sequence of attachment calls returns when every requested internal format is in
the table of `get_pixel_info` and the framebuffer is not 0 pixels wide. -/
theorem Framebuffer.run_returns :
    ∀ (ops : List FramebufferOp) (self : Framebuffer) (dev : Device),
      (∀ internal_format target options,
        FramebufferOp.add_color_attachment internal_format target options ∈ ops →
        ∃ pixel_info, impl.get_pixel_info internal_format = .ok pixel_info) →
      self.m_width ≠ 0 →
      ∃ fb dev', self.run dev ops = .ok (fb, dev') := by
  intro ops
  induction ops with
  | nil => intro self dev _ _; exact ⟨self, dev, rfl⟩
  | cons op ops ih =>
    intro self dev hformat hwidth
    have hrest : ∀ internal_format target options,
        FramebufferOp.add_color_attachment internal_format target options ∈ ops →
        ∃ pixel_info, impl.get_pixel_info internal_format = .ok pixel_info :=
      fun f t o hm => hformat f t o (List.mem_cons_of_mem _ hm)
    cases op with
    | set_depth_attachment format =>
      simp only [Framebuffer.run, Framebuffer.apply]
      exact ih _ _ hrest hwidth
    | add_color_attachment internal_format target options =>
      obtain ⟨pixel_info, hp⟩ := hformat internal_format target options
        (List.mem_cons_self _ _)
      have hadd : ∃ fb1 dev1 calls,
          self.add_color_attachment dev internal_format target options =
            .ok (fb1, dev1, calls) ∧ fb1.m_width = self.m_width := by
        unfold Framebuffer.add_color_attachment
        by_cases hc : target = GL_TEXTURE_CUBE_MAP
        · obtain ⟨t, calls, hm⟩ := Texture.make_returns dev GL_TEXTURE_CUBE_MAP
            internal_format 1 1 self.m_width self.m_height 0 false
            (if self.m_depth_attachment ≠ 0 then
              options ||| Texture.Options.FixedSampleLocations |||
                Texture.Options.AutomaticAlignment
            else options) pixel_info hp (Or.inr (Or.inl rfl)) (Or.inl hwidth)
          simp only [hc, if_true, Texture.make_cubemap]
          simp only [gt_iff_lt, lt_self_iff_false, if_false] at hm ⊢
          rw [hm]
          exact ⟨_, _, _, rfl, rfl⟩
        · by_cases hs : self.m_sample_count > 1
          · obtain ⟨t, calls, hm⟩ := Texture.make_returns dev GL_TEXTURE_2D_MULTISAMPLE
              internal_format 1 self.m_sample_count self.m_width self.m_height 0 false
              (if self.m_depth_attachment ≠ 0 then
                options ||| Texture.Options.FixedSampleLocations |||
                  Texture.Options.AutomaticAlignment
              else options) pixel_info hp (Or.inr (Or.inr rfl)) (Or.inl hwidth)
            simp only [hc, if_false, Texture.make_2d, hs, if_true, gt_iff_lt,
              lt_self_iff_false]
            rw [hm]
            exact ⟨_, _, _, rfl, rfl⟩
          · obtain ⟨t, calls, hm⟩ := Texture.make_returns dev GL_TEXTURE_2D
              internal_format 1 self.m_sample_count self.m_width self.m_height 0 false
              (if self.m_depth_attachment ≠ 0 then
                options ||| Texture.Options.FixedSampleLocations |||
                  Texture.Options.AutomaticAlignment
              else options) pixel_info hp (Or.inl rfl) (Or.inl hwidth)
            simp only [hc, if_false, Texture.make_2d, hs, gt_iff_lt, lt_self_iff_false]
            rw [hm]
            exact ⟨_, _, _, rfl, rfl⟩
      obtain ⟨fb1, dev1, calls, hadd, hw⟩ := hadd
      simp only [Framebuffer.run, Framebuffer.apply, hadd]
      exact ih fb1 dev1 hrest (by rw [hw]; exact hwidth)

/-- C20 (amended). In every framebuffer state reached from
Framebuffer::make(width, height, sample_count) by a sequence of set_depth_attachment and
add_color_attachment calls, the framebuffer still has that width, height and sample
count, and the color attachments are, in call order, textures of that width and height
whose sample count is the framebuffer's for a 2D target and 1 for GL_TEXTURE_CUBE_MAP. -/
theorem framebuffer_attachments_share_size (dev dev' : Device)
    (width height sample_count : GLsizei) (ops : List FramebufferOp) (fb : Framebuffer)
    (h : (Framebuffer.make dev width height sample_count).1.run
      (Framebuffer.make dev width height sample_count).2 ops = .ok (fb, dev')) :
    fb.m_width = width ∧ fb.m_height = height ∧ fb.m_sample_count = sample_count ∧
    fb.m_color_attachments.map Texture.geometry =
      (color_targets ops).map (fun target =>
        (width, height, if target = GL_TEXTURE_CUBE_MAP then 1 else sample_count)) ∧
    (sample_count = 1 →
      ∀ t ∈ fb.m_color_attachments, t.geometry = (width, height, sample_count)) := by
  obtain ⟨_, h2, h3, h4, h5⟩ := Framebuffer.run_ok ops _ fb _ dev' h
  simp only [Framebuffer.make, impl.GLObject.make, List.map_nil, List.nil_append] at h2 h3 h4 h5
  refine ⟨h2, h3, h4, h5, fun hs t ht => ?_⟩
  have hm : t.geometry ∈ fb.m_color_attachments.map Texture.geometry :=
    List.mem_map_of_mem _ ht
  rw [h5] at hm
  obtain ⟨target, _, he⟩ := List.mem_map.mp hm
  rw [← he, hs]
  simp

theorem framebuffer_attachments_share_size_witness :
    (Framebuffer.make {} 4 4 4).1.run (Framebuffer.make {} 4 4 4).2 multisampled_attachments
      = .ok (multisampled_framebuffer, { generated := 4 }) ∧
    multisampled_framebuffer.m_color_attachments.map Texture.geometry
      = [(4, 4, 4), (4, 4, 1)] :=
  ⟨rfl, (framebuffer_attachments_share_size {} { generated := 4 } 4 4 4
    multisampled_attachments multisampled_framebuffer rfl).2.2.2.1⟩

/-- A returning `Mesh::set_vertex_attributes` has seen the same vertex count, the one
it leaves in `m_vertex_count`, for every attribute of the list. -/
theorem set_vertex_attributes_returns_only_equal_counts (dev dev' : Device)
    (self self' : Mesh) (attributes : List VertexAttribute)
    (h : self.set_vertex_attributes dev attributes = .ok (self', dev')) :
    ∀ attr ∈ attributes, attribute_vertex_count attr = self'.m_vertex_count := by
  obtain ⟨total_size, stride, self1, vd, buffer, -, hsizes, hloop, -, hself, -⟩ :=
    Mesh.set_vertex_attributes_steps _ _ _ _ _ h
  obtain ⟨hpos, -, -⟩ := Mesh.set_vertex_attributes_sizes_ok _ _ _ _ hsizes
  obtain ⟨-, -, hall⟩ := Mesh.set_vertex_attributes_loop_ok _ _ _ _ _ _ _ _ hloop hpos
  intro attr ha
  obtain ⟨ss, hss, hsize⟩ := hall attr ha
  have hvc : self'.m_vertex_count = self1.m_vertex_count := by rw [hself]
  have hp := hpos attr ha
  simp only [attribute_vertex_count, attribute_sizeof, scalar_sizeof, hss]
  rw [hvc, hsize]
  have hne : attr.m_channel_count * ss ≠ 0 := by
    intro h0
    rw [hsize, h0, Nat.mul_zero] at hp
    exact Nat.lt_irrefl 0 hp
  exact Nat.mul_div_cancel _ (Nat.pos_of_ne_zero hne)

/-- C14. The vertex counts are compared only after the copy loop has run.  On a fresh
mesh, the list of a three-vertex attribute followed by a one-vertex attribute of eight
bytes per vertex (stride 12, staging vector of 20 bytes) makes the second round of the
second copy loop read source bytes 8..16 of an 8-byte array and write bytes 16..24 of
the 20-byte staging vector: the call ends in undefined behaviour, not in an assertion
failure.  The list of a two-vertex and a one-vertex attribute of equal width is
rejected by the assertion. -/
theorem set_vertex_attributes_copies_before_comparing_counts :
    attribute_vertex_count (triangle_positions 10) = 3 ∧
    attribute_vertex_count one_wide_vertex = 1 ∧
    (Mesh.make {}).1.set_vertex_attributes ⟨1⟩ [triangle_positions 10, one_wide_vertex]
      = .error .undefined ∧
    (∀ vertex_data : List Byte, vertex_data.length = 20 →
      Mesh.memcpy vertex_data 16 one_wide_vertex.m_data 8 8 = .error .undefined) ∧
    attribute_vertex_count two_vertices = 2 ∧
    attribute_vertex_count one_vertex = 1 ∧
    (Mesh.make {}).1.set_vertex_attributes ⟨1⟩ [two_vertices, one_vertex]
      = .error .assertion := by
  refine ⟨by decide, by decide, rfl, ?_, by decide, by decide, rfl⟩
  intro vertex_data h
  unfold Mesh.memcpy
  rw [if_neg]
  rw [h]
  decide

theorem Mesh.memcpy_ok (vd src_data : List Byte) (dst src n : Nat)
    (hs : src + n ≤ src_data.length) (hd : dst + n ≤ vd.length) :
    ∃ vd1, Mesh.memcpy vd dst src_data src n = .ok vd1 ∧ vd1.length = vd.length ∧
      (∀ p, p < dst ∨ dst + n ≤ p → vd1[p]? = vd[p]?) ∧
      (∀ j, j < n → vd1[dst + j]? = src_data[src + j]?) := by
  refine ⟨vd.take dst ++ (src_data.drop src).take n ++ vd.drop (dst + n), ?_, ?_, ?_, ?_⟩
  · unfold Mesh.memcpy
    rw [if_pos ⟨hs, hd⟩]
  · simp only [List.length_append, List.length_take, List.length_drop]
    omega
  · intro p hp
    have l1 : (vd.take dst).length = dst := by
      simp only [List.length_take]; omega
    have l2 : ((src_data.drop src).take n).length = n := by
      simp only [List.length_take, List.length_drop]; omega
    rcases hp with hp | hp
    · rw [List.append_assoc, List.getElem?_append_left (by omega),
        List.getElem?_take_of_lt hp]
    · rw [List.getElem?_append_right (by simp only [List.length_append, l1, l2]; omega)]
      simp only [List.length_append, l1, l2, List.getElem?_drop]
      congr 1
      omega
  · intro j hj
    have l1 : (vd.take dst).length = dst := by
      simp only [List.length_take]; omega
    have l2 : ((src_data.drop src).take n).length = n := by
      simp only [List.length_take, List.length_drop]; omega
    rw [List.append_assoc, List.getElem?_append_right (by omega), l1,
      List.getElem?_append_left (by omega)]
    have e : dst + j - dst = j := by omega
    rw [e, List.getElem?_take_of_lt hj, List.getElem?_drop]

/-- The copy loop on a staging vector of `V` records of `stride` bytes, entered at
round `k` for a column `[o, o + n)` of the record: it returns after `V - k` rounds,
has copied chunk `v` of the source into that column of record `v` for every `v` from
`k` on, and has left every other byte as it was. -/
theorem Mesh.set_vertex_attribute_loop_rounds (n stride : Nat) (src_data : List Byte)
    (V o : Nat) (hn : 0 < n) (ho : o + n ≤ stride) (hsrc : V * n ≤ src_data.length) :
    ∀ (d k fuel : Nat) (vd : List Byte), k + d = V → d ≤ fuel → vd.length = V * stride →
      ∃ vd', Mesh.set_vertex_attribute_loop n stride src_data fuel vd (k * n)
          (o + k * stride) = .ok vd' ∧
        vd'.length = vd.length ∧
        (∀ v c, c < stride → (v < k ∨ c < o ∨ o + n ≤ c) →
          vd'[v * stride + c]? = vd[v * stride + c]?) ∧
        (∀ v j, k ≤ v → v < V → j < n →
          vd'[v * stride + (o + j)]? = src_data[v * n + j]?) := by
  intro d
  induction d with
  | zero =>
    intro k fuel vd hk _ hlen
    have hkV : k = V := by omega
    subst hkV
    have hdone : ¬ (o + k * stride < vd.length) := by omega
    refine ⟨vd, ?_, rfl, fun _ _ _ _ => rfl, fun v j h1 h2 _ => absurd h2 (by omega)⟩
    cases fuel with
    | zero => simp only [Mesh.set_vertex_attribute_loop, hdone, if_false]
    | succ f => simp only [Mesh.set_vertex_attribute_loop, hdone, if_false]
  | succ d ih =>
    intro k fuel vd hk hfuel hlen
    obtain ⟨f, rfl⟩ : ∃ f, fuel = f + 1 := ⟨fuel - 1, by omega⟩
    have hk1 : k + 1 ≤ V := by omega
    have hs1 : (k + 1) * stride ≤ V * stride := Nat.mul_le_mul_right _ hk1
    have hn1 : (k + 1) * n ≤ V * n := Nat.mul_le_mul_right _ hk1
    rw [Nat.succ_mul] at hs1 hn1
    have hin : o + k * stride < vd.length := by omega
    obtain ⟨vd1, hm, hl1, hframe1, hcopy1⟩ :=
      Mesh.memcpy_ok vd src_data (o + k * stride) (k * n) n (by omega) (by omega)
    obtain ⟨vd', hloop, hl', hframe', hcopy'⟩ :=
      ih (k + 1) f vd1 (by omega) (by omega) (by rw [hl1]; exact hlen)
    refine ⟨vd', ?_, by rw [hl', hl1], ?_, ?_⟩
    · simp only [Mesh.set_vertex_attribute_loop, hin, if_true, hm, bind, Except.bind]
      have e1 : k * n + n = (k + 1) * n := by rw [Nat.succ_mul]
      have e2 : o + k * stride + stride = o + (k + 1) * stride := by
        rw [Nat.succ_mul]; omega
      rw [e1, e2]
      exact hloop
    · intro v c hc hv
      have h1 : vd'[v * stride + c]? = vd1[v * stride + c]? := by
        apply hframe' v c hc
        rcases hv with hv | hv | hv
        · left; omega
        · right; left; exact hv
        · right; right; exact hv
      rw [h1]
      apply hframe1
      rcases Nat.lt_trichotomy v k with hvk | hvk | hvk
      · left
        have : (v + 1) * stride ≤ k * stride := Nat.mul_le_mul_right _ hvk
        rw [Nat.succ_mul] at this
        omega
      · subst hvk
        rcases hv with hv | hv | hv
        · omega
        · left; omega
        · right; omega
      · right
        have : (k + 1) * stride ≤ v * stride := Nat.mul_le_mul_right _ hvk
        rw [Nat.succ_mul] at this
        omega
    · intro v j hkv hvV hj
      rcases Nat.eq_or_lt_of_le hkv with hvk | hvk
      · subst hvk
        have h1 : vd'[k * stride + (o + j)]? = vd1[k * stride + (o + j)]? :=
          hframe' k (o + j) (by omega) (Or.inl (by omega))
        rw [h1]
        have e : k * stride + (o + j) = o + k * stride + j := by omega
        rw [e]
        exact hcopy1 j hj
      · exact hcopy' v j (by omega) hvV hj

theorem VertexAttribute.Describes.scalar {attr : VertexAttribute} {V : Nat}
    (h : attr.Describes V) :
    impl.get_scalar_sizeof attr.m_type = .ok 4 ∧
    attribute_sizeof attr = 4 * attr.m_channel_count ∧ 0 < attribute_sizeof attr := by
  obtain ⟨ht, hc, -, -⟩ := h
  have hss : impl.get_scalar_sizeof attr.m_type = .ok 4 := by
    rcases ht with h | h | h <;> rw [h] <;> rfl
  have hs : attribute_sizeof attr = 4 * attr.m_channel_count := by
    simp only [attribute_sizeof, scalar_sizeof, hss]
    exact Nat.mul_comm _ _
  refine ⟨hss, hs, ?_⟩
  rw [hs]
  exact Nat.mul_pos (by decide) hc

theorem Mesh.setup_attribute_pointer_supported (self : Mesh) (index : GLuint) (offset : Nat)
    (stride : GLsizei) (attr : VertexAttribute)
    (ht : attr.m_type = GL_FLOAT ∨ attr.m_type = GL_INT ∨ attr.m_type = GL_UNSIGNED_INT) :
    ∃ pointer : AttribPointer,
      self.setup_attribute_pointer index offset stride attr =
        .ok { self with vao_pointers := self.vao_pointers ++ [pointer] } ∧
      pointer.index = index ∧ pointer.stride = stride ∧ pointer.offset = offset ∧
      pointer.channel_count = attr.m_channel_count ∧ pointer.type = attr.m_type := by
  unfold Mesh.setup_attribute_pointer
  by_cases hf : attr.m_type = GL_FLOAT
  · rw [if_pos hf]
    exact ⟨_, rfl, rfl, rfl, rfl, rfl, rfl⟩
  · rw [if_neg hf]
    have hi : attr.m_type = GL_INT ∨ attr.m_type = GL_UNSIGNED_INT := by
      rcases ht with h | h | h
      · exact absurd h hf
      · exact Or.inl h
      · exact Or.inr h
    rw [if_pos hi]
    exact ⟨_, rfl, rfl, rfl, rfl, rfl, rfl⟩

/-- One attribute of the interleaving: on a staging vector of `V` records of `stride`
bytes, `Mesh::set_vertex_attribute` returns, has copied chunk `v` of the attribute into
the column at `offset` of record `v`, has left every other column as it was, and has
set one attribute pointer. -/
theorem Mesh.set_vertex_attribute_interleaves (self : Mesh) (vd : List Byte) (index : GLuint)
    (offset stride V : Nat) (attr : VertexAttribute)
    (hV : 0 < V) (hattr : attr.Describes V) (ho : offset + attribute_sizeof attr ≤ stride)
    (hlen : vd.length = V * stride)
    (hcount : self.m_vertex_count = 0 ∨ self.m_vertex_count = V) :
    ∃ (vd' : List Byte) (pointer : AttribPointer),
      self.set_vertex_attribute vd index offset stride attr =
        .ok ({ self with
                vao_pointers := self.vao_pointers ++ [pointer]
                m_vertex_count := V },
             vd', index + 1, offset + attribute_sizeof attr) ∧
      pointer.index = index ∧ pointer.stride = stride ∧ pointer.offset = offset ∧
      pointer.channel_count = attr.m_channel_count ∧ pointer.type = attr.m_type ∧
      vd'.length = vd.length ∧
      (∀ v c, c < stride → (c < offset ∨ offset + attribute_sizeof attr ≤ c) →
        vd'[v * stride + c]? = vd[v * stride + c]?) ∧
      (∀ v j, v < V → j < attribute_sizeof attr →
        vd'[v * stride + (offset + j)]? = attr.m_data[v * attribute_sizeof attr + j]?) := by
  obtain ⟨hss, hs, hpos⟩ := hattr.scalar
  obtain ⟨ht, hc, hsize, hdata⟩ := hattr
  obtain ⟨vd', hloop, hl, hframe, hcopy⟩ :=
    Mesh.set_vertex_attribute_loop_rounds (attribute_sizeof attr) stride attr.m_data V offset
      hpos ho (by rw [← hsize]; exact hdata) V 0 (attr.m_data.length + 1) vd (by omega)
      (by
        have : V ≤ V * attribute_sizeof attr := Nat.le_mul_of_pos_right _ hpos
        rw [← hsize] at this
        exact Nat.le_succ_of_le (Nat.le_trans this hdata))
      hlen
  simp only [Nat.zero_mul, Nat.add_zero] at hloop
  obtain ⟨pointer, hsetup, hp⟩ :=
    Mesh.setup_attribute_pointer_supported self index offset stride attr ht
  refine ⟨vd', pointer, ?_, hp.1, hp.2.1, hp.2.2.1, hp.2.2.2.1, hp.2.2.2.2, hl,
    fun v c hc hv => hframe v c hc (Or.inr hv),
    fun v j hv hj => hcopy v j (Nat.zero_le _) hv hj⟩
  have hne : 4 * attr.m_channel_count ≠ 0 := by rw [← hs]; exact Nat.pos_iff_ne_zero.mp hpos
  have hmod : attr.m_size % (4 * attr.m_channel_count) = 0 := by
    rw [hsize, hs]; exact Nat.mul_mod_left _ _
  have hdiv : attr.m_size / (4 * attr.m_channel_count) = V := by
    rw [hsize, hs]; exact Nat.mul_div_cancel _ (Nat.pos_of_ne_zero hne)
  rw [hs] at hloop
  unfold Mesh.set_vertex_attribute
  simp only [hss, bind, Except.bind, hne, if_false, hmod, PICOGL_ASSERT, beq_self_eq_true,
    if_true, hloop, hsetup, hdiv, hs]
  rcases hcount with h0 | h0
  · simp only [h0, if_true, pure, Except.pure]
  · have hV0 : V ≠ 0 := Nat.pos_iff_ne_zero.mp hV
    simp only [h0, hV0, if_false, beq_self_eq_true, if_true, pure, Except.pure]

theorem vertex_stride_cons (a : VertexAttribute) (rest : List VertexAttribute) :
    vertex_stride (a :: rest) = attribute_sizeof a + vertex_stride rest := by
  simp [vertex_stride]

theorem attribute_offset_zero (attrs : List VertexAttribute) : attribute_offset attrs 0 = 0 := by
  simp [attribute_offset, vertex_stride]

theorem attribute_offset_succ (a : VertexAttribute) (rest : List VertexAttribute) (i : Nat) :
    attribute_offset (a :: rest) (i + 1) = attribute_sizeof a + attribute_offset rest i := by
  simp [attribute_offset, vertex_stride]

/-- The attribute loop of the interleaving: on a staging vector of `V` records of
`stride` bytes it returns, has written every attribute into its column of every
record, has left the columns before `offset` as they were, and has set one attribute
pointer per attribute. -/
theorem Mesh.set_vertex_attributes_loop_interleaves (stride V : Nat) (hV : 0 < V) :
    ∀ (attrs : List VertexAttribute) (self : Mesh) (vd : List Byte) (index : GLuint)
      (offset : Nat),
      (∀ a ∈ attrs, a.Describes V) → offset + vertex_stride attrs ≤ stride →
      vd.length = V * stride → (self.m_vertex_count = 0 ∨ self.m_vertex_count = V) →
      ∃ (self' : Mesh) (vd' : List Byte) (added : List AttribPointer),
        Mesh.set_vertex_attributes_loop stride attrs self vd index offset = .ok (self', vd') ∧
        self' = { self with
          vao_pointers := self.vao_pointers ++ added
          m_vertex_count := if attrs = [] then self.m_vertex_count else V } ∧
        added.length = attrs.length ∧
        (∀ i a, attrs[i]? = some a → ∃ pointer, added[i]? = some pointer ∧
          pointer.index = index + i ∧ pointer.stride = stride ∧
          pointer.offset = offset + attribute_offset attrs i ∧
          pointer.channel_count = a.m_channel_count ∧ pointer.type = a.m_type) ∧
        vd'.length = vd.length ∧
        (∀ v c, c < offset → vd'[v * stride + c]? = vd[v * stride + c]?) ∧
        (∀ i a, attrs[i]? = some a → ∀ v j, v < V → j < attribute_sizeof a →
          vd'[v * stride + (offset + attribute_offset attrs i + j)]? =
            a.m_data[v * attribute_sizeof a + j]?) := by
  intro attrs
  induction attrs with
  | nil =>
    intro self vd index offset _ _ _ _
    refine ⟨self, vd, [], rfl, ?_, rfl, ?_, rfl, fun _ _ _ => rfl, ?_⟩
    · simp
    · intro i a h; simp at h
    · intro i a h; simp at h
  | cons a rest ih =>
    intro self vd index offset hdesc ho hlen hcount
    rw [vertex_stride_cons] at ho
    have ha := hdesc a (List.mem_cons_self _ _)
    obtain ⟨vd1, p, hcall, hp1, hp2, hp3, hp4, hp5, hl1, hframe1, hcopy1⟩ :=
      Mesh.set_vertex_attribute_interleaves self vd index offset stride V a hV ha
        (by omega) hlen hcount
    obtain ⟨self', vd', added, hloop, hself, hadded, hpointers, hl', hframe', hcopy'⟩ :=
      ih { self with vao_pointers := self.vao_pointers ++ [p], m_vertex_count := V } vd1
        (index + 1) (offset + attribute_sizeof a)
        (fun b hb => hdesc b (List.mem_cons_of_mem _ hb)) (by omega)
        (by rw [hl1]; exact hlen) (Or.inr rfl)
    refine ⟨self', vd', p :: added, ?_, ?_, ?_, ?_, ?_, ?_, ?_⟩
    · simp only [Mesh.set_vertex_attributes_loop, hcall, bind, Except.bind]
      exact hloop
    · rw [hself]
      simp
    · simp [hadded]
    · intro i b hb
      cases i with
      | zero =>
        simp only [List.getElem?_cons_zero, Option.some.injEq] at hb
        subst hb
        exact ⟨p, by simp, by simp [hp1], hp2, by simp [hp3, attribute_offset_zero], hp4,
          hp5⟩
      | succ i =>
        simp only [List.getElem?_cons_succ] at hb
        obtain ⟨q, hq, hq1, hq2, hq3, hq4, hq5⟩ := hpointers i b hb
        refine ⟨q, by simpa using hq, ?_, hq2, ?_, hq4, hq5⟩
        · rw [hq1, Nat.add_assoc, Nat.add_comm 1 i]
        · rw [hq3, attribute_offset_succ, Nat.add_assoc]
    · rw [hl', hl1]
    · intro v c hc
      rw [hframe' v c (by omega)]
      exact hframe1 v c (by omega) (Or.inl hc)
    · intro i b hb v j hv hj
      cases i with
      | zero =>
        simp only [List.getElem?_cons_zero, Option.some.injEq] at hb
        subst hb
        rw [attribute_offset_zero, Nat.add_zero,
          hframe' v (offset + j) (by omega)]
        exact hcopy1 v j hv hj
      | succ i =>
        simp only [List.getElem?_cons_succ] at hb
        have := hcopy' i b hb v j hv hj
        rw [attribute_offset_succ]
        have e : offset + (attribute_sizeof a + attribute_offset rest i) + j =
            offset + attribute_sizeof a + attribute_offset rest i + j := by omega
        rw [e]
        exact this

theorem Mesh.set_vertex_attributes_sizes_describes (V : Nat) (hV : 0 < V) :
    ∀ (attrs : List VertexAttribute) (total_size : GLsizeiptr) (attributes_sizeof : GLsizei),
      (∀ a ∈ attrs, a.Describes V) →
      Mesh.set_vertex_attributes_sizes attrs total_size attributes_sizeof =
        .ok (total_size + V * vertex_stride attrs, attributes_sizeof + vertex_stride attrs) := by
  intro attrs
  induction attrs with
  | nil =>
    intro t s _
    simp [Mesh.set_vertex_attributes_sizes, vertex_stride]
  | cons a rest ih =>
    intro t s hdesc
    have ha := hdesc a (List.mem_cons_self _ _)
    obtain ⟨hss, hs, hpos⟩ := ha.scalar
    obtain ⟨-, -, hsize, -⟩ := ha
    have hm : 0 < a.m_size := by rw [hsize]; exact Nat.mul_pos hV hpos
    have hm' : decide (a.m_size > 0) = true := by simpa using hm
    simp only [Mesh.set_vertex_attributes_sizes, hm', PICOGL_ASSERT, if_true, hss, bind,
      Except.bind]
    rw [ih _ _ (fun b hb => hdesc b (List.mem_cons_of_mem _ hb)), vertex_stride_cons, hsize,
      Nat.mul_add, hs, Nat.mul_comm a.m_channel_count 4, Nat.add_assoc, Nat.add_assoc]

theorem Buffer.upload_whole (self : Buffer Byte) (data : List Byte)
    (hdata : data.length = self.m_size) (hstore : self.store.length = self.m_size) :
    self.upload_data data 0 0 = .ok { self with store := data } := by
  obtain ⟨gl, target, size, store⟩ := self
  simp only at hdata hstore
  subst hdata
  unfold Buffer.upload_data
  have hd : List.drop data.length store = [] := List.drop_eq_nil_of_le (by rw [hstore])
  simp [hstore, hd]

/-- C12. `Mesh::set_vertex_attributes` interleaves correctly.  For a fresh mesh and a
non-empty attribute list whose attributes all describe the same vertex count V >= 1
(each of a type `setup_attribute_pointer` accepts, with a host array of at least
`m_size` bytes), with s_a = `m_channel_count` x scalar size, o_a the sum of s_b over the
attributes b before a, and stride the sum of all s_a: the call returns, the uploaded
vertex data has V x stride bytes, for every vertex v < V and every attribute a its
bytes [v*stride + o_a, v*stride + o_a + s_a) equal bytes [v*s_a, (v+1)*s_a) of the
source array of a, and a is bound at the attribute index equal to its position in the
list, with that stride and byte offset o_a. -/
theorem set_vertex_attributes_interleaves (dev : Device) (self : Mesh)
    (attributes : List VertexAttribute) (V : Nat)
    (hvao : self.m_vao ≠ 0) (hfresh : self.m_vertex_count = 0)
    (hpointers : self.vao_pointers = []) (hne : attributes ≠ []) (hV : 0 < V)
    (hdesc : ∀ a ∈ attributes, a.Describes V) :
    ∃ self' dev', self.set_vertex_attributes dev attributes = .ok (self', dev') ∧
      self'.m_vertex_count = V ∧
      self'.m_vertex_buffer.store.length = V * vertex_stride attributes ∧
      self'.vao_pointers.length = attributes.length ∧
      ∀ i a, attributes[i]? = some a →
        (∀ v, v < V →
          (self'.m_vertex_buffer.store.drop
              (v * vertex_stride attributes + attribute_offset attributes i)).take
              (attribute_sizeof a)
            = (a.m_data.drop (v * attribute_sizeof a)).take (attribute_sizeof a) ∧
          ((a.m_data.drop (v * attribute_sizeof a)).take (attribute_sizeof a)).length
            = attribute_sizeof a) ∧
        ∃ pointer, self'.vao_pointers[i]? = some pointer ∧ pointer.index = i ∧
          pointer.stride = vertex_stride attributes ∧
          pointer.offset = attribute_offset attributes i ∧
          pointer.channel_count = a.m_channel_count ∧ pointer.type = a.m_type := by
  have hsizes := Mesh.set_vertex_attributes_sizes_describes V hV attributes 0 0 hdesc
  simp only [Nat.zero_add] at hsizes
  obtain ⟨self1, vd', added, hloop, hself, hadded, hptr, hl, -, hcopy⟩ :=
    Mesh.set_vertex_attributes_loop_interleaves (vertex_stride attributes) V hV attributes
      { self with
        m_vertex_attributes := attributes
        m_vertex_buffer :=
          { m_gl := dev.generated + 1, m_target := GL_ARRAY_BUFFER,
            m_size := V * vertex_stride attributes,
            store := List.replicate (V * vertex_stride attributes) 0 } }
      (List.replicate (V * vertex_stride attributes) 0) 0 0 hdesc (by omega)
      (by simp) (Or.inl hfresh)
  simp only [List.length_replicate] at hl
  have hupload := Buffer.upload_whole self1.m_vertex_buffer vd'
    (by rw [hself]; exact hl) (by rw [hself]; simp)
  have hvao' : (self.m_vao != 0) = true := by simpa using hvao
  refine ⟨{ self1 with m_vertex_buffer := { self1.m_vertex_buffer with store := vd' } },
    { generated := dev.generated + 1 }, ?_, ?_, ?_, ?_, ?_⟩
  · simp only [Mesh.set_vertex_attributes, PICOGL_ASSERT, hvao', if_true, hsizes, bind,
      Except.bind, Buffer.make, impl.GLObject.make, hloop, hupload]
  · rw [hself]; simp [hne]
  · exact hl
  · rw [hself]; simp [hpointers, hadded]
  · intro i a hia
    have ha : a ∈ attributes := List.getElem?_mem hia
    obtain ⟨-, -, hpos⟩ := (hdesc a ha).scalar
    obtain ⟨-, -, hsize, hdata⟩ := hdesc a ha
    refine ⟨fun v hv => ⟨?_, ?_⟩, ?_⟩
    · apply List.ext_getElem?
      intro j
      simp only [List.getElem?_take, List.getElem?_drop]
      by_cases hj : j < attribute_sizeof a
      · simp only [hj, if_true]
        have := hcopy i a hia v j hv hj
        simp only [Nat.zero_add] at this
        rw [← this]
        congr 1
        omega
      · simp only [hj, if_false]
    · have h1 : (v + 1) * attribute_sizeof a ≤ V * attribute_sizeof a :=
        Nat.mul_le_mul_right _ hv
      rw [Nat.succ_mul, ← hsize] at h1
      have h2 : v * attribute_sizeof a + attribute_sizeof a ≤ a.m_data.length :=
        Nat.le_trans h1 hdata
      simp only [List.length_take, List.length_drop]
      omega
    · obtain ⟨pointer, hp, hp1, hp2, hp3, hp4, hp5⟩ := hptr i a hia
      refine ⟨pointer, ?_, by simpa using hp1, hp2, by simpa using hp3, hp4, hp5⟩
      rw [hself]
      simpa [hpointers] using hp

theorem set_vertex_attributes_interleaves_witness :
    ∃ self' dev',
      (Mesh.make {}).1.set_vertex_attributes ⟨1⟩ [triangle_positions 10, triangle_ids]
        = .ok (self', dev') ∧
      self'.m_vertex_count = 3 ∧
      self'.m_vertex_buffer.store.length = 3 * vertex_stride [triangle_positions 10, triangle_ids] ∧
      self'.vao_pointers.length = 2 ∧
      ∀ i a, [triangle_positions 10, triangle_ids][i]? = some a →
        (∀ v, v < 3 →
          (self'.m_vertex_buffer.store.drop
              (v * vertex_stride [triangle_positions 10, triangle_ids] +
                attribute_offset [triangle_positions 10, triangle_ids] i)).take
              (attribute_sizeof a)
            = (a.m_data.drop (v * attribute_sizeof a)).take (attribute_sizeof a) ∧
          ((a.m_data.drop (v * attribute_sizeof a)).take (attribute_sizeof a)).length
            = attribute_sizeof a) ∧
        ∃ pointer, self'.vao_pointers[i]? = some pointer ∧ pointer.index = i ∧
          pointer.stride = vertex_stride [triangle_positions 10, triangle_ids] ∧
          pointer.offset = attribute_offset [triangle_positions 10, triangle_ids] i ∧
          pointer.channel_count = a.m_channel_count ∧ pointer.type = a.m_type :=
  set_vertex_attributes_interleaves ⟨1⟩ (Mesh.make {}).1
    [triangle_positions 10, triangle_ids] 3 (by decide) rfl rfl (by simp) (by decide)
    (by
      intro a ha
      simp only [List.mem_cons, List.mem_singleton, List.not_mem_nil, or_false] at ha
      rcases ha with rfl | rfl
      · exact ⟨Or.inl rfl, by decide, by decide, by decide⟩
      · exact ⟨Or.inr (Or.inl rfl), by decide, by decide, by decide⟩)

/-- C26. `Mesh::combine` cannot be nested: a mesh that `combine` returns has an empty
attribute list (the function never writes `m_vertex_attributes` of its result), so its
`get_vertex_sizeof()` is 0 and every `combine` whose first source is that mesh ends in
the assertion `attribute_count > 0`. -/
theorem combine_result_has_no_attribute_layout (dev dev' : Device) (meshes : List Mesh)
    (dst : Mesh) (h : Mesh.combine dev meshes = .ok (dst, dev')) :
    dst.m_vertex_attributes = [] ∧
    dst.get_vertex_sizeof = .ok 0 ∧
    ∀ (dev2 : Device) (rest : List Mesh),
      Mesh.combine dev2 (dst :: rest) = .error .assertion := by
  obtain ⟨front, rest, p, i, stride, pointers, -, -, -, -, -, -, hdst, -⟩ :=
    Mesh.combine_ok dev dev' meshes dst h
  have hattr : dst.m_vertex_attributes = [] := by rw [hdst]; rfl
  refine ⟨hattr, ?_, ?_⟩
  · simp only [Mesh.get_vertex_sizeof, hattr, Mesh.attributes_sizeof_loop]
  · intro dev2 rest2
    simp [Mesh.combine, PICOGL_ASSERT, hattr, bind, Except.bind]

theorem combine_result_has_no_attribute_layout_witness :
    Mesh.combine ⟨6⟩ two_built_triangles = .ok (two_built_triangles_combined, ⟨10⟩) ∧
    (∃ r, Mesh.combine ⟨13⟩ three_triangles = .ok r) ∧
    (triangle 0 GL_TRIANGLES 10 [1]).get_vertex_sizeof = .ok 4 ∧
    two_built_triangles_combined.get_vertex_sizeof = .ok 0 ∧
    Mesh.combine ⟨13⟩ nested_triangles = .error .assertion :=
  ⟨rfl, ⟨_, rfl⟩, rfl,
    (combine_result_has_no_attribute_layout ⟨6⟩ ⟨10⟩ two_built_triangles
      two_built_triangles_combined rfl).2.1,
    (combine_result_has_no_attribute_layout ⟨6⟩ ⟨10⟩ two_built_triangles
      two_built_triangles_combined rfl).2.2 ⟨13⟩ [third_triangle]⟩

theorem and_generate_mipmap_ne_zero (opts : Nat) :
    opts &&& Texture.Options.GenerateMipmap ≠ 0 ↔
      (opts.testBit 2 = true ∨ opts.testBit 3 = true) := by
  have h12 : Texture.Options.GenerateMipmap = 12 := by decide
  rw [h12]
  constructor
  · intro h
    by_contra hn
    simp only [not_or, Bool.not_eq_true] at hn
    apply h
    apply Nat.eq_of_testBit_eq
    intro i
    rw [Nat.testBit_and, Nat.zero_testBit]
    rcases Nat.lt_or_ge i 4 with hi | hi
    · have : i = 0 ∨ i = 1 ∨ i = 2 ∨ i = 3 := by omega
      rcases this with rfl | rfl | rfl | rfl
      · have : Nat.testBit 12 0 = false := by decide
        rw [this, Bool.and_false]
      · have : Nat.testBit 12 1 = false := by decide
        rw [this, Bool.and_false]
      · rw [hn.1, Bool.false_and]
      · rw [hn.2, Bool.false_and]
    · have : Nat.testBit 12 i = false := by
        apply Nat.testBit_lt_two_pow
        calc 12 < 2 ^ 4 := by decide
          _ ≤ 2 ^ i := Nat.pow_le_pow_right (by decide) hi
      rw [this, Bool.and_false]
  · intro h h0
    rcases h with h | h
    · have : (opts &&& 12).testBit 2 = true := by
        rw [Nat.testBit_and, h]; decide
      rw [h0, Nat.zero_testBit] at this
      exact absurd this (by decide)
    · have : (opts &&& 12).testBit 3 = true := by
        rw [Nat.testBit_and, h]; decide
      rw [h0, Nat.zero_testBit] at this
      exact absurd this (by decide)

theorem Texture.make_storage_no_mipmap (self : Texture) (data : Bool)
    (storage : List TextureCall) (h : self.make_storage data = .ok storage) (target : GLenum) :
    TextureCall.glGenerateMipmap target ∉ storage := by
  unfold Texture.make_storage at h
  simp only at h
  split at h
  · split at h <;>
      (obtain ⟨n, -, h⟩ := bind_eq_ok.mp h
       simp only [Pure.pure, Except.pure, Except.ok.injEq] at h
       subst h
       cases data <;> simp)
  split at h
  · split at h <;>
      (obtain ⟨n, -, h⟩ := bind_eq_ok.mp h
       simp only [Pure.pure, Except.pure, Except.ok.injEq] at h
       subst h
       simp)
  split at h
  · split at h <;>
      (obtain ⟨n, -, h⟩ := bind_eq_ok.mp h
       simp only [Pure.pure, Except.pure, Except.ok.injEq] at h
       subst h
       cases data <;> simp)
  split at h
  · simp only [Pure.pure, Except.pure, Except.ok.injEq] at h
    subst h
    simp
  split at h
  · split at h <;>
      (obtain ⟨n, -, h⟩ := bind_eq_ok.mp h
       simp only [Pure.pure, Except.pure, Except.ok.injEq] at h
       subst h
       simp)
  split at h
  · simp only [Pure.pure, Except.pure, Except.ok.injEq] at h
    subst h
    simp
  split at h
  · split at h <;>
      (obtain ⟨n, -, h⟩ := bind_eq_ok.mp h
       simp only [Pure.pure, Except.pure, Except.ok.injEq] at h
       subst h
       cases data <;> simp)
  · simp [PICOGL_ASSERT, Bind.bind, Except.bind] at h

theorem make_2d_allocate_alone :
    Texture.make_2d {} GL_RGBA8 4 4 1 1 false Texture.Options.AllocateMipmap =
      .ok (allocated_texture, ⟨1⟩,
        [.glBindTexture GL_TEXTURE_2D 1,
         .glTexStorage2D GL_TEXTURE_2D 3 GL_RGBA8 4 4,
         .glGenerateMipmap GL_TEXTURE_2D]) := by
  have hlod : Texture.lod_count 4 = .ok 3 := by simp [Texture.lod_count, Nat.log2]
  have hp : impl.get_pixel_info GL_RGBA8 =
      .ok { m_internal_format := GL_RGBA8, m_format := GL_RGBA, m_type := GL_UNSIGNED_BYTE,
            m_channel_count := 4, m_scalar_sizeof := 1 } := rfl
  have hs : Texture.make_storage allocated_texture false =
      .ok [.glTexStorage2D GL_TEXTURE_2D 3 GL_RGBA8 4 4] := by
    have h2 : allocated_texture.lod_count_2D = .ok 3 := hlod
    have ht1 : ¬ allocated_texture.m_target = GL_TEXTURE_1D := by decide
    have ht2 : ¬ allocated_texture.m_target = GL_TEXTURE_1D_ARRAY := by decide
    have ht3 : allocated_texture.m_target = GL_TEXTURE_2D ∨
        allocated_texture.m_target = GL_TEXTURE_CUBE_MAP := Or.inl rfl
    have ha : decide (allocated_texture.m_opts &&& Texture.Options.AllocateMipmap ≠ 0) = true := by
      decide
    unfold Texture.make_storage
    simp only [ht1, ht2, ht3, ha, if_true, if_false, h2, Bind.bind, Except.bind, Pure.pure,
      Except.pure, Bool.false_eq_true]
    rfl
  unfold Texture.make_2d Texture.make
  simp only [hp, Bind.bind, Except.bind, impl.GLObject.make]
  have e : ({ m_gl := ({} : Device).generated + 1,
              m_target := (if 1 > 1 then (if 1 > 1 then GL_TEXTURE_2D_MULTISAMPLE_ARRAY
                else GL_TEXTURE_2D_MULTISAMPLE)
              else (if 1 > 1 then GL_TEXTURE_2D_ARRAY else GL_TEXTURE_2D)),
              m_internal_format := GL_RGBA8, m_format := GL_RGBA, m_type := GL_UNSIGNED_BYTE,
              m_array_size := 1, m_sample_count := 1, m_width := 4, m_height := 4,
              m_depth := 0, m_opts := Texture.Options.AllocateMipmap } : Texture)
      = allocated_texture := rfl
  simp only [e, hs]
  rfl

/-- C30. Mip generation does not follow the generate bit (1 << 3) only: a returning
texture creation issues the generate-mipmap command, for its own target, if and only if
the options have the `AllocateMipmap` bit (1 << 2) or the generate bit (1 << 3), because
the test is `opts & GenerateMipmap` with `GenerateMipmap = AllocateMipmap | 1 << 3`.  So
options equal to `AllocateMipmap` alone issue the command. -/
theorem make_generates_mipmap_on_allocate_bit (dev dev' : Device)
    (target internal_format : GLenum)
    (array_size sample_count width height depth : GLsizei) (data : Bool)
    (opts : Texture.Options) (t : Texture) (calls : List TextureCall)
    (h : Texture.make dev target internal_format array_size sample_count width height depth
      data opts = .ok (t, dev', calls)) :
    (TextureCall.glGenerateMipmap target ∈ calls ↔
      (opts.testBit 2 = true ∨ opts.testBit 3 = true)) ∧
    (∀ other, TextureCall.glGenerateMipmap other ∈ calls → other = target) ∧
    (opts = Texture.Options.AllocateMipmap → TextureCall.glGenerateMipmap target ∈ calls) := by
  have hiff := and_generate_mipmap_ne_zero opts
  unfold Texture.make at h
  obtain ⟨pixel_info, -, h⟩ := bind_eq_ok.mp h
  simp only [impl.GLObject.make] at h
  obtain ⟨storage, hs, h⟩ := bind_eq_ok.mp h
  simp only [Pure.pure, Except.pure, Except.ok.injEq, Prod.mk.injEq] at h
  obtain ⟨-, -, hcalls⟩ := h
  have hno := fun other => Texture.make_storage_no_mipmap _ data storage hs other
  have hmem : ∀ other, TextureCall.glGenerateMipmap other ∈ calls ↔
      (opts &&& Texture.Options.GenerateMipmap ≠ 0 ∧ other = target) := by
    intro other
    rw [← hcalls]
    simp only [List.mem_append, List.mem_singleton, Texture.bind, false_or, hno other,
      reduceCtorEq]
    constructor
    · rintro (hm | hm)
      · split at hm <;> simp at hm
      · split at hm
        · rename_i hg
          simp only [List.mem_singleton, TextureCall.glGenerateMipmap.injEq] at hm
          exact ⟨hg, hm⟩
        · simp at hm
    · rintro ⟨hg, rfl⟩
      right
      rw [if_pos hg]
      exact List.mem_singleton_self _
  have h1 : TextureCall.glGenerateMipmap target ∈ calls ↔
      (opts.testBit 2 = true ∨ opts.testBit 3 = true) := by
    rw [hmem target, hiff]
    exact ⟨fun hh => hh.1, fun hh => ⟨hh, rfl⟩⟩
  refine ⟨h1, fun other ho => ((hmem other).mp ho).2, fun ho => h1.mpr ?_⟩
  rw [ho]
  exact Or.inl (by decide)

theorem make_generates_mipmap_on_allocate_bit_witness :
    Texture.Options.AllocateMipmap &&& (1 <<< 3) = 0 ∧
    Texture.make_2d {} GL_RGBA8 4 4 1 1 false Texture.Options.AllocateMipmap =
      .ok (allocated_texture, ⟨1⟩,
        [.glBindTexture GL_TEXTURE_2D 1,
         .glTexStorage2D GL_TEXTURE_2D 3 GL_RGBA8 4 4,
         .glGenerateMipmap GL_TEXTURE_2D]) ∧
    TextureCall.glGenerateMipmap GL_TEXTURE_2D ∈
      [TextureCall.glBindTexture GL_TEXTURE_2D 1,
       .glTexStorage2D GL_TEXTURE_2D 3 GL_RGBA8 4 4,
       .glGenerateMipmap GL_TEXTURE_2D] :=
  ⟨by decide, make_2d_allocate_alone,
    (make_generates_mipmap_on_allocate_bit {} ⟨1⟩ GL_TEXTURE_2D GL_RGBA8 1 1 4 4 0 false
      Texture.Options.AllocateMipmap allocated_texture _ make_2d_allocate_alone).2.2 rfl⟩

theorem make_2d_no_mipmap_option :
    (Texture.make_2d {} GL_RGBA8 4 4 1 1 false 0).map (fun r => r.2.2) =
      .ok [.glBindTexture GL_TEXTURE_2D 1, .glTexStorage2D GL_TEXTURE_2D 1 GL_RGBA8 4 4] := by
  rfl

theorem attribute_offset_add_le :
    ∀ (attrs : List VertexAttribute) (i : Nat) (a : VertexAttribute), attrs[i]? = some a →
      attribute_offset attrs i + attribute_sizeof a ≤ vertex_stride attrs := by
  intro attrs
  induction attrs with
  | nil => intro i a h; simp at h
  | cons b rest ih =>
    intro i a h
    rw [vertex_stride_cons]
    cases i with
    | zero =>
      simp only [List.getElem?_cons_zero, Option.some.injEq] at h
      subst h
      rw [attribute_offset_zero]
      omega
    | succ i =>
      simp only [List.getElem?_cons_succ] at h
      rw [attribute_offset_succ]
      have := ih i a h
      omega

/-- On a mesh with a vertex array object and no vertex count yet, a non-empty list of
attributes that all describe `V >= 1` vertices is accepted: `set_vertex_attributes`
returns. -/
theorem Mesh.set_vertex_attributes_returns (dev : Device) (self : Mesh)
    (attributes : List VertexAttribute) (V : Nat)
    (hvao : self.m_vao ≠ 0) (hfresh : self.m_vertex_count = 0) (hV : 0 < V)
    (hdesc : ∀ a ∈ attributes, a.Describes V) :
    ∃ self' dev', self.set_vertex_attributes dev attributes = .ok (self', dev') := by
  have hsizes := Mesh.set_vertex_attributes_sizes_describes V hV attributes 0 0 hdesc
  simp only [Nat.zero_add] at hsizes
  obtain ⟨self1, vd', added, hloop, hself, -, -, hl, -, -⟩ :=
    Mesh.set_vertex_attributes_loop_interleaves (vertex_stride attributes) V hV attributes
      { self with
        m_vertex_attributes := attributes
        m_vertex_buffer :=
          { m_gl := dev.generated + 1, m_target := GL_ARRAY_BUFFER,
            m_size := V * vertex_stride attributes,
            store := List.replicate (V * vertex_stride attributes) 0 } }
      (List.replicate (V * vertex_stride attributes) 0) 0 0 hdesc (by omega)
      (by simp) (Or.inl hfresh)
  simp only [List.length_replicate] at hl
  have hupload := Buffer.upload_whole self1.m_vertex_buffer vd'
    (by rw [hself]; exact hl) (by rw [hself]; simp)
  have hvao' : (self.m_vao != 0) = true := by simpa using hvao
  refine ⟨{ self1 with m_vertex_buffer := { self1.m_vertex_buffer with store := vd' } },
    { generated := dev.generated + 1 }, ?_⟩
  simp only [Mesh.set_vertex_attributes, PICOGL_ASSERT, hvao', if_true, hsizes, Bind.bind,
    Except.bind, Buffer.make, impl.GLObject.make, hloop, hupload]

theorem chunk_copies_in_bounds (V offset stride n : Nat) (ho : offset + n ≤ stride) :
    (chunk_copies V offset stride n).length = V ∧
    ∀ copy ∈ chunk_copies V offset stride n,
      copy.n = n ∧ copy.src + copy.n ≤ V * n ∧ copy.dst + copy.n ≤ V * stride := by
  refine ⟨by simp [chunk_copies], ?_⟩
  intro copy hc
  simp only [chunk_copies, List.mem_map, List.mem_range] at hc
  obtain ⟨v, hv, rfl⟩ := hc
  have h1 : (v + 1) * n ≤ V * n := Nat.mul_le_mul_right _ hv
  have h2 : (v + 1) * stride ≤ V * stride := Nat.mul_le_mul_right _ hv
  rw [Nat.succ_mul] at h1 h2
  refine ⟨rfl, ?_, ?_⟩
  · show v * n + n ≤ V * n
    exact h1
  · show offset + v * stride + n ≤ V * stride
    omega

/-- The traced copy loop computes the staging vector of `set_vertex_attribute_loop`, on
every input. -/
theorem Mesh.set_vertex_attribute_loop_traced_erase (n stride : Nat) (src_data : List Byte) :
    ∀ (fuel : Nat) (vd : List Byte) (src dst : Nat),
      (Mesh.set_vertex_attribute_loop_traced n stride src_data fuel vd src dst).map Prod.fst =
        Mesh.set_vertex_attribute_loop n stride src_data fuel vd src dst := by
  intro fuel
  induction fuel with
  | zero =>
    intro vd src dst
    simp only [Mesh.set_vertex_attribute_loop_traced, Mesh.set_vertex_attribute_loop]
    split <;> rfl
  | succ f ih =>
    intro vd src dst
    simp only [Mesh.set_vertex_attribute_loop_traced, Mesh.set_vertex_attribute_loop]
    split
    · cases Mesh.memcpy vd dst src_data src n with
      | error e => rfl
      | ok vd1 =>
        simp only [bind, Except.bind]
        rw [← ih vd1 (src + n) (dst + stride)]
        cases Mesh.set_vertex_attribute_loop_traced n stride src_data f vd1 (src + n)
          (dst + stride) <;> rfl
    · rfl

/-- The traced `set_vertex_attribute` returns what `set_vertex_attribute` returns, on
every input. -/
theorem Mesh.set_vertex_attribute_traced_erase (self : Mesh) (vd : List Byte) (index : GLuint)
    (offset stride : Nat) (attr : VertexAttribute) :
    (self.set_vertex_attribute_traced vd index offset stride attr).map Prod.fst =
      self.set_vertex_attribute vd index offset stride attr := by
  unfold Mesh.set_vertex_attribute_traced Mesh.set_vertex_attribute
  cases impl.get_scalar_sizeof attr.m_type with
  | error e => rfl
  | ok s =>
    simp only [bind, Except.bind]
    split
    · rfl
    · rw [← Mesh.set_vertex_attribute_loop_traced_erase]
      cases (attr.m_size % (s * attr.m_channel_count) == 0) with
      | false => rfl
      | true =>
        simp only [PICOGL_ASSERT, if_true]
        cases Mesh.set_vertex_attribute_loop_traced (s * attr.m_channel_count) stride
          attr.m_data (attr.m_data.length + 1) vd 0 offset with
        | error e => rfl
        | ok looped =>
          simp only [Except.map]
          cases self.setup_attribute_pointer index offset stride attr with
          | error e => rfl
          | ok self1 =>
            by_cases h0 : self1.m_vertex_count = 0
            · simp only [h0, if_true, pure, Except.pure]
            · simp only [h0, if_false, pure, Except.pure]
              cases (attr.m_size / (s * attr.m_channel_count) == self1.m_vertex_count) <;> rfl

/-- The traced attribute loop returns what `set_vertex_attributes_loop` returns, on
every input. -/
theorem Mesh.set_vertex_attributes_loop_traced_erase (stride : Nat) :
    ∀ (attrs : List VertexAttribute) (self : Mesh) (vd : List Byte) (index : GLuint)
      (offset : Nat),
      (Mesh.set_vertex_attributes_loop_traced stride attrs self vd index offset).map Prod.fst =
        Mesh.set_vertex_attributes_loop stride attrs self vd index offset := by
  intro attrs
  induction attrs with
  | nil => intro self vd index offset; rfl
  | cons a rest ih =>
    intro self vd index offset
    simp only [Mesh.set_vertex_attributes_loop_traced, Mesh.set_vertex_attributes_loop]
    rw [← Mesh.set_vertex_attribute_traced_erase]
    cases self.set_vertex_attribute_traced vd index offset stride a with
    | error e => rfl
    | ok first =>
      simp only [bind, Except.bind, Except.map]
      rw [← ih first.1.1 first.1.2.1 first.1.2.2.1 first.1.2.2.2]
      cases Mesh.set_vertex_attributes_loop_traced stride rest first.1.1 first.1.2.1
        first.1.2.2.1 first.1.2.2.2 <;> rfl

/-- The traced `set_vertex_attributes` returns what `set_vertex_attributes` returns, on
every input. -/
theorem Mesh.set_vertex_attributes_traced_erase (dev : Device) (self : Mesh)
    (attributes : List VertexAttribute) :
    (self.set_vertex_attributes_traced dev attributes).map Prod.fst =
      self.set_vertex_attributes dev attributes := by
  unfold Mesh.set_vertex_attributes_traced Mesh.set_vertex_attributes
  cases (self.m_vao != 0) with
  | false => rfl
  | true =>
    simp only [PICOGL_ASSERT, if_true, bind, Except.bind]
    cases Mesh.set_vertex_attributes_sizes attributes 0 0 with
    | error e => rfl
    | ok sizes =>
      simp only
      rw [← Mesh.set_vertex_attributes_loop_traced_erase]
      cases Mesh.set_vertex_attributes_loop_traced sizes.2 attributes
        { self with
          m_vertex_attributes := attributes
          m_vertex_buffer := (Buffer.make dev GL_ARRAY_BUFFER sizes.1).1 }
        (List.replicate sizes.1 0) 0 0 with
      | error e => rfl
      | ok looped =>
        simp only [Except.map]
        cases looped.1.1.m_vertex_buffer.upload_data looped.1.2 0 0 <;> rfl
/-- The traced copy loop on a staging vector of `V` records of `stride` bytes, entered
at round `k` for a column `[o, o + n)`: it returns after `V - k` rounds, and round `v`
has called `memcpy(vertex_data + o + v * stride, src_data + v * n, n)`. -/
theorem Mesh.set_vertex_attribute_loop_traced_rounds (n stride : Nat) (src_data : List Byte)
    (V o : Nat) (hn : 0 < n) (ho : o + n ≤ stride) (hsrc : V * n ≤ src_data.length) :
    ∀ (d k fuel : Nat) (vd : List Byte), k + d = V → d ≤ fuel → vd.length = V * stride →
      ∃ vd', Mesh.set_vertex_attribute_loop_traced n stride src_data fuel vd (k * n)
          (o + k * stride) =
        .ok (vd', (List.range' k d).map fun v =>
          { dst := o + v * stride, src := v * n, n := n }) ∧
        vd'.length = vd.length := by
  intro d
  induction d with
  | zero =>
    intro k fuel vd hk _ hlen
    have hkV : k = V := by omega
    subst hkV
    have hdone : ¬ (o + k * stride < vd.length) := by omega
    refine ⟨vd, ?_, rfl⟩
    cases fuel with
    | zero => simp [Mesh.set_vertex_attribute_loop_traced, hdone]
    | succ f => simp [Mesh.set_vertex_attribute_loop_traced, hdone]
  | succ d ih =>
    intro k fuel vd hk hfuel hlen
    obtain ⟨f, rfl⟩ : ∃ f, fuel = f + 1 := ⟨fuel - 1, by omega⟩
    have hk1 : k + 1 ≤ V := by omega
    have hs1 : (k + 1) * stride ≤ V * stride := Nat.mul_le_mul_right _ hk1
    have hn1 : (k + 1) * n ≤ V * n := Nat.mul_le_mul_right _ hk1
    rw [Nat.succ_mul] at hs1 hn1
    have hin : o + k * stride < vd.length := by omega
    obtain ⟨vd1, hm, hl1, -, -⟩ :=
      Mesh.memcpy_ok vd src_data (o + k * stride) (k * n) n (by omega) (by omega)
    obtain ⟨vd', hloop, hl'⟩ :=
      ih (k + 1) f vd1 (by omega) (by omega) (by rw [hl1]; exact hlen)
    have e1 : k * n + n = (k + 1) * n := by rw [Nat.succ_mul]
    have e2 : o + k * stride + stride = o + (k + 1) * stride := by
      rw [Nat.succ_mul]; omega
    refine ⟨vd', ?_, by rw [hl', hl1]⟩
    simp only [Mesh.set_vertex_attribute_loop_traced, hin, if_true, hm, bind, Except.bind]
    rw [e1, e2, hloop]
    simp [List.range'_succ]

/-- One attribute of the interleaving, traced: on a staging vector of `V` records of
`stride` bytes, `set_vertex_attribute` returns after the `V` calls `chunk_copies` lists. -/
theorem Mesh.set_vertex_attribute_traced_describes (self : Mesh) (vd : List Byte)
    (index : GLuint) (offset stride V : Nat) (attr : VertexAttribute)
    (hV : 0 < V) (hattr : attr.Describes V) (ho : offset + attribute_sizeof attr ≤ stride)
    (hlen : vd.length = V * stride)
    (hcount : self.m_vertex_count = 0 ∨ self.m_vertex_count = V) :
    ∃ (vd' : List Byte) (pointer : AttribPointer),
      self.set_vertex_attribute_traced vd index offset stride attr =
        .ok (({ self with
                vao_pointers := self.vao_pointers ++ [pointer]
                m_vertex_count := V },
             vd', index + 1, offset + attribute_sizeof attr),
             chunk_copies V offset stride (attribute_sizeof attr)) ∧
      vd'.length = vd.length := by
  obtain ⟨hss, hs, hpos⟩ := hattr.scalar
  obtain ⟨ht, hc, hsize, hdata⟩ := hattr
  obtain ⟨vd', hloop, hl⟩ :=
    Mesh.set_vertex_attribute_loop_traced_rounds (attribute_sizeof attr) stride attr.m_data V
      offset hpos ho (by rw [← hsize]; exact hdata) V 0 (attr.m_data.length + 1) vd (by omega)
      (by
        have : V ≤ V * attribute_sizeof attr := Nat.le_mul_of_pos_right _ hpos
        rw [← hsize] at this
        exact Nat.le_succ_of_le (Nat.le_trans this hdata))
      hlen
  simp only [Nat.zero_mul, Nat.add_zero] at hloop
  obtain ⟨pointer, hsetup, -⟩ :=
    Mesh.setup_attribute_pointer_supported self index offset stride attr ht
  refine ⟨vd', pointer, ?_, hl⟩
  have hne : 4 * attr.m_channel_count ≠ 0 := by rw [← hs]; exact Nat.pos_iff_ne_zero.mp hpos
  have hmod : attr.m_size % (4 * attr.m_channel_count) = 0 := by
    rw [hsize, hs]; exact Nat.mul_mod_left _ _
  have hdiv : attr.m_size / (4 * attr.m_channel_count) = V := by
    rw [hsize, hs]; exact Nat.mul_div_cancel _ (Nat.pos_of_ne_zero hne)
  rw [hs] at hloop
  unfold Mesh.set_vertex_attribute_traced
  simp only [hss, bind, Except.bind, hne, if_false, hmod, PICOGL_ASSERT, beq_self_eq_true,
    if_true, hloop, hsetup, hdiv, hs, chunk_copies, List.range_eq_range']
  rcases hcount with h0 | h0
  · simp only [h0, if_true, pure, Except.pure]
  · have hV0 : V ≠ 0 := Nat.pos_iff_ne_zero.mp hV
    simp only [h0, hV0, if_false, beq_self_eq_true, if_true, pure, Except.pure]

/-- The attribute loop of the interleaving, traced: it returns, keeps the vertex buffer
of the mesh and the size of the staging vector, and the calls of attribute `i` are the
`V` calls `chunk_copies` lists for its column. -/
theorem Mesh.set_vertex_attributes_loop_traced_describes (stride V : Nat) (hV : 0 < V) :
    ∀ (attrs : List VertexAttribute) (self : Mesh) (vd : List Byte) (index : GLuint)
      (offset : Nat),
      (∀ a ∈ attrs, a.Describes V) → offset + vertex_stride attrs ≤ stride →
      vd.length = V * stride → (self.m_vertex_count = 0 ∨ self.m_vertex_count = V) →
      ∃ (self' : Mesh) (vd' : List Byte) (copies : List (List Copy)),
        Mesh.set_vertex_attributes_loop_traced stride attrs self vd index offset =
          .ok ((self', vd'), copies) ∧
        self'.m_vertex_buffer = self.m_vertex_buffer ∧
        vd'.length = vd.length ∧
        copies.length = attrs.length ∧
        ∀ i a, attrs[i]? = some a →
          copies[i]? = some (chunk_copies V (offset + attribute_offset attrs i) stride
            (attribute_sizeof a)) := by
  intro attrs
  induction attrs with
  | nil =>
    intro self vd index offset _ _ _ _
    refine ⟨self, vd, [], rfl, rfl, rfl, rfl, ?_⟩
    intro i a h; simp at h
  | cons a rest ih =>
    intro self vd index offset hdesc ho hlen hcount
    rw [vertex_stride_cons] at ho
    have ha := hdesc a (List.mem_cons_self _ _)
    obtain ⟨vd1, p, hcall, hl1⟩ :=
      Mesh.set_vertex_attribute_traced_describes self vd index offset stride V a hV ha
        (by omega) hlen hcount
    obtain ⟨self', vd', copies, hloop, hbuf, hl', hcl, hcopies⟩ :=
      ih { self with vao_pointers := self.vao_pointers ++ [p], m_vertex_count := V } vd1
        (index + 1) (offset + attribute_sizeof a)
        (fun b hb => hdesc b (List.mem_cons_of_mem _ hb)) (by omega)
        (by rw [hl1]; exact hlen) (Or.inr rfl)
    refine ⟨self', vd', chunk_copies V offset stride (attribute_sizeof a) :: copies, ?_, hbuf,
      by rw [hl', hl1], by simp [hcl], ?_⟩
    · simp only [Mesh.set_vertex_attributes_loop_traced, hcall, bind, Except.bind, hloop]
    · intro i b hb
      cases i with
      | zero =>
        simp only [List.getElem?_cons_zero, Option.some.injEq] at hb
        subst hb
        simp [attribute_offset_zero]
      | succ i =>
        simp only [List.getElem?_cons_succ] at hb ⊢
        rw [hcopies i b hb, attribute_offset_succ, Nat.add_assoc]

/-- C27. Interleaving stays in bounds.  For a fresh mesh and an attribute list whose
attributes all describe the same vertex count V >= 1 (each of a type
`setup_attribute_pointer` accepts, with a host array of at least `m_size` bytes):
`set_vertex_attributes` returns, so no copy leaves an array; running the same code with
its `memcpy` calls recorded returns the same mesh and device, and the staging vector it
uploads, which has stride x V bytes and is the store of the vertex buffer; the copy
loop of each attribute a makes exactly V `memcpy` calls and then stops, call v copying
the s_a bytes from position v x s_a of the source array to position o_a + v x stride of
the staging vector; every call reads inside the `m_size` bytes of the source array and
writes inside the staging vector. -/
theorem interleaving_stays_in_bounds (dev : Device) (self : Mesh)
    (attributes : List VertexAttribute) (V : Nat)
    (hvao : self.m_vao ≠ 0) (hfresh : self.m_vertex_count = 0)
    (hV : 0 < V) (hdesc : ∀ a ∈ attributes, a.Describes V) :
    ∃ (self' : Mesh) (dev' : Device) (copies : List (List Copy)) (staging : List Byte),
      self.set_vertex_attributes dev attributes = .ok (self', dev') ∧
      self.set_vertex_attributes_traced dev attributes =
        .ok ((self', dev'), copies, staging) ∧
      self'.m_vertex_buffer.store = staging ∧
      staging.length = V * vertex_stride attributes ∧
      copies.length = attributes.length ∧
      ∀ i a, attributes[i]? = some a →
        ∃ calls, copies[i]? = some calls ∧ calls.length = V ∧
          ∀ v, v < V →
            calls[v]? = some
              { dst := attribute_offset attributes i + v * vertex_stride attributes
                src := v * attribute_sizeof a
                n := attribute_sizeof a } ∧
            v * attribute_sizeof a + attribute_sizeof a ≤ a.m_size ∧
            a.m_size ≤ a.m_data.length ∧
            attribute_offset attributes i + v * vertex_stride attributes +
              attribute_sizeof a ≤ staging.length := by
  have hsizes := Mesh.set_vertex_attributes_sizes_describes V hV attributes 0 0 hdesc
  simp only [Nat.zero_add] at hsizes
  obtain ⟨self1, vd', copies, hloop, hbuf, hl, hcl, hcopies⟩ :=
    Mesh.set_vertex_attributes_loop_traced_describes (vertex_stride attributes) V hV attributes
      { self with
        m_vertex_attributes := attributes
        m_vertex_buffer :=
          { m_gl := dev.generated + 1, m_target := GL_ARRAY_BUFFER,
            m_size := V * vertex_stride attributes,
            store := List.replicate (V * vertex_stride attributes) 0 } }
      (List.replicate (V * vertex_stride attributes) 0) 0 0 hdesc (by omega)
      (by simp) (Or.inl hfresh)
  simp only [List.length_replicate] at hl
  have hupload := Buffer.upload_whole self1.m_vertex_buffer vd'
    (by rw [hbuf]; exact hl) (by rw [hbuf]; simp)
  have hvao' : (self.m_vao != 0) = true := by simpa using hvao
  have htraced : self.set_vertex_attributes_traced dev attributes =
      .ok (({ self1 with m_vertex_buffer := { self1.m_vertex_buffer with store := vd' } },
        { generated := dev.generated + 1 }), copies, vd') := by
    simp only [Mesh.set_vertex_attributes_traced, PICOGL_ASSERT, hvao', if_true, hsizes,
      Bind.bind, Except.bind, Buffer.make, impl.GLObject.make, hloop, hupload]
  have hplain := Mesh.set_vertex_attributes_traced_erase dev self attributes
  rw [htraced] at hplain
  refine ⟨_, _, copies, vd', hplain.symm, htraced, rfl, hl, hcl, ?_⟩
  intro i a hia
  have ha : a ∈ attributes := List.getElem?_mem hia
  obtain ⟨-, -, hsize, hdata⟩ := hdesc a ha
  have ho := attribute_offset_add_le attributes i a hia
  have hc := hcopies i a hia
  simp only [Nat.zero_add] at hc
  obtain ⟨hlen, hin⟩ := chunk_copies_in_bounds V (attribute_offset attributes i)
    (vertex_stride attributes) (attribute_sizeof a) ho
  refine ⟨_, hc, hlen, ?_⟩
  intro v hv
  have hget : (chunk_copies V (attribute_offset attributes i) (vertex_stride attributes)
      (attribute_sizeof a))[v]? = some
        { dst := attribute_offset attributes i + v * vertex_stride attributes
          src := v * attribute_sizeof a
          n := attribute_sizeof a } := by
    simp [chunk_copies, List.getElem?_range hv]
  obtain ⟨-, h1, h2⟩ := hin _ (List.getElem?_mem hget)
  exact ⟨hget, by rw [hsize]; exact h1, hdata, by rw [hl]; exact h2⟩

theorem interleaving_stays_in_bounds_witness :
    (Mesh.set_vertex_attributes_traced ⟨1⟩ (Mesh.make {}).1
      [triangle_positions 10, triangle_ids]).map (fun r => (r.2.1, r.2.2.length)) =
      .ok ([[⟨0, 0, 4⟩, ⟨8, 4, 4⟩, ⟨16, 8, 4⟩], [⟨4, 0, 4⟩, ⟨12, 4, 4⟩, ⟨20, 8, 4⟩]], 24) ∧
    ∃ self' dev' copies staging,
      (Mesh.make {}).1.set_vertex_attributes ⟨1⟩ [triangle_positions 10, triangle_ids] =
        .ok (self', dev') ∧
      (Mesh.make {}).1.set_vertex_attributes_traced ⟨1⟩ [triangle_positions 10, triangle_ids] =
        .ok ((self', dev'), copies, staging) ∧
      self'.m_vertex_buffer.store = staging ∧
      staging.length = 3 * vertex_stride [triangle_positions 10, triangle_ids] ∧
      copies.length = 2 := by
  refine ⟨rfl, ?_⟩
  obtain ⟨self', dev', copies, staging, h1, h2, h3, h4, h5, -⟩ :=
    interleaving_stays_in_bounds ⟨1⟩ (Mesh.make {}).1
      [triangle_positions 10, triangle_ids] 3 (by decide) rfl (by decide)
      (by
        intro a ha
        simp only [List.mem_cons, List.mem_singleton, List.not_mem_nil, or_false] at ha
        rcases ha with rfl | rfl
        · exact ⟨Or.inl rfl, by decide, by decide, by decide⟩
        · exact ⟨Or.inr (Or.inl rfl), by decide, by decide, by decide⟩)
  exact ⟨self', dev', copies, staging, h1, h2, h3, h4, h5⟩

theorem attached_textures_append (a b : List FramebufferCall) :
    ∀ bound, attached_textures (a ++ b) bound =
      attached_textures a bound ++ attached_textures b (draw_framebuffer_after a bound) := by
  induction a with
  | nil => intro bound; rfl
  | cons c rest ih =>
    intro bound
    cases c with
    | glFramebufferTexture2D target attachment textarget texture level =>
      simp only [List.cons_append, attached_textures, draw_framebuffer_after]
      split
      · rw [List.cons_append]
        congr 1
        exact ih bound
      · exact ih bound
    | glBindFramebuffer target framebuffer =>
      simp only [List.cons_append, attached_textures, draw_framebuffer_after]
      exact ih _
    | _ =>
      simp only [List.cons_append, attached_textures, draw_framebuffer_after]
      exact ih bound

theorem draw_framebuffer_after_append (a b : List FramebufferCall) :
    ∀ bound, draw_framebuffer_after (a ++ b) bound =
      draw_framebuffer_after b (draw_framebuffer_after a bound) := by
  induction a with
  | nil => intro bound; rfl
  | cons c rest ih =>
    intro bound
    cases c with
    | glBindFramebuffer target framebuffer =>
      simp only [List.cons_append, draw_framebuffer_after]
      exact ih _
    | _ =>
      simp only [List.cons_append, draw_framebuffer_after]
      exact ih bound

theorem attached_textures_texture_calls (calls : List TextureCall) (bound : GLuint) :
    attached_textures (calls.map FramebufferCall.texture) bound = [] ∧
    draw_framebuffer_after (calls.map FramebufferCall.texture) bound = bound := by
  induction calls with
  | nil => exact ⟨rfl, rfl⟩
  | cons c rest ih =>
    simp only [List.map_cons, attached_textures, draw_framebuffer_after]
    exact ih

theorem attached_textures_destroy (ids : List GLuint) (bound : GLuint) :
    attached_textures (ids.map FramebufferCall.glDeleteRenderbuffers) bound = [] ∧
    draw_framebuffer_after (ids.map FramebufferCall.glDeleteRenderbuffers) bound = bound := by
  induction ids with
  | nil => exact ⟨rfl, rfl⟩
  | cons c rest ih =>
    simp only [List.map_cons, attached_textures, draw_framebuffer_after]
    exact ih

theorem Framebuffer.add_color_attachment_calls {self fb : Framebuffer} {dev dev' : Device}
    {internal_format target : GLenum} {options : Texture.Options}
    {calls : List FramebufferCall}
    (h : self.add_color_attachment dev internal_format target options = .ok (fb, dev', calls)) :
    ∃ (t : Texture) (texture_calls : List TextureCall),
      fb = { self with
        m_attachments := self.m_attachments ++
          [GL_COLOR_ATTACHMENT0 + self.m_color_attachments.length],
        m_color_attachments := self.m_color_attachments ++ [t] } ∧
      calls = texture_calls.map FramebufferCall.texture ++
        [.glBindFramebuffer GL_FRAMEBUFFER self.m_gl,
         .glFramebufferTexture2D GL_FRAMEBUFFER
           (GL_COLOR_ATTACHMENT0 + self.m_color_attachments.length) t.m_target t.m_gl 0] := by
  unfold Framebuffer.add_color_attachment at h
  simp only at h
  split at h
  · exact absurd h (by simp)
  · rename_i t dev1 calls1 hmade
    simp only [Except.ok.injEq, Prod.mk.injEq] at h
    obtain ⟨rfl, -, rfl⟩ := h
    exact ⟨t, calls1, rfl, rfl⟩

theorem Framebuffer.set_depth_attachment_calls (self : Framebuffer) (dev : Device)
    (format : GLenum) (bound : GLuint) :
    (self.set_depth_attachment dev format).1.m_gl = self.m_gl ∧
    (self.set_depth_attachment dev format).1.m_color_attachments = self.m_color_attachments ∧
    (self.set_depth_attachment dev format).1.m_attachments = self.m_attachments ∧
    attached_textures (self.set_depth_attachment dev format).2.2 bound = [] := by
  refine ⟨rfl, rfl, rfl, ?_⟩
  simp only [Framebuffer.set_depth_attachment]
  rw [attached_textures_append, (attached_textures_destroy _ _).1, List.nil_append]
  simp only [attached_textures, Framebuffer.bind]
  split <;> simp only [attached_textures]

theorem Framebuffer.run_calls_ok :
    ∀ (ops : List FramebufferOp) (self fb : Framebuffer) (dev dev' : Device)
      (calls : List FramebufferCall) (bound : GLuint),
      self.run_calls dev ops = .ok (fb, dev', calls) →
      fb.m_gl = self.m_gl ∧
      ∃ added : List Texture,
        fb.m_color_attachments = self.m_color_attachments ++ added ∧
        added.length = (color_targets ops).length ∧
        fb.m_attachments = self.m_attachments ++
          (List.range' self.m_color_attachments.length added.length).map
            (fun k => GL_COLOR_ATTACHMENT0 + k) ∧
        attached_textures calls bound =
          (added.enumFrom self.m_color_attachments.length).map
            (fun p => (self.m_gl, GL_COLOR_ATTACHMENT0 + p.1, p.2.m_gl)) := by
  intro ops
  induction ops with
  | nil =>
    intro self fb dev dev' calls bound h
    simp only [Framebuffer.run_calls, Except.ok.injEq, Prod.mk.injEq] at h
    obtain ⟨rfl, -, rfl⟩ := h
    exact ⟨rfl, [], by simp, rfl, by simp, rfl⟩
  | cons op ops ih =>
    intro self fb dev dev' calls bound h
    simp only [Framebuffer.run_calls] at h
    split at h
    · exact absurd h (by simp)
    · rename_i self1 dev1 calls1 happly
      split at h
      · exact absurd h (by simp)
      · rename_i fb2 dev2 rest hrest
        simp only [Except.ok.injEq, Prod.mk.injEq] at h
        obtain ⟨rfl, -, rfl⟩ := h
        cases op with
        | set_depth_attachment format =>
          simp only [Framebuffer.apply_calls, Except.ok.injEq] at happly
          obtain ⟨h1, h2, h3, h4⟩ :=
            Framebuffer.set_depth_attachment_calls self dev format bound
          rw [happly] at h1 h2 h3 h4
          simp only at h1 h2 h3 h4
          obtain ⟨hgl, added, ha1, ha2, ha3, ha4⟩ :=
            ih self1 fb2 dev1 dev2 rest (draw_framebuffer_after calls1 bound) hrest
          refine ⟨by rw [hgl, h1], added, by rw [ha1, h2], by simpa [color_targets] using ha2,
            by rw [ha3, h3, h2], ?_⟩
          rw [attached_textures_append, h4, List.nil_append, ha4, h2, h1]
        | add_color_attachment internal_format target options =>
          simp only [Framebuffer.apply_calls] at happly
          obtain ⟨t, tcalls, rfl, rfl⟩ := Framebuffer.add_color_attachment_calls happly
          obtain ⟨hgl, added, ha1, ha2, ha3, ha4⟩ :=
            ih _ fb2 dev1 dev2 rest
              (draw_framebuffer_after
                (tcalls.map FramebufferCall.texture ++
                  [.glBindFramebuffer GL_FRAMEBUFFER self.m_gl,
                   .glFramebufferTexture2D GL_FRAMEBUFFER
                     (GL_COLOR_ATTACHMENT0 + self.m_color_attachments.length) t.m_target
                     t.m_gl 0]) bound) hrest
          simp only [List.length_append, List.length_singleton] at ha3 ha4
          refine ⟨hgl, t :: added, ?_, ?_, ?_, ?_⟩
          · rw [ha1]; simp
          · simp [color_targets, ha2]
          · rw [ha3]
            simp [List.range'_succ]
          · rw [attached_textures_append, attached_textures_append,
              (attached_textures_texture_calls _ _).1, (attached_textures_texture_calls _ _).2,
              ha4]
            simp [attached_textures, GL_FRAMEBUFFER, List.enumFrom]

theorem Framebuffer.run_calls_run :
    ∀ (ops : List FramebufferOp) (self fb : Framebuffer) (dev dev' : Device)
      (calls : List FramebufferCall),
      self.run_calls dev ops = .ok (fb, dev', calls) → self.run dev ops = .ok (fb, dev') := by
  intro ops
  induction ops with
  | nil =>
    intro self fb dev dev' calls h
    simp only [Framebuffer.run_calls, Except.ok.injEq, Prod.mk.injEq] at h
    obtain ⟨rfl, rfl, -⟩ := h
    rfl
  | cons op ops ih =>
    intro self fb dev dev' calls h
    simp only [Framebuffer.run_calls] at h
    split at h
    · exact absurd h (by simp)
    · rename_i self1 dev1 calls1 happly
      split at h
      · exact absurd h (by simp)
      · rename_i fb2 dev2 rest hrest
        simp only [Except.ok.injEq, Prod.mk.injEq] at h
        obtain ⟨rfl, rfl, -⟩ := h
        have := ih self1 fb2 dev1 dev2 rest hrest
        cases op with
        | set_depth_attachment format =>
          simp only [Framebuffer.apply_calls, Except.ok.injEq] at happly
          simp only [Framebuffer.run, Framebuffer.apply, happly]
          exact this
        | add_color_attachment internal_format target options =>
          simp only [Framebuffer.apply_calls] at happly
          simp only [Framebuffer.run, Framebuffer.apply, happly]
          exact this

/-- C21. Color attachments are indexed sequentially and bound in append order.  After
a sequence of returning `set_depth_attachment` and `add_color_attachment` calls on a
framebuffer created by `Framebuffer::make`, n of them `add_color_attachment`: the
color-texture list and the attachment list have length n, the attachment list is
`GL_COLOR_ATTACHMENT0`, ..., `GL_COLOR_ATTACHMENT0 + n - 1`, the device has attached
texture k (from 0) to attachment point `GL_COLOR_ATTACHMENT0 + k` of this framebuffer,
`bind_draw()` selects exactly that list in that order when n >= 1 (with n = 0 its
assertion fails), and `bind_draw(a)` selects exactly `a` for every
`a >= GL_COLOR_ATTACHMENT0` (its assertion fails below). -/
theorem color_attachments_are_sequential (dev dev' : Device)
    (width height sample_count : GLsizei) (ops : List FramebufferOp) (fb : Framebuffer)
    (calls : List FramebufferCall) (bound : GLuint)
    (h : (Framebuffer.make dev width height sample_count).1.run_calls
      (Framebuffer.make dev width height sample_count).2 ops = .ok (fb, dev', calls)) :
    fb.m_color_attachments.length = (color_targets ops).length ∧
    fb.m_attachments.length = (color_targets ops).length ∧
    fb.m_attachments =
      (List.range (color_targets ops).length).map (fun k => GL_COLOR_ATTACHMENT0 + k) ∧
    attached_textures calls bound =
      fb.m_color_attachments.enum.map
        (fun p => (fb.m_gl, GL_COLOR_ATTACHMENT0 + p.1, p.2.m_gl)) ∧
    (0 < (color_targets ops).length →
      fb.bind_draw =
        .ok [.framebuffer (.glBindFramebuffer GL_DRAW_FRAMEBUFFER fb.m_gl),
             .glDrawBuffers (color_targets ops).length
               ((List.range (color_targets ops).length).map
                 (fun k => GL_COLOR_ATTACHMENT0 + k))]) ∧
    ((color_targets ops).length = 0 → fb.bind_draw = .error .assertion) ∧
    (∀ a, GL_COLOR_ATTACHMENT0 ≤ a →
      fb.bind_draw_attachment a =
        .ok [.framebuffer (.glBindFramebuffer GL_DRAW_FRAMEBUFFER fb.m_gl),
             .glDrawBuffers 1 [a]]) ∧
    (∀ a, a < GL_COLOR_ATTACHMENT0 → fb.bind_draw_attachment a = .error .assertion) := by
  obtain ⟨hgl, added, ha1, ha2, ha3, ha4⟩ :=
    Framebuffer.run_calls_ok ops _ fb _ dev' calls bound h
  have hmake : Framebuffer.make dev width height sample_count =
      ({ m_gl := dev.generated + 1, m_sample_count := sample_count, m_width := width,
         m_height := height }, { generated := dev.generated + 1 }) := rfl
  rw [hmake] at hgl ha1 ha3 ha4
  simp only [List.nil_append, List.length_nil] at hgl ha1 ha3 ha4
  have hne : fb.m_gl ≠ 0 := by rw [hgl]; exact Nat.succ_ne_zero _
  have hatt : fb.m_attachments =
      (List.range (color_targets ops).length).map (fun k => GL_COLOR_ATTACHMENT0 + k) := by
    rw [ha3, ha2, List.range_eq_range']
  refine ⟨by rw [ha1, ha2], by rw [hatt]; simp, hatt, ?_, ?_, ?_, ?_, ?_⟩
  · rw [ha4, ha1, hgl]
    rfl
  · intro hn
    have hempty : fb.m_attachments.isEmpty = false := by
      cases hm : fb.m_attachments with
      | nil =>
        have := congrArg List.length hatt
        rw [hm] at this
        simp at this
        omega
      | cons a rest => rfl
    simp only [Framebuffer.bind_draw, hne, ne_eq, not_false_eq_true, if_true, hempty,
      PICOGL_ASSERT, Bool.not_false, Bind.bind, Except.bind, Pure.pure, Except.pure,
      Framebuffer.bind]
    rw [hatt]
    simp
  · intro hn
    have hm : fb.m_attachments = [] := by rw [hatt, hn]; rfl
    simp [Framebuffer.bind_draw, hne, hm, PICOGL_ASSERT, Bind.bind, Except.bind]
  · intro a ha
    have hd : decide (a ≥ GL_COLOR_ATTACHMENT0) = true := by simpa using ha
    simp only [Framebuffer.bind_draw_attachment, hd, PICOGL_ASSERT, if_true, Bind.bind,
      Except.bind, Pure.pure, Except.pure, hne, ne_eq, not_false_eq_true, Framebuffer.bind]
  · intro a ha
    have hd : decide (a ≥ GL_COLOR_ATTACHMENT0) = false := by
      simp only [ge_iff_le, decide_eq_false_iff_not, Nat.not_le]
      exact ha
    simp [Framebuffer.bind_draw_attachment, hd, PICOGL_ASSERT, Bind.bind, Except.bind]

theorem color_attachments_are_sequential_witness :
    ∃ fb dev' calls,
      (Framebuffer.make {} 4 4 1).1.run_calls (Framebuffer.make {} 4 4 1).2
        two_color_attachments = .ok (fb, dev', calls) ∧
      fb.m_attachments = [GL_COLOR_ATTACHMENT0, GL_COLOR_ATTACHMENT0 + 1] ∧
      attached_textures calls 0 =
        [(1, GL_COLOR_ATTACHMENT0, 2), (1, GL_COLOR_ATTACHMENT0 + 1, 3)] ∧
      fb.bind_draw =
        .ok [.framebuffer (.glBindFramebuffer GL_DRAW_FRAMEBUFFER 1),
             .glDrawBuffers 2 [GL_COLOR_ATTACHMENT0, GL_COLOR_ATTACHMENT0 + 1]] :=
  ⟨_, _, _, rfl, rfl, rfl,
    (color_attachments_are_sequential {} _ 4 4 1 two_color_attachments _ _ 0 rfl).2.2.2.2.1
      (by decide)⟩

theorem blits_append (a b : List FramebufferUseCall) :
    blits (a ++ b) = blits a ++ blits b := by
  induction a with
  | nil => rfl
  | cons c rest ih =>
    cases c with
    | glBlitFramebuffer srcX0 srcY0 srcX1 srcY1 dstX0 dstY0 dstX1 dstY1 mask filter =>
      simp only [List.cons_append, blits]
      congr 1
    | _ =>
      simp only [List.cons_append, blits]
      exact ih

theorem Framebuffer.blits_bind_draw_attachment (self : Framebuffer) (attachment : GLenum)
    (calls : List FramebufferUseCall) (h : self.bind_draw_attachment attachment = .ok calls) :
    blits calls = [] := by
  unfold Framebuffer.bind_draw_attachment at h
  obtain ⟨_, -, h⟩ := bind_eq_ok.mp h
  simp only [Pure.pure, Except.pure, Except.ok.injEq] at h
  subst h
  split <;> simp [blits]

/-- C28. The explicit-rectangle `Framebuffer::blit_to` passes its size arguments where
the device expects the second corner: a returning call issues one blit, which reads the
rectangle with corners (from_x, from_y) and (from_w, from_h) and writes the rectangle
with corners (to_x, to_y) and (to_w, to_h).  These are the position-and-size rectangles
with corners (from_x + from_w, from_y + from_h) and (to_x + to_w, to_y + to_h) exactly
when all four positions are 0, as in the short overload, which blits the whole source
framebuffer onto the whole destination framebuffer. -/
theorem blit_to_passes_sizes_as_corners (self to_framebuffer : Framebuffer)
    (to_x to_y to_w to_h : Int) (attachment_to filter : GLenum)
    (from_x from_y from_w from_h : Int) (attachment_from : GLenum)
    (calls : List FramebufferUseCall)
    (h : self.blit_to_rect to_framebuffer to_x to_y to_w to_h attachment_to filter
      from_x from_y from_w from_h attachment_from = .ok calls) :
    blits calls =
      [({ x0 := from_x, y0 := from_y, x1 := from_w, y1 := from_h },
        { x0 := to_x, y0 := to_y, x1 := to_w, y1 := to_h })] ∧
    (blits calls =
        [(Rectangle.at_size from_x from_y from_w from_h,
          Rectangle.at_size to_x to_y to_w to_h)] ↔
      (from_x = 0 ∧ from_y = 0) ∧ (to_x = 0 ∧ to_y = 0)) ∧
    (∀ whole, self.blit_to to_framebuffer attachment_to filter attachment_from = .ok whole →
      blits whole =
        [(Rectangle.at_size 0 0 self.m_width self.m_height,
          Rectangle.at_size 0 0 to_framebuffer.m_width to_framebuffer.m_height)]) := by
  have key : ∀ (tx ty tw th fx fy fw fh : Int) (cs : List FramebufferUseCall),
      self.blit_to_rect to_framebuffer tx ty tw th attachment_to filter fx fy fw fh
        attachment_from = .ok cs →
      blits cs = [({ x0 := fx, y0 := fy, x1 := fw, y1 := fh },
                   { x0 := tx, y0 := ty, x1 := tw, y1 := th })] := by
    intro tx ty tw th fx fy fw fh cs hc
    unfold Framebuffer.blit_to_rect at hc
    obtain ⟨draw, hdraw, hc⟩ := bind_eq_ok.mp hc
    simp only [Pure.pure, Except.pure, Except.ok.injEq] at hc
    subst hc
    rw [blits_append, blits_append, Framebuffer.blits_bind_draw_attachment _ _ _ hdraw]
    simp [Framebuffer.bind_read, blits]
  have h1 := key _ _ _ _ _ _ _ _ calls h
  refine ⟨h1, ?_, ?_⟩
  · rw [h1]
    simp only [Rectangle.at_size, List.cons.injEq, Prod.mk.injEq, Rectangle.mk.injEq,
      true_and, and_true]
    constructor
    · rintro ⟨⟨hx, hy⟩, ⟨hx', hy'⟩⟩
      exact ⟨⟨by omega, by omega⟩, ⟨by omega, by omega⟩⟩
    · rintro ⟨⟨hx, hy⟩, ⟨hx', hy'⟩⟩
      exact ⟨⟨by omega, by omega⟩, ⟨by omega, by omega⟩⟩
  · intro whole hw
    rw [key _ _ _ _ _ _ _ _ whole hw]
    simp [Rectangle.at_size]

theorem blit_to_passes_sizes_as_corners_witness :
    (Framebuffer.get_default 8 8 1).blit_to_rect (Framebuffer.get_default 8 8 1) 0 0 2 2
        GL_COLOR_ATTACHMENT0 GL_NEAREST 4 4 2 2 GL_COLOR_ATTACHMENT0 =
      .ok [.framebuffer (.glBindFramebuffer GL_READ_FRAMEBUFFER 0),
           .glReadBuffer GL_COLOR_ATTACHMENT0,
           .framebuffer (.glBindFramebuffer GL_DRAW_FRAMEBUFFER 0),
           .glBlitFramebuffer 4 4 2 2 0 0 2 2 GL_COLOR_BUFFER_BIT GL_NEAREST] ∧
    Rectangle.at_size 4 4 2 2 = { x0 := 4, y0 := 4, x1 := 6, y1 := 6 } ∧
    blits [.framebuffer (.glBindFramebuffer GL_READ_FRAMEBUFFER 0),
           .glReadBuffer GL_COLOR_ATTACHMENT0,
           .framebuffer (.glBindFramebuffer GL_DRAW_FRAMEBUFFER 0),
           .glBlitFramebuffer 4 4 2 2 0 0 2 2 GL_COLOR_BUFFER_BIT GL_NEAREST] =
      [({ x0 := 4, y0 := 4, x1 := 2, y1 := 2 }, { x0 := 0, y0 := 0, x1 := 2, y1 := 2 })] :=
  ⟨rfl, rfl,
    (blit_to_passes_sizes_as_corners (Framebuffer.get_default 8 8 1)
      (Framebuffer.get_default 8 8 1) 0 0 2 2 GL_COLOR_ATTACHMENT0 GL_NEAREST 4 4 2 2
      GL_COLOR_ATTACHMENT0 _ rfl).1⟩

/-- C29. `Texture::bind_as_sampler` binds before it selects the unit: for a slot that
names a texture unit of the device, the call returns, afterwards the active unit is
`slot`, and the texture is bound to its target on the unit that was active BEFORE the
call; every other binding is as before.  So the texture is bound on unit `slot` only
if `slot` was already the active unit or the texture was already bound there.  A slot
below `GL_TEXTURE0` is rejected by the assertion. -/
theorem bind_as_sampler_binds_on_previous_unit (self : Texture) (units : TextureUnits)
    (slot : GLuint) :
    (GL_TEXTURE0 ≤ slot → slot < GL_TEXTURE0 + units.max_units →
      ∃ calls, self.bind_as_sampler slot = .ok calls ∧
        calls = [.texture (.glBindTexture self.m_target self.m_gl), .glActiveTexture slot] ∧
        (units.run calls).active = slot ∧
        (units.run calls).bound units.active self.m_target = self.m_gl ∧
        (∀ unit target, ¬ (unit = units.active ∧ target = self.m_target) →
          (units.run calls).bound unit target = units.bound unit target) ∧
        ((units.run calls).bound slot self.m_target = self.m_gl ↔
          (slot = units.active ∨ units.bound slot self.m_target = self.m_gl))) ∧
    (slot < GL_TEXTURE0 → self.bind_as_sampler slot = .error .assertion) := by
  constructor
  · intro h1 h2
    have hd : decide (slot ≥ GL_TEXTURE0) = true := by simpa using h1
    refine ⟨_, ?_, rfl, ?_, ?_, ?_, ?_⟩
    · simp only [Texture.bind_as_sampler, hd, PICOGL_ASSERT, if_true, Bind.bind, Except.bind,
        Pure.pure, Except.pure, Texture.bind]
    · simp [TextureUnits.run, TextureUnits.apply, TextureUnits.glActiveTexture,
        TextureUnits.glBindTexture, h1, h2]
    · simp [TextureUnits.run, TextureUnits.apply, TextureUnits.glActiveTexture,
        TextureUnits.glBindTexture, h1, h2]
    · intro unit target hne
      simp [TextureUnits.run, TextureUnits.apply, TextureUnits.glActiveTexture,
        TextureUnits.glBindTexture, h1, h2, hne]
    · simp only [TextureUnits.run, TextureUnits.apply, TextureUnits.glActiveTexture,
        TextureUnits.glBindTexture, h1, h2, List.foldl_cons, List.foldl_nil, and_self, if_true,
        and_true]
      by_cases hs : slot = units.active
      · simp [hs]
      · simp [hs]
  · intro h
    have hd : decide (slot ≥ GL_TEXTURE0) = false := by
      simp only [ge_iff_le, decide_eq_false_iff_not, Nat.not_le]
      exact h
    simp [Texture.bind_as_sampler, hd, PICOGL_ASSERT, Bind.bind, Except.bind]

/-- A failing input of `bind_as_sampler`: with unit `GL_TEXTURE0` active and nothing bound,
`bind_as_sampler(GL_TEXTURE0 + 1)` of texture 5 leaves unit 1 active with no texture
bound to `GL_TEXTURE_2D` there; texture 5 is bound on unit 0. -/
theorem bind_as_sampler_leaves_slot_unbound :
    sampled_texture.bind_as_sampler (GL_TEXTURE0 + 1) =
      .ok [.texture (.glBindTexture GL_TEXTURE_2D 5), .glActiveTexture (GL_TEXTURE0 + 1)] ∧
    (TextureUnits.run { max_units := 16 }
      [.texture (.glBindTexture GL_TEXTURE_2D 5), .glActiveTexture (GL_TEXTURE0 + 1)]).active
      = GL_TEXTURE0 + 1 ∧
    (TextureUnits.run { max_units := 16 }
      [.texture (.glBindTexture GL_TEXTURE_2D 5), .glActiveTexture (GL_TEXTURE0 + 1)]).bound
      (GL_TEXTURE0 + 1) GL_TEXTURE_2D = 0 ∧
    (TextureUnits.run { max_units := 16 }
      [.texture (.glBindTexture GL_TEXTURE_2D 5), .glActiveTexture (GL_TEXTURE0 + 1)]).bound
      GL_TEXTURE0 GL_TEXTURE_2D = 5 := by
  refine ⟨rfl, by decide, by decide, by decide⟩

theorem read_info_log_empty (response : InfoResponse) :
    (read_info_log [] response = [] ↔ response.status = true) ∧
    (response.status = false →
      (read_info_log [] response).length = response.log_length + 1) := by
  have hlen : (response.glGetInfoLog response.log_length).length ≤ response.log_length := by
    unfold InfoResponse.glGetInfoLog
    split
    · simp
    · simp only [List.length_append, List.length_take, List.length_singleton]
      omega
  have hfail : response.status = false →
      (read_info_log [] response).length = response.log_length + 1 := by
    intro hs
    simp only [read_info_log, InfoResponse.status_value, hs, Bool.false_eq_true, if_false,
      GL_FALSE, if_true]
    rw [length_overwrite _ _ _ (by simp [length_vec_resize]; omega), length_vec_resize]
  refine ⟨?_, hfail⟩
  cases hs : response.status with
  | true =>
    simp [read_info_log, InfoResponse.status_value, hs, GL_TRUE]
  | false =>
    have := hfail hs
    constructor
    · intro h
      rw [h] at this
      simp at this
    · intro h
      exact absurd h (by simp)

/-- C22. The diagnostic log is the success signal: for every shader type, source and
device response, the log of the shader `Shader::make` returns is empty if and only if
the device reports compile status success, and for every shader list and device
response the log of the program `Program::make` returns is empty if and only if the
device reports link status success; after a failure the log has one character more
than the reported information-log length, so it is not empty when that length is 0. -/
theorem log_empty_iff_success (dev : Device) (type : GLenum) (code : List Byte)
    (shaders : List Shader) (response : InfoResponse) :
    ((Shader.make dev type code response).1.get_log = [] ↔ response.status = true) ∧
    ((Program.make dev shaders response).1.get_log = [] ↔ response.status = true) ∧
    (response.status = false →
      (Shader.make dev type code response).1.get_log.length = response.log_length + 1 ∧
      (Program.make dev shaders response).1.get_log.length = response.log_length + 1) := by
  obtain ⟨h1, h2⟩ := read_info_log_empty response
  exact ⟨h1, h1, fun hs => ⟨h2 hs, h2 hs⟩⟩

/-- C25. `Shader::compiled()` and `Program::linked()` return `!m_log.empty()`: on the
objects `Shader::make` and `Program::make` return they are true if and only if the
device reported a FAILURE of the compilation or of the link, and false after a
success. -/
theorem compiled_reports_failure (dev : Device) (type : GLenum) (code : List Byte)
    (shaders : List Shader) (response : InfoResponse) :
    ((Shader.make dev type code response).1.compiled = true ↔ response.status = false) ∧
    ((Program.make dev shaders response).1.linked = true ↔ response.status = false) ∧
    (Shader.make {} GL_VERTEX_SHADER code success_response).1.compiled = false ∧
    (Program.make {} shaders success_response).1.linked = false ∧
    (Shader.make {} GL_VERTEX_SHADER code failure_response).1.compiled = true ∧
    (Program.make {} shaders failure_response).1.linked = true := by
  obtain ⟨h1, -⟩ := read_info_log_empty response
  have key : (!(read_info_log [] response).isEmpty) = true ↔ response.status = false := by
    rw [Bool.not_eq_true', ← Bool.not_eq_true, List.isEmpty_iff, h1]
    simp
  exact ⟨key, key, rfl, rfl, rfl, rfl⟩

theorem framework.Viewport.setup_framebuffer_ok {framebuffer fb : Framebuffer}
    {dev dev' : Device} {additional : List GLenum}
    (h : framework.Viewport.setup_framebuffer framebuffer dev additional = .ok (fb, dev')) :
    fb.m_width = framebuffer.m_width ∧ fb.m_height = framebuffer.m_height ∧
    fb.m_sample_count = framebuffer.m_sample_count := by
  obtain ⟨-, h1, h2, h3, -⟩ := Framebuffer.run_ok _ _ _ _ _ h
  exact ⟨h1, h2, h3⟩

theorem framework.Viewport.resize_ok (self vp : framework.Viewport) (dev dev' : Device)
    (width height sample_count : Int) (hres : self.Resolved)
    (h : self.resize dev width height sample_count = .ok (vp, dev')) :
    vp.m_framebuffer.m_width = (max width 1).toNat ∧
    vp.m_framebuffer.m_height = (max height 1).toNat ∧
    vp.m_framebuffer.m_sample_count = (max sample_count 1).toNat ∧
    vp.m_additional_attachments = self.m_additional_attachments ∧
    vp.Resolved := by
  have hs1 : 1 ≤ (max sample_count 1).toNat := by omega
  unfold framework.Viewport.resize at h
  simp only at h
  split at h
  · simp only [Framebuffer.make, impl.GLObject.make] at h
    split at h
    · exact absurd h (by simp)
    · rename_i fb1 dev1 hsetup
      obtain ⟨hw, hh, hs⟩ := framework.Viewport.setup_framebuffer_ok hsetup
      simp only at hw hh hs
      split at h
      · rename_i hmulti
        split at h
        · exact absurd h (by simp)
        · rename_i fb2 dev2 hsetup2
          obtain ⟨hw2, hh2, hs2⟩ := framework.Viewport.setup_framebuffer_ok hsetup2
          simp only at hw2 hh2 hs2
          simp only [Except.ok.injEq, Prod.mk.injEq] at h
          obtain ⟨rfl, -⟩ := h
          refine ⟨hw, hh, hs, rfl, ?_, ?_, ?_⟩
          · exact hs.symm
          · show 1 ≤ fb1.m_sample_count
            rw [hs]; exact hs1
          · intro _
            exact ⟨hs2, by rw [hw2]; exact hw.symm, by rw [hh2]; exact hh.symm⟩
      · rename_i hsingle
        simp only [Except.ok.injEq, Prod.mk.injEq] at h
        obtain ⟨rfl, -⟩ := h
        refine ⟨hw, hh, hs, rfl, ?_, ?_, ?_⟩
        · exact hs.symm
        · show 1 ≤ fb1.m_sample_count
          rw [hs]; exact hs1
        · intro hm
          exfalso
          have hm' : 1 < fb1.m_sample_count := hm
          rw [hs] at hm'
          exact hsingle hm'
  · rename_i hsame
    simp only [not_or, not_not] at hsame
    obtain ⟨hw, hh, hs⟩ := hsame
    simp only [Except.ok.injEq, Prod.mk.injEq] at h
    obtain ⟨rfl, -⟩ := h
    exact ⟨hw, hh, hs, rfl, hs.symm, hres.2.1, hres.2.2⟩

theorem framework.Viewport.resize_same (self : framework.Viewport) (dev : Device)
    (width height sample_count : Int) (hres : self.Resolved)
    (hw : (max width 1).toNat = self.m_framebuffer.m_width)
    (hh : (max height 1).toNat = self.m_framebuffer.m_height)
    (hs : (max sample_count 1).toNat = self.m_framebuffer.m_sample_count) :
    self.resize dev width height sample_count = .ok (self, dev) := by
  unfold framework.Viewport.resize
  simp only [hw, hh, hs, ne_eq, not_true_eq_false, or_self, if_false]
  rw [← hres.1]

theorem framework.Viewport.run_resolved :
    ∀ (resizes : List (Int × Int × Int)) (self vp : framework.Viewport) (dev dev' : Device),
      self.Resolved → self.run dev resizes = .ok (vp, dev') →
      vp.Resolved ∧ vp.m_additional_attachments = self.m_additional_attachments := by
  intro resizes
  induction resizes with
  | nil =>
    intro self vp dev dev' hres h
    simp only [framework.Viewport.run, Except.ok.injEq, Prod.mk.injEq] at h
    obtain ⟨rfl, -⟩ := h
    exact ⟨hres, rfl⟩
  | cons r rest ih =>
    intro self vp dev dev' hres h
    obtain ⟨width, height, sample_count⟩ := r
    simp only [framework.Viewport.run] at h
    split at h
    · exact absurd h (by simp)
    · rename_i vp1 dev1 hresize
      obtain ⟨-, -, -, hadd, hres1⟩ :=
        framework.Viewport.resize_ok self vp1 dev dev1 width height sample_count hres hresize
      obtain ⟨h1, h2⟩ := ih vp1 vp dev1 dev' hres1 h
      exact ⟨h1, by rw [h2, hadd]⟩

theorem framework.Viewport.run_append :
    ∀ (a b : List (Int × Int × Int)) (self : framework.Viewport) (dev : Device),
      self.run dev (a ++ b) =
        match self.run dev a with
        | .error e => .error e
        | .ok (vp, dev1) => vp.run dev1 b := by
  intro a
  induction a with
  | nil => intro b self dev; rfl
  | cons r rest ih =>
    intro b self dev
    obtain ⟨width, height, sample_count⟩ := r
    simp only [List.cons_append, framework.Viewport.run]
    cases self.resize dev width height sample_count with
    | error e => rfl
    | ok p => exact ih b p.1 p.2

theorem framework.Viewport.setup_framebuffer_returns (framebuffer : Framebuffer) (dev : Device)
    (additional : List GLenum)
    (hformats : ∀ format ∈ additional, ∃ pixel_info,
      impl.get_pixel_info format = .ok pixel_info)
    (hwidth : framebuffer.m_width ≠ 0) :
    ∃ fb dev', framework.Viewport.setup_framebuffer framebuffer dev additional =
      .ok (fb, dev') := by
  apply Framebuffer.run_returns _ _ _ _ hwidth
  intro internal_format target options hm
  simp only [List.cons_append, List.singleton_append, List.mem_cons, List.mem_map,
    reduceCtorEq, false_or, FramebufferOp.add_color_attachment.injEq, List.nil_append] at hm
  rcases hm with ⟨rfl, -, -⟩ | ⟨format, hf, rfl, -, -⟩
  · exact ⟨_, rfl⟩
  · exact hformats format hf

/-- A `Viewport::resize` returns when the additional attachment formats are in the
table of `get_pixel_info`. -/
theorem framework.Viewport.resize_returns (self : framework.Viewport) (dev : Device)
    (width height sample_count : Int)
    (hformats : ∀ format ∈ self.m_additional_attachments, ∃ pixel_info,
      impl.get_pixel_info format = .ok pixel_info) :
    ∃ vp dev', self.resize dev width height sample_count = .ok (vp, dev') := by
  have hw : (max width 1).toNat ≠ 0 := by omega
  unfold framework.Viewport.resize
  simp only
  split
  · simp only [Framebuffer.make, impl.GLObject.make]
    obtain ⟨fb1, dev1, h1⟩ := framework.Viewport.setup_framebuffer_returns
      { m_gl := dev.generated + 1, m_sample_count := (max sample_count 1).toNat,
        m_width := (max width 1).toNat, m_height := (max height 1).toNat }
      { generated := dev.generated + 1 } self.m_additional_attachments hformats hw
    rw [h1]
    simp only
    split
    · obtain ⟨fb2, dev2, h2⟩ := framework.Viewport.setup_framebuffer_returns
        { m_gl := dev1.generated + 1, m_sample_count := 1,
          m_width := (max width 1).toNat, m_height := (max height 1).toNat }
        { generated := dev1.generated + 1 } self.m_additional_attachments hformats hw
      rw [h2]
      exact ⟨_, _, rfl⟩
    · exact ⟨_, _, rfl⟩
  · exact ⟨_, _, rfl⟩

theorem framework.Viewport.run_resizes_return :
    ∀ (resizes : List (Int × Int × Int)) (self : framework.Viewport) (dev : Device),
      self.Resolved →
      (∀ format ∈ self.m_additional_attachments, ∃ pixel_info,
        impl.get_pixel_info format = .ok pixel_info) →
      ∃ vp dev', self.run dev resizes = .ok (vp, dev') := by
  intro resizes
  induction resizes with
  | nil => intro self dev _ _; exact ⟨self, dev, rfl⟩
  | cons r rest ih =>
    intro self dev hres hformats
    obtain ⟨width, height, sample_count⟩ := r
    obtain ⟨vp1, dev1, h1⟩ :=
      framework.Viewport.resize_returns self dev width height sample_count hformats
    obtain ⟨-, -, -, hadd, hres1⟩ :=
      framework.Viewport.resize_ok self vp1 dev dev1 width height sample_count hres h1
    obtain ⟨vp, dev', h2⟩ := ih vp1 dev1 hres1 (by rw [hadd]; exact hformats)
    refine ⟨vp, dev', ?_⟩
    simp only [framework.Viewport.run, h1]
    exact h2

/-- C24. `Viewport::final_framebuffer` is always a single-sampled framebuffer of the
current size.  In the viewport state after any sequence of returning `resize` calls on
a constructed viewport, the empty sequence included: when there is a last call
`resize(width, height, sample_count)`, the primary framebuffer has width max(width, 1),
height max(height, 1) and sample count max(sample_count, 1); `final_framebuffer()` is
the primary framebuffer when that sample count is 1 and the resolve framebuffer
otherwise, and then the resolve framebuffer has sample count 1 and the width and height
of the primary one; so `final_framebuffer()` has sample count 1 and the width and
height of the primary framebuffer; and a further `resize` whose clamped arguments are
the primary framebuffer's width, height and sample count returns the same viewport on
the same device: it allocates nothing. -/
theorem final_framebuffer_is_single_sampled (additional : List GLenum) (dev dev' : Device)
    (resizes : List (Int × Int × Int)) (vp : framework.Viewport)
    (h : (framework.Viewport.make additional).run dev resizes = .ok (vp, dev')) :
    (∀ width height sample_count : Int,
      resizes.getLast? = some (width, height, sample_count) →
      vp.m_framebuffer.m_width = (max width 1).toNat ∧
      vp.m_framebuffer.m_height = (max height 1).toNat ∧
      vp.m_framebuffer.m_sample_count = (max sample_count 1).toNat) ∧
    (vp.m_framebuffer.m_sample_count = 1 → vp.final_framebuffer = vp.m_framebuffer) ∧
    (vp.m_framebuffer.m_sample_count ≠ 1 →
      vp.final_framebuffer = vp.m_resolve_framebuffer ∧
      vp.m_resolve_framebuffer.m_sample_count = 1 ∧
      vp.m_resolve_framebuffer.m_width = vp.m_framebuffer.m_width ∧
      vp.m_resolve_framebuffer.m_height = vp.m_framebuffer.m_height) ∧
    vp.final_framebuffer.m_sample_count = 1 ∧
    vp.final_framebuffer.m_width = vp.m_framebuffer.m_width ∧
    vp.final_framebuffer.m_height = vp.m_framebuffer.m_height ∧
    (∀ (dev2 : Device) (width2 height2 sample_count2 : Int),
      (max width2 1).toNat = vp.m_framebuffer.m_width →
      (max height2 1).toNat = vp.m_framebuffer.m_height →
      (max sample_count2 1).toNat = vp.m_framebuffer.m_sample_count →
      vp.resize dev2 width2 height2 sample_count2 = .ok (vp, dev2)) := by
  have hinit : (framework.Viewport.make additional).Resolved :=
    ⟨rfl, Nat.le_refl 1, fun hm => absurd hm (Nat.lt_irrefl 1)⟩
  obtain ⟨⟨hr1, hr2, hr3⟩, -⟩ :=
    framework.Viewport.run_resolved resizes _ vp dev dev' hinit h
  have hsingle : vp.m_framebuffer.m_sample_count = 1 →
      vp.final_framebuffer = vp.m_framebuffer := by
    intro h1
    simp [framework.Viewport.final_framebuffer, h1]
  have hmulti : vp.m_framebuffer.m_sample_count ≠ 1 →
      vp.final_framebuffer = vp.m_resolve_framebuffer ∧
      vp.m_resolve_framebuffer.m_sample_count = 1 ∧
      vp.m_resolve_framebuffer.m_width = vp.m_framebuffer.m_width ∧
      vp.m_resolve_framebuffer.m_height = vp.m_framebuffer.m_height := by
    intro h1
    have hgt : 1 < vp.m_framebuffer.m_sample_count :=
      Nat.lt_of_le_of_ne hr2 (fun e => h1 e.symm)
    refine ⟨?_, hr3 hgt⟩
    simp [framework.Viewport.final_framebuffer, hgt]
  refine ⟨?_, hsingle, hmulti, ?_, ?_, ?_, ?_⟩
  · intro width height sample_count hlast
    rcases List.eq_nil_or_concat resizes with hnil | ⟨init, last, hconcat⟩
    · rw [hnil] at hlast
      exact absurd hlast (by simp)
    · rw [List.concat_eq_append] at hconcat
      rw [hconcat, List.getLast?_concat] at hlast
      simp only [Option.some.injEq] at hlast
      rw [hconcat, hlast, framework.Viewport.run_append] at h
      split at h
      · exact absurd h (by simp)
      · rename_i vp1 dev1 hrun
        obtain ⟨hres1, -⟩ :=
          framework.Viewport.run_resolved init _ vp1 dev dev1 hinit hrun
        simp only [framework.Viewport.run] at h
        split at h
        · exact absurd h (by simp)
        · rename_i vp2 dev2 hresize
          simp only [Except.ok.injEq, Prod.mk.injEq] at h
          obtain ⟨rfl, -⟩ := h
          obtain ⟨hw, hh, hs, -, -⟩ :=
            framework.Viewport.resize_ok vp1 vp2 dev1 dev2 width height sample_count
              hres1 hresize
          exact ⟨hw, hh, hs⟩
  · by_cases h1 : vp.m_framebuffer.m_sample_count = 1
    · rw [hsingle h1]; exact h1
    · rw [(hmulti h1).1]; exact (hmulti h1).2.1
  · by_cases h1 : vp.m_framebuffer.m_sample_count = 1
    · rw [hsingle h1]
    · rw [(hmulti h1).1, (hmulti h1).2.2.1]
  · by_cases h1 : vp.m_framebuffer.m_sample_count = 1
    · rw [hsingle h1]
    · rw [(hmulti h1).1, (hmulti h1).2.2.2]
  · intro dev3 w2 h2 s2 e1 e2 e3
    exact framework.Viewport.resize_same vp dev3 w2 h2 s2 ⟨hr1, hr2, hr3⟩ e1 e2 e3

theorem final_framebuffer_is_single_sampled_witness :
    ∃ vp dev',
      (framework.Viewport.make [GL_RGBA32F]).run {} [(4, 4, 4), (4, 4, 1), (0, -3, 2)]
        = .ok (vp, dev') ∧
      (vp.m_framebuffer.m_width, vp.m_framebuffer.m_height, vp.m_framebuffer.m_sample_count)
        = (1, 1, 2) ∧
      vp.final_framebuffer.m_sample_count = 1 ∧
      vp.final_framebuffer.m_width = 1 := by
  obtain ⟨vp, dev', h⟩ := framework.Viewport.run_resizes_return
    [(4, 4, 4), (4, 4, 1), (0, -3, 2)] (framework.Viewport.make [GL_RGBA32F]) {}
    ⟨rfl, Nat.le_refl 1, fun hm => absurd hm (Nat.lt_irrefl 1)⟩
    (by
      intro format hf
      simp only [framework.Viewport.make, List.mem_singleton] at hf
      subst hf
      exact ⟨_, rfl⟩)
  have hthm := final_framebuffer_is_single_sampled [GL_RGBA32F] {} dev'
    [(4, 4, 4), (4, 4, 1), (0, -3, 2)] vp h
  obtain ⟨hw, hh, hs⟩ := hthm.1 0 (-3) 2 rfl
  refine ⟨vp, dev', h, ?_, hthm.2.2.2.1, ?_⟩
  · rw [hw, hh, hs]
    rfl
  · rw [hthm.2.2.2.2.1, hw]
    rfl

theorem two_mul_pow_le_succ_pow (n : ℕ) (hn : 1 ≤ n) :
    2 * (n : ℝ) ^ n ≤ ((n : ℝ) + 1) ^ n := by
  have hpos : (0 : ℝ) < n := by exact_mod_cast hn
  have hb : 1 + (n : ℝ) * (1 / n) ≤ (1 + 1 / (n : ℝ)) ^ n :=
    one_add_mul_le_pow (by have : (0 : ℝ) ≤ 1 / n := by positivity
                           linarith) n
  have h2 : 1 + (n : ℝ) * (1 / n) = 2 := by field_simp; norm_num
  have h3 : ((n : ℝ) + 1) ^ n = (n : ℝ) ^ n * (1 + 1 / (n : ℝ)) ^ n := by
    rw [← mul_pow]
    congr 1
    field_simp
  rw [h3]
  have hp : (0 : ℝ) ≤ (n : ℝ) ^ n := by positivity
  nlinarith

theorem two_mul_pred_pow_le_pow (m : ℕ) (hm : 2 ≤ m) :
    2 * ((m : ℝ) - 1) ^ m ≤ (m : ℝ) ^ m := by
  have hpos : (0 : ℝ) < (m : ℝ) - 1 := by
    have : (2 : ℝ) ≤ m := by exact_mod_cast hm
    linarith
  have hb : 1 + (m : ℝ) * (1 / ((m : ℝ) - 1)) ≤ (1 + 1 / ((m : ℝ) - 1)) ^ m :=
    one_add_mul_le_pow (by have : (0 : ℝ) ≤ 1 / ((m : ℝ) - 1) := by positivity
                           linarith) m
  have h2 : 2 ≤ 1 + (m : ℝ) * (1 / ((m : ℝ) - 1)) := by
    have : 1 ≤ (m : ℝ) * (1 / ((m : ℝ) - 1)) := by
      rw [mul_one_div, le_div_iff₀ hpos]
      linarith
    linarith
  have h3 : (m : ℝ) ^ m = ((m : ℝ) - 1) ^ m * (1 + 1 / ((m : ℝ) - 1)) ^ m := by
    rw [← mul_pow]
    congr 1
    field_simp
  rw [h3]
  have hp : (0 : ℝ) ≤ ((m : ℝ) - 1) ^ m := by positivity
  nlinarith

/-- Strictly between two powers of two the binary logarithm keeps a distance of
`2 ^ (-k)` from `k`. -/
theorem logb_lower (x k : ℕ) (hx : 2 ^ k + 1 ≤ x) :
    (k : ℝ) + 1 / 2 ^ k ≤ Real.logb 2 x := by
  have hlog2 : 0 < Real.log 2 := Real.log_pos (by norm_num)
  have hN : (1 : ℕ) ≤ 2 ^ k := Nat.one_le_two_pow
  have hxr : ((2 : ℝ) ^ k) + 1 ≤ (x : ℝ) := by exact_mod_cast hx
  have hxpos : (0 : ℝ) < x := by
    have : (0 : ℝ) < 2 ^ k := by positivity
    linarith
  have hA := two_mul_pow_le_succ_pow (2 ^ k) hN
  push_cast at hA
  have hpow : 2 * ((2 : ℝ) ^ k) ^ (2 ^ k) ≤ (x : ℝ) ^ (2 ^ k) :=
    le_trans hA (pow_le_pow_left₀ (by positivity) hxr _)
  have hl := Real.log_le_log (by positivity) hpow
  rw [Real.log_mul (by norm_num) (by positivity), Real.log_pow, Real.log_pow, Real.log_pow] at hl
  push_cast at hl
  rw [Real.logb, le_div_iff₀ hlog2]
  have hNpos : (0 : ℝ) < 2 ^ k := by positivity
  have : ((k : ℝ) + 1 / 2 ^ k) * Real.log 2 * 2 ^ k ≤ Real.log x * 2 ^ k := by
    have e : ((k : ℝ) + 1 / 2 ^ k) * Real.log 2 * 2 ^ k
        = Real.log 2 + 2 ^ k * (k * Real.log 2) := by
      field_simp
      ring
    rw [e]
    linarith
  exact le_of_mul_le_mul_right this hNpos

theorem logb_upper (x k : ℕ) (hx0 : 1 ≤ x) (hx : x + 1 ≤ 2 ^ (k + 1)) :
    Real.logb 2 x ≤ (k : ℝ) + 1 - 1 / 2 ^ (k + 1) := by
  have hlog2 : 0 < Real.log 2 := Real.log_pos (by norm_num)
  have hM : (2 : ℕ) ≤ 2 ^ (k + 1) := by
    calc 2 = 2 ^ 1 := by norm_num
      _ ≤ 2 ^ (k + 1) := Nat.pow_le_pow_right (by norm_num) (by omega)
  have hxr : (x : ℝ) ≤ ((2 : ℝ) ^ (k + 1)) - 1 := by
    have : ((x + 1 : ℕ) : ℝ) ≤ ((2 ^ (k + 1) : ℕ) : ℝ) := by exact_mod_cast hx
    push_cast at this
    linarith
  have hxpos : (0 : ℝ) < x := by exact_mod_cast hx0
  have hB := two_mul_pred_pow_le_pow (2 ^ (k + 1)) hM
  push_cast at hB
  have hpow : 2 * (x : ℝ) ^ (2 ^ (k + 1)) ≤ ((2 : ℝ) ^ (k + 1)) ^ (2 ^ (k + 1)) :=
    le_trans (mul_le_mul_of_nonneg_left (pow_le_pow_left₀ hxpos.le hxr _) (by norm_num)) hB
  have hl := Real.log_le_log (by positivity) hpow
  rw [Real.log_mul (by norm_num) (by positivity), Real.log_pow, Real.log_pow, Real.log_pow] at hl
  push_cast at hl
  rw [Real.logb, div_le_iff₀ hlog2]
  have hMpos : (0 : ℝ) < 2 ^ (k + 1) := by positivity
  have : Real.log x * 2 ^ (k + 1) ≤ ((k : ℝ) + 1 - 1 / 2 ^ (k + 1)) * Real.log 2 * 2 ^ (k + 1) := by
    have e : ((k : ℝ) + 1 - 1 / 2 ^ (k + 1)) * Real.log 2 * 2 ^ (k + 1)
        = 2 ^ (k + 1) * ((k + 1) * Real.log 2) - Real.log 2 := by
      field_simp
      ring
    rw [e]
    linarith
  exact le_of_mul_le_mul_right this hMpos

theorem floor_log2_of_accurate (log2 : Nat → ℚ) (x : Nat) (hx1 : 1 ≤ x) (hx : x < 2 ^ 31)
    (hacc : AccurateLog2 log2 x) : ⌊log2 x⌋ = (Nat.log2 x : ℤ) := by
  obtain ⟨hexact, hclose⟩ := hacc
  have hx0 : x ≠ 0 := by omega
  have hlo : 2 ^ Nat.log2 x ≤ x := Nat.log2_self_le hx0
  have hhi : x < 2 ^ (Nat.log2 x + 1) := Nat.lt_log2_self
  generalize Nat.log2 x = k at hlo hhi
  have hk : k < 31 := by
    have : 2 ^ k < 2 ^ 31 := lt_of_le_of_lt hlo hx
    exact (Nat.pow_lt_pow_iff_right (by norm_num)).mp this
  have hreal : (k : ℝ) ≤ ((log2 x : ℚ) : ℝ) ∧ ((log2 x : ℚ) : ℝ) < (k : ℝ) + 1 := by
    by_cases hp : x = 2 ^ k
    · rw [hexact k hp]
      push_cast
      exact ⟨le_refl _, by linarith⟩
    · have h1 : 2 ^ k + 1 ≤ x := by omega
      have h2 : x + 1 ≤ 2 ^ (k + 1) := by omega
      have hL := logb_lower x k h1
      have hU := logb_upper x k hx1 h2
      have habs := abs_le.mp hclose
      have e1 : (1 : ℝ) / 2 ^ 30 ≤ 1 / 2 ^ k := by
        apply one_div_le_one_div_of_le (by positivity)
        exact pow_le_pow_right₀ (by norm_num) (by omega)
      have e2 : (1 : ℝ) / 2 ^ 31 ≤ 1 / 2 ^ (k + 1) := by
        apply one_div_le_one_div_of_le (by positivity)
        exact pow_le_pow_right₀ (by norm_num) (by omega)
      have e3 : (1 : ℝ) / 2 ^ 33 < 1 / 2 ^ 31 := by norm_num
      have e4 : (1 : ℝ) / 2 ^ 31 < 1 / 2 ^ 30 := by norm_num
      constructor
      · linarith [habs.1]
      · linarith [habs.2]
  rw [Int.floor_eq_iff]
  constructor
  · have := hreal.1
    exact_mod_cast this
  · have := hreal.2
    exact_mod_cast this

theorem accurate_at_two_pow (k : Nat) : AccurateLog2 (fun x => (Nat.log2 x : ℚ)) (2 ^ k) := by
  constructor
  · intro j hj
    have : k = j := Nat.pow_right_injective (le_refl 2) hj
    subst this
    simp [Nat.log2_two_pow]
  · have h : Real.logb 2 ((2 ^ k : ℕ) : ℝ) = k := by
      push_cast
      rw [Real.logb, Real.log_pow]
      have : Real.log 2 ≠ 0 := ne_of_gt (Real.log_pos (by norm_num))
      field_simp
    rw [h]
    simp [Nat.log2_two_pow]

theorem testBit_log2 (x : Nat) (hx : x ≠ 0) :
    x.testBit (Nat.log2 x) = true ∧ ∀ i, Nat.log2 x < i → x.testBit i = false := by
  have hlo : 2 ^ Nat.log2 x ≤ x := Nat.log2_self_le hx
  have hhi : x < 2 ^ (Nat.log2 x + 1) := Nat.lt_log2_self
  constructor
  · rw [Nat.testBit_to_div_mod]
    have hdiv : x / 2 ^ Nat.log2 x = 1 := by
      apply Nat.div_eq_of_lt_le
      · rw [Nat.one_mul]; exact hlo
      · rw [Nat.pow_succ] at hhi
        omega
    rw [hdiv]
    rfl
  · intro i hi
    apply Nat.testBit_lt_two_pow
    exact lt_of_lt_of_le hhi (Nat.pow_le_pow_right (by norm_num) hi)

theorem log2_mono {x y : Nat} (h : x ≤ y) : Nat.log2 x ≤ Nat.log2 y := by
  rw [Nat.log2_eq_log_two, Nat.log2_eq_log_two]
  exact Nat.log_mono_right h

/-- C23. `Texture::lod_count_2D` is floor(log2(max(width, height))) + 1.  For a texture
with width >= 1 and height >= 1 (max(width, height) >= 1 is what the proof uses; both
below 2^31, the range of `GLsizei`), on a platform
whose `std::log2` is exact at powers of two and within 2^(-33) of the binary logarithm
at the argument, the value computed in floating point is the position of the highest
set bit of max(width, height) plus 1; this is the value the model of `Texture::make`
uses; and the result is non-decreasing in the width and in the height. -/
theorem lod_count_2D_is_floor_log2 (log2 : Nat → ℚ) (self other : Texture)
    (hpos : 1 ≤ max self.m_width self.m_height)
    (hmax : max self.m_width self.m_height < 2 ^ 31)
    (hacc : AccurateLog2 log2 (max self.m_width self.m_height))
    (hmax_other : max other.m_width other.m_height < 2 ^ 31)
    (hacc_other : AccurateLog2 log2 (max other.m_width other.m_height)) :
    self.lod_count_2D_libm log2 =
      .ok ((Nat.log2 (max self.m_width self.m_height) : ℤ) + 1) ∧
    self.lod_count_2D = .ok (Nat.log2 (max self.m_width self.m_height) + 1) ∧
    (max self.m_width self.m_height).testBit (Nat.log2 (max self.m_width self.m_height))
      = true ∧
    (∀ i, Nat.log2 (max self.m_width self.m_height) < i →
      (max self.m_width self.m_height).testBit i = false) ∧
    (self.m_width ≤ other.m_width → self.m_height ≤ other.m_height →
      ∃ a b, self.lod_count_2D_libm log2 = .ok a ∧ other.lod_count_2D_libm log2 = .ok b ∧
        a ≤ b) := by
  have hx1 : 1 ≤ max self.m_width self.m_height := hpos
  have hx0 : max self.m_width self.m_height ≠ 0 := Nat.one_le_iff_ne_zero.mp hx1
  have hfloor := floor_log2_of_accurate log2 _ hx1 hmax hacc
  have hself : self.lod_count_2D_libm log2 =
      .ok ((Nat.log2 (max self.m_width self.m_height) : ℤ) + 1) := by
    simp only [Texture.lod_count_2D_libm, hx0, if_false, hfloor]
  obtain ⟨hbit, hbits⟩ := testBit_log2 _ hx0
  refine ⟨hself, ?_, hbit, hbits, ?_⟩
  · simp only [Texture.lod_count_2D, Texture.lod_count, hx0, if_false]
  · intro hw' hh'
    have hm : max self.m_width self.m_height ≤ max other.m_width other.m_height :=
      max_le_max hw' hh'
    have hy1 : 1 ≤ max other.m_width other.m_height := le_trans hpos hm
    have hy0 : max other.m_width other.m_height ≠ 0 := Nat.one_le_iff_ne_zero.mp hy1
    have hfloor' := floor_log2_of_accurate log2 _ hy1 hmax_other hacc_other
    have hother : other.lod_count_2D_libm log2 =
        .ok ((Nat.log2 (max other.m_width other.m_height) : ℤ) + 1) := by
      simp only [Texture.lod_count_2D_libm, hy0, if_false, hfloor']
    refine ⟨_, _, hself, hother, ?_⟩
    exact Int.add_le_add_right (Int.ofNat_le.mpr (log2_mono hm)) 1

theorem lod_count_2D_is_floor_log2_witness :
    texture_4x4.lod_count_2D_libm (fun x => (Nat.log2 x : ℚ)) = .ok ((Nat.log2 4 : ℤ) + 1) ∧
    Nat.log2 4 = 2 ∧
    Nat.testBit 4 2 = true :=
  ⟨(lod_count_2D_is_floor_log2 (fun x => (Nat.log2 x : ℚ)) texture_4x4 texture_8x2
      (by decide) (by decide) (accurate_at_two_pow 2) (by decide)
      (accurate_at_two_pow 3)).1,
    by simp [Nat.log2], by decide⟩

end picogl
